import Mathlib

/-!
# Monte Carlo view factors with blockage (`backend/calcus.cpp`)

A shallow embedding of the ray tracer of `my-raytracer-app/backend/calcus.cpp`.

* `double` is an arbitrary linearly ordered field `α` (exact arithmetic); a `double`
  that may hold `+infinity` is `WithTop α`. Every division of the program but one has a
  divisor that a preceding comparison keeps away from zero; the exception, in the crossing
  test of `isPointInPolygon2D`, is modelled with its IEEE outcome (`edgeStep`).
* The C/C++ library routines the program calls (`std::sqrt`, `std::cos`, `std::sin`,
  `std::mt19937_64`, `std::uniform_real_distribution`, `strtod`, `strtoull`, stream
  formatting) are parameters, collected in `MathLib`, `RandomSource` and `CLib`.
* Machine integers are `Nat` and `Int` with the wrap-around written out where the source
  converts or overflows: the `int` that records the nearest emitter, the 64-bit seed.
* A cursor `(s, i)` of the hand-written JSON reader is the unread suffix `s[i..]`.
* `while` loops of the reader carry a fuel argument; `none` means the fuel ran out.
-/

namespace Radiation

/-! ## Vector algebra -/

/-- The source's `struct Vec3`. -/
structure Vec3 (α : Type) where
  x : α
  y : α
  z : α
deriving DecidableEq

/-- The functions of `<cmath>` the program calls. -/
structure MathLib (α : Type) where
  sqrt : α → α
  cos : α → α
  sin : α → α

/-- The generator `std::mt19937_64` together with `std::uniform_real_distribution<double>(0,1)`
and `std::seed_seq`: `seed s` is `rng.seed(s)`, `seedSeq` builds a generator from the values of
`std::random_device`, `uniform` is one call `dist(rng)`, `init` the default-constructed generator. -/
structure RandomSource (α : Type) where
  State : Type
  init : State
  seed : Nat → State
  seedSeq : List Nat → State
  uniform : State → α × State

section Core

variable {α : Type} [LinearOrderedField α]

/-- The default constructor `Vec3()`. -/
def Vec3.zero : Vec3 α := ⟨0, 0, 0⟩

/-- The source's `operator+`. -/
def Vec3.add (a b : Vec3 α) : Vec3 α := ⟨a.x + b.x, a.y + b.y, a.z + b.z⟩

/-- The source's `operator-`. -/
def Vec3.sub (a b : Vec3 α) : Vec3 α := ⟨a.x - b.x, a.y - b.y, a.z - b.z⟩

/-- The source's `operator*(double)`. -/
def Vec3.scale (a : Vec3 α) (s : α) : Vec3 α := ⟨a.x * s, a.y * s, a.z * s⟩

/-- The source's `operator/(double)`. -/
def Vec3.divide (a : Vec3 α) (s : α) : Vec3 α := ⟨a.x / s, a.y / s, a.z / s⟩

def dot (a b : Vec3 α) : α := a.x * b.x + a.y * b.y + a.z * b.z

def cross (a b : Vec3 α) : Vec3 α :=
  ⟨a.y * b.z - a.z * b.y, a.z * b.x - a.x * b.z, a.x * b.y - a.y * b.x⟩

def length (M : MathLib α) (v : Vec3 α) : α := M.sqrt (dot v v)

def normalize (M : MathLib α) (v : Vec3 α) : Vec3 α :=
  let len := length M v
  if len ≤ 1 / 10 ^ 12 then ⟨0, 0, 0⟩ else v.divide len

/-! ## Planes and polygons -/

structure Plane (α : Type) where
  normal : Vec3 α
  point : Vec3 α

structure PolygonWithTemp (α : Type) where
  vertices : List (Vec3 α)
  temperature : α

structure ReceiverPoint (α : Type) where
  origin : Vec3 α
  normal : Vec3 α

/-- Plane of a polygon from its first three vertices; `none` is `std::nullopt`. -/
def getPolygonPlane (M : MathLib α) (verts : List (Vec3 α)) : Option (Plane α) :=
  match verts with
  | v0 :: v1 :: v2 :: _ =>
    let e1 := v1.sub v0
    let e2 := v2.sub v0
    let n := cross e1 e2
    let nmag := length M n
    if nmag < 1 / 10 ^ 9 then none else some ⟨n.divide nmag, v0⟩
  | _ => none

/-- Ray-plane intersection: the hit point (if any) and the parameter `t`, `⊤` when there is
no forward hit. -/
def rayPlaneIntersect (rayOrigin rayDir planeNormal pointOnPlane : Vec3 α) :
    Option (Vec3 α) × WithTop α :=
  let ndotu := dot planeNormal rayDir
  if |ndotu| < 1 / 10 ^ 9 then (none, ⊤)
  else
    let w := rayOrigin.sub pointOnPlane
    let t := -(dot planeNormal w) / ndotu
    if t < 1 / 10 ^ 7 then (none, ⊤)
    else (some (rayOrigin.add (rayDir.scale t)), (t : WithTop α))

/-- One iteration of the edge loop of `isPointInPolygon2D`: the state is `(j, inside)`.
The quotient of the crossing test is the one division of the program whose divisor is not
guarded by a comparison. When the shifted divisor `(pj.y - pi.y) + 1e-30` is zero, the IEEE
quotient is `+inf` for a positive dividend, `-inf` for a negative one and NaN for a zero one,
and `x < quotient + pi.x` holds in the first case only. -/
def edgeStep (poly : List (α × α)) (x y : α) (st : Nat × Bool) (i : Nat) : Nat × Bool :=
  let pi := poly.getD i (0, 0)
  let pj := poly.getD st.1 (0, 0)
  let num := (pj.1 - pi.1) * (y - pi.2)
  let den := (pj.2 - pi.2) + 1 / 10 ^ 30
  let crosses : Bool :=
    if den = 0 then decide (0 < num) else decide (x < num / den + pi.1)
  let intersect : Bool := (decide (pi.2 > y) != decide (pj.2 > y)) && crosses
  (i, if intersect then !st.2 else st.2)

/-- Even-odd ray casting: `for (i = 0, j = n - 1; i < n; j = i++)`. -/
def isPointInPolygon2D (poly : List (α × α)) (x y : α) : Bool :=
  let n := poly.length
  ((List.range n).foldl (edgeStep poly x y) (n - 1, false)).2

/-- The source's `coords[k]` for `double coords[3] = {v.x, v.y, v.z}`. -/
def Vec3.coord (v : Vec3 α) (k : Nat) : α :=
  if k = 0 then v.x else if k = 1 then v.y else v.z

/-- The indices `(a, b)` of the two coordinates kept by `isPointInPolygon3D`. -/
def keptAxes (polygonNormal : Vec3 α) : Nat × Nat :=
  let absn : Vec3 α := ⟨|polygonNormal.x|, |polygonNormal.y|, |polygonNormal.z|⟩
  if absn.x ≥ absn.y ∧ absn.x ≥ absn.z then (1, 2)
  else if absn.y ≥ absn.x ∧ absn.y ≥ absn.z then (0, 2)
  else (0, 1)

def isPointInPolygon3D (p : Vec3 α) (polygon : List (Vec3 α)) (polygonNormal : Vec3 α) : Bool :=
  let ab := keptAxes polygonNormal
  let poly2d := polygon.map (fun v => (v.coord ab.1, v.coord ab.2))
  isPointInPolygon2D poly2d (p.coord ab.1) (p.coord ab.2)

/-! ## Hemisphere sampler -/

/-- The macro `M_PI` of the source. -/
def M_PI : α := 314159265358979323846 / 10 ^ 20

/-- The local `phi = 2.0 * M_PI * u1` of the sampling loop. -/
def samplePhi (u1 : α) : α := 2 * M_PI * u1

/-- The local `cosTheta = std::sqrt(1.0 - u2)` of the sampling loop. -/
def sampleCosTheta (M : MathLib α) (u2 : α) : α := M.sqrt (1 - u2)

/-- The local `sinTheta = std::sqrt(u2)` of the sampling loop. -/
def sampleSinTheta (M : MathLib α) (u2 : α) : α := M.sqrt u2

/-- The body of the sampling loop for the draws `u1` and `u2`: the direction in the local
frame, carried to world coordinates by `u`, `v`, `w`. -/
def sampleDirection (M : MathLib α) (u v w : Vec3 α) (u1 u2 : α) : Vec3 α :=
  let phi := samplePhi u1
  let cosTheta := sampleCosTheta M u2
  let sinTheta := sampleSinTheta M u2
  let loc : Vec3 α := ⟨sinTheta * M.cos phi, sinTheta * M.sin phi, cosTheta⟩
  ⟨u.x * loc.x + v.x * loc.y + w.x * loc.z,
   u.y * loc.x + v.y * loc.y + w.y * loc.z,
   u.z * loc.x + v.z * loc.y + w.z * loc.z⟩

/-- The sampling loop of `generateCosineHemisphereRays`: two draws per ray, in order. -/
def sampleLoop (M : MathLib α) (R : RandomSource α) (u v w : Vec3 α) :
    Nat → R.State → List (Vec3 α) × R.State
  | 0, g => ([], g)
  | n + 1, g =>
    let d1 := R.uniform g
    let d2 := R.uniform d1.2
    let u1 := d1.1
    let u2 := d2.1
    let phi := 2 * M_PI * u1
    let cosTheta := M.sqrt (1 - u2)
    let sinTheta := M.sqrt u2
    let loc : Vec3 α := ⟨sinTheta * M.cos phi, sinTheta * M.sin phi, cosTheta⟩
    let world : Vec3 α :=
      ⟨u.x * loc.x + v.x * loc.y + w.x * loc.z,
       u.y * loc.x + v.y * loc.y + w.y * loc.z,
       u.z * loc.x + v.z * loc.y + w.z * loc.z⟩
    let rest := sampleLoop M R u v w n d2.2
    (world :: rest.1, rest.2)

/-- Cosine-weighted directions around `surfaceNormal`, with the generator state after the
call. -/
def generateCosineHemisphereRays (M : MathLib α) (R : RandomSource α) (numRays : Nat)
    (surfaceNormal : Vec3 α) (rng : R.State) : List (Vec3 α) × R.State :=
  if numRays = 0 then ([], rng)
  else
    let w := normalize M surfaceNormal
    let u :=
      if |w.x| > 9999 / 10000 then normalize M (cross ⟨0, 1, 0⟩ w)
      else normalize M (cross ⟨1, 0, 0⟩ w)
    let v := cross w u
    sampleLoop M R u v w numRays rng

/-- The frame `(u, v, w)` that `generateCosineHemisphereRays` builds around the normal. -/
def hemisphereFrame (M : MathLib α) (surfaceNormal : Vec3 α) : Vec3 α × Vec3 α × Vec3 α :=
  let w := normalize M surfaceNormal
  let u :=
    if |w.x| > 9999 / 10000 then normalize M (cross ⟨0, 1, 0⟩ w)
    else normalize M (cross ⟨1, 0, 0⟩ w)
  let v := cross w u
  (u, v, w)

/-! ## Occlusion resolver -/

structure ViewFactorResult (α : Type) where
  viewFactors : List α
  allRayDirs : List (Vec3 α)
  hitPoints : List (Vec3 α)
  hitRayDirs : List (Vec3 α)

/-- The local `struct PolyData` of `calculateViewFactorsWithBlockage`. -/
structure PolyData (α : Type) where
  verts : List (Vec3 α)
  normal : Vec3 α
  point : Vec3 α
  valid : Bool

/-- One entry of `inertScene` / `emitScene`. -/
def classify (M : MathLib α) (verts : List (Vec3 α)) : PolyData α :=
  match getPolygonPlane M verts with
  | none => ⟨verts, ⟨0, 0, 0⟩, ⟨0, 0, 0⟩, false⟩
  | some pl => ⟨verts, pl.normal, pl.point, true⟩

/-- The loop over `inertScene` for one ray; the state is `closestInert`. -/
def scanInert (origin rdir : Vec3 α) : List (PolyData α) → WithTop α → WithTop α
  | [], closestInert => closestInert
  | pd :: rest, closestInert =>
    if !pd.valid then scanInert origin rdir rest closestInert
    else
      let r := rayPlaneIntersect origin rdir pd.normal pd.point
      match r.1 with
      | some hit =>
        if r.2 < closestInert then
          if isPointInPolygon3D hit pd.verts pd.normal then scanInert origin rdir rest r.2
          else scanInert origin rdir rest closestInert
        else scanInert origin rdir rest closestInert
      | none => scanInert origin rdir rest closestInert

/-- The per-ray locals `closestEmit`, `finalIdx` (an `int`; `-1`: none) and `closestPoint`. -/
structure EmitHit (α : Type) where
  closestEmit : WithTop α
  finalIdx : Int
  closestPoint : Vec3 α

/-- The conversion `static_cast<int>(p)` of an index of type `size_t` to the 32-bit `int`. -/
def indexToInt (p : Nat) : Int := (((p + 2 ^ 31) % 2 ^ 32 : Nat) : Int) - 2 ^ 31

/-- The conversion `static_cast<size_t>(finalIdx)` of an `int` to the 64-bit `size_t`. -/
def intToIndex (k : Int) : Nat := (k % 2 ^ 64).toNat

/-- The loop over `emitScene` for one ray, `p` being the index of the head of the list. -/
def scanEmit (origin rdir : Vec3 α) : Nat → List (PolyData α) → EmitHit α → EmitHit α
  | _, [], st => st
  | p, pd :: rest, st =>
    if !pd.valid then scanEmit origin rdir (p + 1) rest st
    else
      let r := rayPlaneIntersect origin rdir pd.normal pd.point
      match r.1 with
      | some hit =>
        if r.2 < st.closestEmit then
          if isPointInPolygon3D hit pd.verts pd.normal then
            scanEmit origin rdir (p + 1) rest ⟨r.2, indexToInt p, hit⟩
          else scanEmit origin rdir (p + 1) rest st
        else scanEmit origin rdir (p + 1) rest st
      | none => scanEmit origin rdir (p + 1) rest st

/-- The update `hitCounts[k] += 1`. An index past the end leaves the counters as they are;
the ray loop forms none as long as the emitter indices fit the `int` (at most `2^31`
emitters). -/
def incrAt : List Nat → Nat → List Nat
  | [], _ => []
  | c :: cs, 0 => (c + 1) :: cs
  | c :: cs, k + 1 => c :: incrAt cs k

/-- What the ray loop accumulates: `hitCounts`, `res.hitPoints`, `res.hitRayDirs`. -/
structure RayAcc (α : Type) where
  hitCounts : List Nat
  hitPoints : List (Vec3 α)
  hitRayDirs : List (Vec3 α)

/-- The body of the ray loop for the direction `rdir`. -/
def castRay (origin : Vec3 α) (inertScene emitScene : List (PolyData α)) (acc : RayAcc α)
    (rdir : Vec3 α) : RayAcc α :=
  let closestInert := scanInert origin rdir inertScene ⊤
  let e := scanEmit origin rdir 0 emitScene ⟨⊤, -1, Vec3.zero⟩
  let blockedByInert : Bool := decide (closestInert < ⊤) && decide (closestInert ≤ e.closestEmit)
  if !blockedByInert && decide (e.finalIdx ≠ -1) then
    ⟨incrAt acc.hitCounts (intToIndex e.finalIdx), acc.hitPoints ++ [e.closestPoint],
      acc.hitRayDirs ++ [rdir]⟩
  else acc

/-- The source's `calculateViewFactorsWithBlockage`, with the generator state it leaves. -/
def calculateViewFactorsWithBlockage (M : MathLib α) (R : RandomSource α)
    (origin originNormal : Vec3 α) (emitterPolygons : List (PolygonWithTemp α))
    (inertPolygons : List (List (Vec3 α))) (numRays : Nat) (rng : R.State) :
    ViewFactorResult α × R.State :=
  if numRays = 0 then
    (⟨List.replicate emitterPolygons.length 0, [], [], []⟩, rng)
  else
    let gen := generateCosineHemisphereRays M R numRays originNormal rng
    let rays := gen.1
    let inertScene := inertPolygons.map (classify M)
    let emitScene := emitterPolygons.map (fun poly => classify M poly.vertices)
    let acc := rays.foldl (castRay origin inertScene emitScene)
      ⟨List.replicate emitterPolygons.length 0, [], []⟩
    (⟨acc.hitCounts.map (fun (c : Nat) => (c : α) / (numRays : α)), rays, acc.hitPoints,
      acc.hitRayDirs⟩, gen.2)

/-! ## Reference definitions for the nearest-hit search -/

/-- Reference definition for the nearest-hit search, without the short-circuit: the forward
hit distance of a valid polygon whose hit passes the interior test, `+infinity` for every other
polygon. -/
def passingDistance (origin rdir : Vec3 α) (pd : PolyData α) : WithTop α :=
  if pd.valid then
    match rayPlaneIntersect origin rdir pd.normal pd.point with
    | (some hit, t) => if isPointInPolygon3D hit pd.verts pd.normal then t else ⊤
    | (none, _) => ⊤
  else ⊤

/-- Reference definition: the minimum of the passing hit distances over the whole scene. -/
def minPassingDistance (origin rdir : Vec3 α) (scene : List (PolyData α)) : WithTop α :=
  (scene.map (passingDistance origin rdir)).foldr min ⊤

/-- Reference definition: the lowest index of a polygon whose passing distance is `m` (the
length of the scene when there is none). -/
def lowestIndexAttaining (origin rdir : Vec3 α) (m : WithTop α) : List (PolyData α) → Nat
  | [] => 0
  | pd :: rest =>
    if passingDistance origin rdir pd = m then 0
    else lowestIndexAttaining origin rdir m rest + 1

/-- Reference definition: the nearest emitter is the lowest index among the polygons at the
minimum passing distance; there is none when no polygon passes. -/
def nearestEmitterSpec (origin rdir : Vec3 α) (scene : List (PolyData α)) : Option Nat :=
  if minPassingDistance origin rdir scene = ⊤ then none
  else some (lowestIndexAttaining origin rdir (minPassingDistance origin rdir scene) scene)

/-! ## The JSON reader (`namespace mini_json`) -/

end Core

/-- The C library routines of the reader: `strtod` and `strtoull` return the converted value and
the number of characters consumed (`endptr - start`, `0` when nothing was converted);
`showFixed6` is `operator<<` for a `double` on a stream set to `fixed` with precision 6. -/
structure CLib (α : Type) where
  strtod : List Char → α × Nat
  strtoull : List Char → Nat × Nat
  showFixed6 : α → String

/-- What a reader function leaves: the returned `bool`, the cursor, the out-parameter. -/
structure PRes (β : Type) where
  ok : Bool
  rest : List Char
  out : β

/-- The plane data filled by `parseReceiverPlanes`. -/
structure PlaneOut (α : Type) where
  planeName : List Char
  planeWidth : α
  planeHeight : α
  points : List (ReceiverPoint α)

structure JsonInput (α : Type) where
  receiverPoints : List (ReceiverPoint α)
  polygons : List (PolygonWithTemp α)
  inertPolygons : List (List (Vec3 α))
  numRays : Nat
  seed : Option Nat
  planeName : List Char
  planeWidth : α
  planeHeight : α

/-- The locals of `parseInputJson` that live across iterations of its loop. -/
structure MainState (α : Type) where
  out : JsonInput α
  haveReceiverPlanes : Bool
  havePolygons : Bool

namespace mini_json

def skipSpaces : List Char → List Char
  | [] => []
  | c :: cs => if c = ' ' ∨ c = '\n' ∨ c = '\r' ∨ c = '\t' then skipSpaces cs else c :: cs

def expectChar (s : List Char) (c : Char) : Bool × List Char :=
  match skipSpaces s with
  | [] => (false, [])
  | d :: rest => if d = c then (true, rest) else (false, d :: rest)

/-- The key literals the reader compares with. -/
def keyOrigin : List Char := ['o', 'r', 'i', 'g', 'i', 'n']
def keyNormal : List Char := ['n', 'o', 'r', 'm', 'a', 'l']
def keyWidth : List Char := ['w', 'i', 'd', 't', 'h']
def keyHeight : List Char := ['h', 'e', 'i', 'g', 'h', 't']
def keyPoints : List Char := ['p', 'o', 'i', 'n', 't', 's']
def keyPolygon : List Char := ['p', 'o', 'l', 'y', 'g', 'o', 'n']
def keyTemperature : List Char := ['t', 'e', 'm', 'p', 'e', 'r', 'a', 't', 'u', 'r', 'e']
def keyReceiverPlanes : List Char :=
  ['r', 'e', 'c', 'e', 'i', 'v', 'e', 'r', '_', 'p', 'l', 'a', 'n', 'e', 's']
def keyPolygons : List Char := ['p', 'o', 'l', 'y', 'g', 'o', 'n', 's']
def keyInertPolygons : List Char :=
  ['i', 'n', 'e', 'r', 't', '_', 'p', 'o', 'l', 'y', 'g', 'o', 'n', 's']
def keyNumRays : List Char := ['n', 'u', 'm', '_', 'r', 'a', 'y', 's']
def keySeed : List Char := ['s', 'e', 'e', 'd']

/-- The double quote character. -/
def dquote : Char := '"'

section Reader

variable {α : Type} [LinearOrderedField α] [FloorRing α]

/-- The value is `none` when `strtod` converted nothing (`return false`). -/
def parseNumber (L : CLib α) (s : List Char) : Option α × List Char :=
  let s1 := skipSpaces s
  let r := L.strtod s1
  if r.2 = 0 then (none, s1) else (some r.1, s1.drop r.2)

def parseUInt64 (L : CLib α) (s : List Char) : Option Nat × List Char :=
  let s1 := skipSpaces s
  let r := L.strtoull s1
  if r.2 = 0 then (none, s1) else (some (r.1 % 2 ^ 64), s1.drop r.2)

def parseKey (s : List Char) (key : List Char) : Bool × List Char :=
  let e := expectChar (skipSpaces s) dquote
  if !e.1 then (false, e.2)
  else
    let found := e.2.takeWhile (fun c => c ≠ dquote)
    match e.2.dropWhile (fun c => c ≠ dquote) with
    | [] => (false, e.2)
    | _ :: afterQuote =>
      let e2 := expectChar (skipSpaces afterQuote) ':'
      if !e2.1 then (false, e2.2) else (decide (found = key), e2.2)

def parseVec3 (L : CLib α) (s : List Char) : Option (Vec3 α) × List Char :=
  let e1 := expectChar s '['
  if !e1.1 then (none, e1.2)
  else
    match parseNumber L e1.2 with
    | (none, r) => (none, r)
    | (some a, r1) =>
      let e2 := expectChar r1 ','
      if !e2.1 then (none, e2.2)
      else
        match parseNumber L e2.2 with
        | (none, r) => (none, r)
        | (some b, r2) =>
          let e3 := expectChar r2 ','
          if !e3.1 then (none, e3.2)
          else
            match parseNumber L e3.2 with
            | (none, r) => (none, r)
            | (some c, r3) =>
              let e4 := expectChar r3 ']'
              if !e4.1 then (none, e4.2) else (some ⟨a, b, c⟩, e4.2)

/-- The vertex loop shared by `parsePolygons` (inner loop) and `parseSinglePolygon`:
`ok = false` is `return false`; `ok = true` is leaving the loop, by `break` or at the end of
the text. -/
def vertexLoop (L : CLib α) : Nat → List Char → List (Vec3 α) → Option (PRes (List (Vec3 α)))
  | 0, _, _ => none
  | fuel + 1, s, poly =>
    if s = [] then some ⟨true, s, poly⟩
    else
      match parseVec3 L s with
      | (none, r) => some ⟨false, r, poly⟩
      | (some v, r) =>
        match skipSpaces r with
        | ',' :: r1 => vertexLoop L fuel r1 (poly ++ [v])
        | ']' :: r1 => some ⟨true, r1, poly ++ [v]⟩
        | r1 => some ⟨false, r1, poly ++ [v]⟩

/-- The outer loop of `parsePolygons`. -/
def polygonsLoop (L : CLib α) :
    Nat → List Char → List (List (Vec3 α)) → Option (PRes (List (List (Vec3 α))))
  | 0, _, _ => none
  | fuel + 1, s, polys =>
    if s = [] then some ⟨true, s, polys⟩
    else
      let e := expectChar s '['
      if !e.1 then some ⟨false, e.2, polys⟩
      else
        let inner : Option (PRes (List (Vec3 α))) :=
          match skipSpaces e.2 with
          | ']' :: r => some ⟨true, r, []⟩
          | r => vertexLoop L fuel r []
        match inner with
        | none => none
        | some v =>
          if !v.ok then some ⟨false, v.rest, polys⟩
          else
            match skipSpaces v.rest with
            | ',' :: r1 => polygonsLoop L fuel r1 (polys ++ [v.out])
            | ']' :: r1 => some ⟨true, r1, polys ++ [v.out]⟩
            | r1 => some ⟨false, r1, polys ++ [v.out]⟩

def parsePolygons (L : CLib α) (fuel : Nat) (s : List Char) (polys : List (List (Vec3 α))) :
    Option (PRes (List (List (Vec3 α)))) :=
  let e := expectChar s '['
  if !e.1 then some ⟨false, e.2, polys⟩
  else
    match skipSpaces e.2 with
    | ']' :: r => some ⟨true, r, polys⟩
    | r => polygonsLoop L fuel r polys

/-- The loop of `parseReceiverPoint`; the state is `rp`, `haveOrigin`, `haveNormal`. -/
def receiverPointLoop (L : CLib α) :
    Nat → List Char → ReceiverPoint α → Bool → Bool → Option (PRes (ReceiverPoint α))
  | 0, _, _, _, _ => none
  | fuel + 1, s, rp, haveOrigin, haveNormal =>
    if s = [] then some ⟨haveOrigin && haveNormal, s, rp⟩
    else
      match skipSpaces s with
      | '}' :: r => some ⟨haveOrigin && haveNormal, r, rp⟩
      | s0 =>
        let k1 := parseKey s0 keyOrigin
        let v1 := parseVec3 L k1.2
        if k1.1 && v1.1.isNone then some ⟨false, v1.2, rp⟩
        else
          let s1 := if k1.1 then v1.2 else s0
          let rp1 : ReceiverPoint α := if k1.1 then ⟨v1.1.getD rp.origin, rp.normal⟩ else rp
          let haveOrigin1 := if k1.1 then true else haveOrigin
          let k2 := parseKey s1 keyNormal
          let v2 := parseVec3 L k2.2
          if k2.1 && v2.1.isNone then some ⟨false, v2.2, rp1⟩
          else
            let s2 := if k2.1 then v2.2 else s1
            let rp2 : ReceiverPoint α := if k2.1 then ⟨rp1.origin, v2.1.getD rp1.normal⟩ else rp1
            let haveNormal2 := if k2.1 then true else haveNormal
            match skipSpaces s2 with
            | ',' :: r => receiverPointLoop L fuel r rp2 haveOrigin1 haveNormal2
            | r => receiverPointLoop L fuel r rp2 haveOrigin1 haveNormal2

def parseReceiverPoint (L : CLib α) (fuel : Nat) (s : List Char) :
    Option (PRes (ReceiverPoint α)) :=
  let e := expectChar s '\x7b'
  if !e.1 then some ⟨false, e.2, ⟨Vec3.zero, Vec3.zero⟩⟩
  else receiverPointLoop L fuel e.2 ⟨Vec3.zero, Vec3.zero⟩ false false

/-- The loop of `parseReceiverPoints`. -/
def receiverPointsLoop (L : CLib α) :
    Nat → List Char → List (ReceiverPoint α) → Option (PRes (List (ReceiverPoint α)))
  | 0, _, _ => none
  | fuel + 1, s, points =>
    if s = [] then some ⟨true, s, points⟩
    else
      match parseReceiverPoint L fuel s with
      | none => none
      | some p =>
        if !p.ok then some ⟨false, p.rest, points⟩
        else
          match skipSpaces p.rest with
          | ',' :: r => receiverPointsLoop L fuel r (points ++ [p.out])
          | ']' :: r => some ⟨true, r, points ++ [p.out]⟩
          | r => some ⟨false, r, points ++ [p.out]⟩

def parseReceiverPoints (L : CLib α) (fuel : Nat) (s : List Char)
    (points : List (ReceiverPoint α)) : Option (PRes (List (ReceiverPoint α))) :=
  let e := expectChar s '['
  if !e.1 then some ⟨false, e.2, points⟩
  else
    match skipSpaces e.2 with
    | ']' :: r => some ⟨true, r, points⟩
    | r => receiverPointsLoop L fuel r points

/-- The loop of `parseReceiverPlaneData`. A local `double w` or `h` is written to the plane
only after `parseNumber` succeeded. -/
def planeDataLoop (L : CLib α) : Nat → List Char → PlaneOut α → Option (PRes (PlaneOut α))
  | 0, _, _ => none
  | fuel + 1, s, pl =>
    if s = [] then some ⟨true, s, pl⟩
    else
      match skipSpaces s with
      | '\x7d' :: r => some ⟨true, r, pl⟩
      | s0 =>
        let k1 := parseKey s0 keyWidth
        let n1 := parseNumber L k1.2
        if k1.1 && n1.1.isNone then some ⟨false, n1.2, pl⟩
        else
          let s1 := if k1.1 then n1.2 else s0
          let pl1 : PlaneOut α := if k1.1 then { pl with planeWidth := n1.1.getD pl.planeWidth } else pl
          let k2 := parseKey s1 keyHeight
          let n2 := parseNumber L k2.2
          if k2.1 && n2.1.isNone then some ⟨false, n2.2, pl1⟩
          else
            let s2 := if k2.1 then n2.2 else s1
            let pl2 : PlaneOut α :=
              if k2.1 then { pl1 with planeHeight := n2.1.getD pl1.planeHeight } else pl1
            let k3 := parseKey s2 keyPoints
            let pts : Option (PRes (List (ReceiverPoint α))) :=
              if k3.1 then parseReceiverPoints L fuel k3.2 pl2.points else some ⟨true, s2, pl2.points⟩
            match pts with
            | none => none
            | some q =>
              if !q.ok then some ⟨false, q.rest, { pl2 with points := q.out }⟩
              else
                match skipSpaces q.rest with
                | ',' :: r => planeDataLoop L fuel r { pl2 with points := q.out }
                | r => planeDataLoop L fuel r { pl2 with points := q.out }

def parseReceiverPlaneData (L : CLib α) (fuel : Nat) (s : List Char) (pl : PlaneOut α) :
    Option (PRes (PlaneOut α)) :=
  let e := expectChar s '\x7b'
  if !e.1 then some ⟨false, e.2, pl⟩
  else
    match skipSpaces e.2 with
    | '\x7d' :: r => some ⟨true, r, pl⟩
    | r => planeDataLoop L fuel r pl

/-- The loop of `parseReceiverPlanes`: each iteration reads one `"name": {...}` entry. -/
def receiverPlanesLoop (L : CLib α) : Nat → List Char → PlaneOut α → Option (PRes (PlaneOut α))
  | 0, _, _ => none
  | fuel + 1, s, pl =>
    if s = [] then some ⟨true, s, pl⟩
    else
      match skipSpaces s with
      | '\x7d' :: r => some ⟨true, r, pl⟩
      | s0 =>
        let e := expectChar s0 dquote
        if !e.1 then some ⟨false, e.2, pl⟩
        else
          match e.2.dropWhile (fun c => c ≠ dquote) with
          | [] => some ⟨false, [], pl⟩
          | _ :: afterQuote =>
            let pl1 : PlaneOut α := { pl with planeName := e.2.takeWhile (fun c => c ≠ dquote) }
            let e2 := expectChar (skipSpaces afterQuote) ':'
            if !e2.1 then some ⟨false, e2.2, pl1⟩
            else
              match parseReceiverPlaneData L fuel e2.2 pl1 with
              | none => none
              | some d =>
                if !d.ok then some ⟨false, d.rest, d.out⟩
                else
                  match skipSpaces d.rest with
                  | ',' :: r => receiverPlanesLoop L fuel r d.out
                  | r => receiverPlanesLoop L fuel r d.out

def parseReceiverPlanes (L : CLib α) (fuel : Nat) (s : List Char) (pl : PlaneOut α) :
    Option (PRes (PlaneOut α)) :=
  let e := expectChar s '\x7b'
  if !e.1 then some ⟨false, e.2, pl⟩
  else
    match skipSpaces e.2 with
    | '\x7d' :: r => some ⟨true, r, pl⟩
    | r => receiverPlanesLoop L fuel r pl

def parseSinglePolygon (L : CLib α) (fuel : Nat) (s : List Char) (vertices : List (Vec3 α)) :
    Option (PRes (List (Vec3 α))) :=
  let e := expectChar s '['
  if !e.1 then some ⟨false, e.2, vertices⟩
  else
    match skipSpaces e.2 with
    | ']' :: r => some ⟨true, r, vertices⟩
    | r => vertexLoop L fuel r vertices

/-- The loop of `parsePolygonWithTemp`; the state is `poly`, `havePolygon`,
`haveTemperature`. -/
def polygonWithTempLoop (L : CLib α) :
    Nat → List Char → PolygonWithTemp α → Bool → Bool → Option (PRes (PolygonWithTemp α))
  | 0, _, _, _, _ => none
  | fuel + 1, s, poly, havePolygon, haveTemperature =>
    if s = [] then some ⟨havePolygon && haveTemperature, s, poly⟩
    else
      match skipSpaces s with
      | '\x7d' :: r => some ⟨havePolygon && haveTemperature, r, poly⟩
      | s0 =>
        let k1 := parseKey s0 keyPolygon
        let sp : Option (PRes (List (Vec3 α))) :=
          if k1.1 then parseSinglePolygon L fuel k1.2 poly.vertices
          else some ⟨true, s0, poly.vertices⟩
        match sp with
        | none => none
        | some q =>
          if !q.ok then some ⟨false, q.rest, { poly with vertices := q.out }⟩
          else
            let poly1 : PolygonWithTemp α := { poly with vertices := q.out }
            let havePolygon1 := if k1.1 then true else havePolygon
            let k2 := parseKey q.rest keyTemperature
            let n2 := parseNumber L k2.2
            if k2.1 && n2.1.isNone then some ⟨false, n2.2, poly1⟩
            else
              let s2 := if k2.1 then n2.2 else q.rest
              let poly2 : PolygonWithTemp α :=
                if k2.1 then { poly1 with temperature := n2.1.getD poly1.temperature } else poly1
              let haveTemperature2 := if k2.1 then true else haveTemperature
              match skipSpaces s2 with
              | ',' :: r => polygonWithTempLoop L fuel r poly2 havePolygon1 haveTemperature2
              | r => polygonWithTempLoop L fuel r poly2 havePolygon1 haveTemperature2

/-- The local `PolygonWithTemp poly` starts with no vertices; its `temperature` is not
initialised and is read only after it was assigned (the result is used only when
`haveTemperature` holds), so the start value `0` never shows. -/
def parsePolygonWithTemp (L : CLib α) (fuel : Nat) (s : List Char) :
    Option (PRes (PolygonWithTemp α)) :=
  let e := expectChar s '\x7b'
  if !e.1 then some ⟨false, e.2, ⟨[], 0⟩⟩
  else polygonWithTempLoop L fuel e.2 ⟨[], 0⟩ false false

/-- The loop of `parsePolygonsWithTemp`. -/
def polygonsWithTempLoop (L : CLib α) :
    Nat → List Char → List (PolygonWithTemp α) → Option (PRes (List (PolygonWithTemp α)))
  | 0, _, _ => none
  | fuel + 1, s, polys =>
    if s = [] then some ⟨true, s, polys⟩
    else
      match parsePolygonWithTemp L fuel s with
      | none => none
      | some p =>
        if !p.ok then some ⟨false, p.rest, polys⟩
        else
          match skipSpaces p.rest with
          | ',' :: r => polygonsWithTempLoop L fuel r (polys ++ [p.out])
          | ']' :: r => some ⟨true, r, polys ++ [p.out]⟩
          | r => some ⟨false, r, polys ++ [p.out]⟩

def parsePolygonsWithTemp (L : CLib α) (fuel : Nat) (s : List Char)
    (polys : List (PolygonWithTemp α)) : Option (PRes (List (PolygonWithTemp α))) :=
  let e := expectChar s '['
  if !e.1 then some ⟨false, e.2, polys⟩
  else
    match skipSpaces e.2 with
    | ']' :: r => some ⟨true, r, polys⟩
    | r => polygonsWithTempLoop L fuel r polys

end Reader

end mini_json

/-! ## `parseInputJson` and `runFromJsonString` -/

section Driver

open mini_json

variable {α : Type} [LinearOrderedField α] [FloorRing α]

/-- The object `JsonInput in;` before parsing: `numRays` has its initialiser `100000`, the
containers and the name are empty, `seed` is empty, and `planeWidth`, `planeHeight` have no
initialiser: `w0` and `h0` stand for whatever they hold. -/
def JsonInput.fresh (w0 h0 : α) : JsonInput α :=
  ⟨[], [], [], 100000, none, [], w0, h0⟩

/-- Sequencing of the steps of one iteration: `none` is running out of fuel, `error` is
`return false` with the diagnostic. -/
def andThen {σ τ : Type} (x : Option (Except String σ))
    (f : σ → Option (Except String τ)) : Option (Except String τ) :=
  match x with
  | none => none
  | some (.error e) => some (.error e)
  | some (.ok a) => f a

/-- The step `if (parseKey(json, i, "receiver_planes")) ... else i = save`. -/
def stepReceiverPlanes (L : CLib α) (fuel : Nat) (c : List Char × MainState α) :
    Option (Except String (List Char × MainState α)) :=
  let k := parseKey c.1 keyReceiverPlanes
  if k.1 then
    match parseReceiverPlanes L fuel k.2
      ⟨c.2.out.planeName, c.2.out.planeWidth, c.2.out.planeHeight, c.2.out.receiverPoints⟩ with
    | none => none
    | some r =>
      if !r.ok then some (.error "Invalid receiver_planes")
      else some (.ok (r.rest,
        { c.2 with
          out := { c.2.out with
            planeName := r.out.planeName, planeWidth := r.out.planeWidth,
            planeHeight := r.out.planeHeight, receiverPoints := r.out.points },
          haveReceiverPlanes := true }))
  else some (.ok c)

/-- The step for the key `polygons`: the form with temperatures first, then the legacy
form. -/
def stepPolygons (L : CLib α) (fuel : Nat) (c : List Char × MainState α) :
    Option (Except String (List Char × MainState α)) :=
  let k := parseKey c.1 keyPolygons
  if k.1 then
    match parsePolygonsWithTemp L fuel k.2 c.2.out.polygons with
    | none => none
    | some r =>
      if r.ok then
        some (.ok (r.rest, { c.2 with out := { c.2.out with polygons := r.out },
                                       havePolygons := true }))
      else
        match parsePolygons L fuel k.2 [] with
        | none => none
        | some q =>
          if q.ok then
            some (.ok (q.rest,
              { c.2 with
                out := { c.2.out with
                  polygons := q.out.map (fun poly => (⟨poly, 0⟩ : PolygonWithTemp α)) },
                havePolygons := true }))
          else some (.error
            "Invalid polygons format - neither new format (with temperature) nor legacy format (simple arrays)")
  else some (.ok c)

def stepInertPolygons (L : CLib α) (fuel : Nat) (c : List Char × MainState α) :
    Option (Except String (List Char × MainState α)) :=
  let k := parseKey c.1 keyInertPolygons
  if k.1 then
    match parsePolygons L fuel k.2 [] with
    | none => none
    | some q =>
      if !q.ok then some (.error "Invalid inert_polygons")
      else some (.ok (q.rest, { c.2 with out := { c.2.out with inertPolygons := q.out } }))
  else some (.ok c)

/-- The step for `num_rays`: `if (n < 0) n = 0; out.numRays = static_cast<std::size_t>(n)`.
The conversion truncates; it is defined for values below `2^64` only. -/
def stepNumRays (L : CLib α) (c : List Char × MainState α) :
    Option (Except String (List Char × MainState α)) :=
  let k := parseKey c.1 keyNumRays
  if k.1 then
    match parseNumber L k.2 with
    | (none, _) => some (.error "Invalid num_rays")
    | (some n, r) =>
      let n1 := if n < 0 then 0 else n
      some (.ok (r, { c.2 with out := { c.2.out with numRays := ⌊n1⌋₊ } }))
  else some (.ok c)

def stepSeed (L : CLib α) (c : List Char × MainState α) :
    Option (Except String (List Char × MainState α)) :=
  let k := parseKey c.1 keySeed
  if k.1 then
    match parseUInt64 L k.2 with
    | (none, _) => some (.error "Invalid seed")
    | (some v, r) => some (.ok (r, { c.2 with out := { c.2.out with seed := some v } }))
  else some (.ok c)

/-- The loop of `parseInputJson`; the result is the state when the loop is left. -/
def mainLoop (L : CLib α) : Nat → List Char → MainState α → Option (Except String (MainState α))
  | 0, _, _ => none
  | fuel + 1, s, st =>
    if s = [] then some (.ok st)
    else
      match skipSpaces s with
      | '\x7d' :: _ => some (.ok st)
      | s0 =>
        andThen (stepReceiverPlanes L fuel (s0, st)) fun c1 =>
        andThen (stepPolygons L fuel c1) fun c2 =>
        andThen (stepInertPolygons L fuel c2) fun c3 =>
        andThen (stepNumRays L c3) fun c4 =>
        andThen (stepSeed L c4) fun c5 =>
          match skipSpaces c5.1 with
          | ',' :: r => mainLoop L fuel r c5.2
          | r => mainLoop L fuel r c5.2

/-- The validation at the end of `parseInputJson`. -/
def validate (st : MainState α) : Except String (JsonInput α) :=
  if !st.haveReceiverPlanes then .error "Must provide 'receiver_planes' field"
  else if st.out.receiverPoints.isEmpty then .error "receiver_planes is empty"
  else if !st.havePolygons then .error "Missing polygons"
  else .ok st.out

/-- The source's `parseInputJson(json, out, error)`: `error e` is `return false` with
`error = e`, `ok` is `return true` with the filled `out`. -/
def parseInputJson (L : CLib α) (fuel : Nat) (json : List Char) (out : JsonInput α) :
    Option (Except String (JsonInput α)) :=
  let e := expectChar (skipSpaces json) '\x7b'
  if !e.1 then some (.error "Expected '\x7b'")
  else
    match mainLoop L fuel e.2 ⟨out, false, false⟩ with
    | none => none
    | some (.error msg) => some (.error msg)
    | some (.ok st) => some (validate st)

/-- The returned text of `runFromJsonString` together with its `ok` flag. -/
structure Report where
  ok : Bool
  text : String

/-- The loop `totalTemperature += res.viewFactors[p] * in.polygons[p].temperature`. -/
def totalTemperature (viewFactors : List α) (polygons : List (PolygonWithTemp α)) : α :=
  (List.range polygons.length).foldl
    (fun total p => total + viewFactors.getD p 0 * (polygons.getD p ⟨[], 0⟩).temperature) 0

/-- The generator `rng` of `runFromJsonString` before the loop over the receiver points;
`entropy` lists the six values read from `std::random_device`. -/
def baseRng (R : RandomSource α) (seed : Option Nat) (entropy : List Nat) : R.State :=
  match seed with
  | some sd => R.seed sd
  | none => R.seedSeq entropy

/-- The generator `pointRng` of the receiver point `pointIdx` (64-bit unsigned arithmetic). -/
def pointRng (R : RandomSource α) (seed : Option Nat) (rng : R.State) (pointIdx : Nat) :
    R.State :=
  match seed with
  | some sd => R.seed ((sd + (pointIdx * 12345) % 2 ^ 64) % 2 ^ 64)
  | none => rng

/-- The loop over the receiver points, from index `pointIdx` on. -/
def pointLoop (M : MathLib α) (R : RandomSource α) (inp : JsonInput α) (rng : R.State) :
    Nat → List (ReceiverPoint α) → List α
  | _, [] => []
  | pointIdx, receiverPoint :: rest =>
    let res := (calculateViewFactorsWithBlockage M R receiverPoint.origin receiverPoint.normal
      inp.polygons inp.inertPolygons inp.numRays (pointRng R inp.seed rng pointIdx)).1
    totalTemperature res.viewFactors inp.polygons :: pointLoop M R inp rng (pointIdx + 1) rest

/-- The vector `pointTemperatures` of `runFromJsonString`. -/
def pointTemperatures (M : MathLib α) (R : RandomSource α) (entropy : List Nat)
    (inp : JsonInput α) : List α :=
  pointLoop M R inp (baseRng R inp.seed entropy) 0 inp.receiverPoints

/-- The text written for a parsed request: three plane lines and the temperature line. -/
def reportText (L : CLib α) (inp : JsonInput α) (temps : List α) : String :=
  "Plane: " ++ String.mk inp.planeName ++ "\n" ++
  "Width: " ++ L.showFixed6 inp.planeWidth ++ "\n" ++
  "Height: " ++ L.showFixed6 inp.planeHeight ++ "\n" ++
  String.intercalate " " (temps.map L.showFixed6) ++ "\n"

/-- The source's `runFromJsonString`; `none` when the reader does not return within `fuel`.
`entropy` is what `std::random_device` yields and `w0`, `h0` what the uninitialised members
`planeWidth`, `planeHeight` of `JsonInput in;` hold. -/
def runFromJsonString (L : CLib α) (M : MathLib α) (R : RandomSource α) (fuel : Nat)
    (entropy : List Nat) (w0 h0 : α) (jsonInput : List Char) : Option Report :=
  match parseInputJson L fuel jsonInput (JsonInput.fresh w0 h0) with
  | none => none
  | some (.error err) => some ⟨false, "\x7b\"error\": \"" ++ err ++ "\"\x7d\n"⟩
  | some (.ok inp) => some ⟨true, reportText L inp (pointTemperatures M R entropy inp)⟩

end Driver

section Core

variable {α : Type} [LinearOrderedField α]

/-! ## Test scene and sample libraries -/

/-- The emitter square `(-1,-1,5), (1,-1,5), (1,1,5), (-1,1,5)`. -/
def sceneEmitter : List (Vec3 α) := [⟨-1, -1, 5⟩, ⟨1, -1, 5⟩, ⟨1, 1, 5⟩, ⟨-1, 1, 5⟩]

/-- The inert square `(-1,-1,3), (1,-1,3), (1,1,3), (-1,1,3)`. -/
def sceneInert : List (Vec3 α) := [⟨-1, -1, 3⟩, ⟨1, -1, 3⟩, ⟨1, 1, 3⟩, ⟨-1, 1, 3⟩]

end Core

/-- A rational stand-in for `<cmath>`, exact on squares of rationals; the angle functions are
those of an angle with cosine `3/5`. -/
def ratMath : MathLib ℚ := ⟨Rat.sqrt, fun _ => 3 / 5, fun _ => 4 / 5⟩

/-- A small generator with a counter as state; the draws run through `0, 1/16, ..., 15/16`. -/
def counterSource : RandomSource ℚ where
  State := Nat
  init := 0
  seed := fun s => s
  seedSeq := fun l => l.sum
  uniform := fun g => (((g % 16 : Nat) : ℚ) / 16, g + 1)

/-! ## Well-formed requests

The requests the claims about the reader range over: JSON texts in compact form, built from a
syntax tree. Number literals are kept as text together with the value the library gives them. -/

/-- A number literal and the value `strtod` gives it. -/
structure NumTok (α : Type) where
  text : List Char
  value : α

/-- An unsigned integer literal and the value `strtoull` gives it. -/
structure SeedTok where
  text : List Char
  value : Nat

/-- The literal `[x,y,z]`. -/
structure Vec3Tok (α : Type) where
  x : NumTok α
  y : NumTok α
  z : NumTok α

/-- The literal of one emitter in the form with a temperature. -/
structure EmitterTok (α : Type) where
  polygon : List (Vec3Tok α)
  temperature : NumTok α

/-- The literal of one receiver point. -/
structure PointTok (α : Type) where
  origin : Vec3Tok α
  normal : Vec3Tok α

/-- One member of a plane object. -/
inductive PlaneField (α : Type) where
  | width (n : NumTok α)
  | height (n : NumTok α)
  | points (ps : List (PointTok α))

/-- One named plane of `receiver_planes`. -/
structure PlaneTok (α : Type) where
  name : List Char
  fields : List (PlaneField α)

/-- One member of the top-level object. -/
inductive Field (α : Type) where
  | receiverPlanes (planes : List (PlaneTok α))
  | polygons (es : List (EmitterTok α))
  | polygonsLegacy (ps : List (List (Vec3Tok α)))
  | inertPolygons (ps : List (List (Vec3Tok α)))
  | numRays (n : NumTok α)
  | seed (s : SeedTok)

section Requests

open mini_json

/-- Items separated by commas, followed by the closing character. -/
def renderSeq (close : Char) : List (List Char) → List Char
  | [] => [close]
  | [x] => x ++ [close]
  | x :: y :: rest => x ++ ',' :: renderSeq close (y :: rest)

/-- A key in double quotes followed by a colon. -/
def renderKey (key : List Char) : List Char := dquote :: key ++ [dquote, ':']

section Render

variable {α : Type}

def renderVec3 (v : Vec3Tok α) : List Char :=
  '[' :: v.x.text ++ ',' :: v.y.text ++ ',' :: v.z.text ++ [']']

def renderPolygon (vs : List (Vec3Tok α)) : List Char :=
  '[' :: renderSeq ']' (vs.map renderVec3)

def renderPolygons (ps : List (List (Vec3Tok α))) : List Char :=
  '[' :: renderSeq ']' (ps.map renderPolygon)

def renderEmitter (e : EmitterTok α) : List Char :=
  '\x7b' :: renderKey keyPolygon ++ renderPolygon e.polygon ++
    ',' :: renderKey keyTemperature ++ e.temperature.text ++ ['\x7d']

def renderEmitters (es : List (EmitterTok α)) : List Char :=
  '[' :: renderSeq ']' (es.map renderEmitter)

def renderPoint (p : PointTok α) : List Char :=
  '\x7b' :: renderKey keyOrigin ++ renderVec3 p.origin ++
    ',' :: renderKey keyNormal ++ renderVec3 p.normal ++ ['\x7d']

def renderPoints (ps : List (PointTok α)) : List Char :=
  '[' :: renderSeq ']' (ps.map renderPoint)

def renderPlaneField : PlaneField α → List Char
  | .width n => renderKey keyWidth ++ n.text
  | .height n => renderKey keyHeight ++ n.text
  | .points ps => renderKey keyPoints ++ renderPoints ps

def renderPlane (pl : PlaneTok α) : List Char :=
  renderKey pl.name ++ '\x7b' :: renderSeq '\x7d' (pl.fields.map renderPlaneField)

def renderField : Field α → List Char
  | .receiverPlanes planes =>
    renderKey keyReceiverPlanes ++ '\x7b' :: renderSeq '\x7d' (planes.map renderPlane)
  | .polygons es => renderKey keyPolygons ++ renderEmitters es
  | .polygonsLegacy ps => renderKey keyPolygons ++ renderPolygons ps
  | .inertPolygons ps => renderKey keyInertPolygons ++ renderPolygons ps
  | .numRays n => renderKey keyNumRays ++ n.text
  | .seed sd => renderKey keySeed ++ sd.text

/-- The text of the request with the given members, in the given order. -/
def renderRequest (fields : List (Field α)) : List Char :=
  '\x7b' :: renderSeq '\x7d' (fields.map renderField)

/-! ### What the literals denote -/

def vec3Value (v : Vec3Tok α) : Vec3 α := ⟨v.x.value, v.y.value, v.z.value⟩

def emitterValue (e : EmitterTok α) : PolygonWithTemp α :=
  ⟨e.polygon.map vec3Value, e.temperature.value⟩

def pointValue (p : PointTok α) : ReceiverPoint α := ⟨vec3Value p.origin, vec3Value p.normal⟩

def applyPlaneField (pl : PlaneOut α) : PlaneField α → PlaneOut α
  | .width n => { pl with planeWidth := n.value }
  | .height n => { pl with planeHeight := n.value }
  | .points ps => { pl with points := pl.points ++ ps.map pointValue }

def applyPlane (out : PlaneOut α) (pl : PlaneTok α) : PlaneOut α :=
  pl.fields.foldl applyPlaneField { out with planeName := pl.name }

end Render

section Apply

variable {α : Type} [LinearOrderedField α] [FloorRing α]

/-- The effect of one member on the state of `parseInputJson`. -/
def applyField (st : MainState α) : Field α → MainState α
  | .receiverPlanes planes =>
    let r := planes.foldl applyPlane
      ⟨st.out.planeName, st.out.planeWidth, st.out.planeHeight, st.out.receiverPoints⟩
    { st with
      out := { st.out with
        planeName := r.planeName, planeWidth := r.planeWidth, planeHeight := r.planeHeight,
        receiverPoints := r.points },
      haveReceiverPlanes := true }
  | .polygons es =>
    { st with out := { st.out with polygons := st.out.polygons ++ es.map emitterValue },
              havePolygons := true }
  | .polygonsLegacy ps =>
    { st with
      out := { st.out with
        polygons := if ps.isEmpty then st.out.polygons
          else ps.map (fun poly => (⟨poly.map vec3Value, 0⟩ : PolygonWithTemp α)) },
      havePolygons := true }
  | .inertPolygons ps =>
    { st with out := { st.out with inertPolygons := ps.map (fun poly => poly.map vec3Value) } }
  | .numRays n =>
    { st with out := { st.out with numRays := ⌊(if n.value < 0 then 0 else n.value)⌋₊ } }
  | .seed sd => { st with out := { st.out with seed := some (sd.value % 2 ^ 64) } }

/-! ### Literals the library reads -/

/-- The literal does not start with white space (so it is not empty), and `strtod` reads
exactly it, with its value, when a `,`, `]` or closing brace follows. -/
def NumTok.Reads (L : CLib α) (t : NumTok α) : Prop :=
  (∀ rest, skipSpaces (t.text ++ rest) = t.text ++ rest) ∧
    ∀ (d : Char) (rest : List Char), (d = ',' ∨ d = ']' ∨ d = '\x7d') →
      L.strtod (t.text ++ d :: rest) = (t.value, t.text.length)

/-- The same for `strtoull`. -/
def SeedTok.Reads (L : CLib α) (t : SeedTok) : Prop :=
  (∀ rest, skipSpaces (t.text ++ rest) = t.text ++ rest) ∧
    ∀ (d : Char) (rest : List Char), (d = ',' ∨ d = ']' ∨ d = '\x7d') →
      L.strtoull (t.text ++ d :: rest) = (t.value, t.text.length)

def Vec3Tok.Reads (L : CLib α) (v : Vec3Tok α) : Prop :=
  v.x.Reads L ∧ v.y.Reads L ∧ v.z.Reads L

def PolygonReads (L : CLib α) (vs : List (Vec3Tok α)) : Prop := ∀ v ∈ vs, v.Reads L

def EmitterTok.Reads (L : CLib α) (e : EmitterTok α) : Prop :=
  PolygonReads L e.polygon ∧ e.temperature.Reads L

def PointTok.Reads (L : CLib α) (p : PointTok α) : Prop :=
  p.origin.Reads L ∧ p.normal.Reads L

def PlaneField.Reads (L : CLib α) : PlaneField α → Prop
  | .width n => n.Reads L
  | .height n => n.Reads L
  | .points ps => ∀ p ∈ ps, p.Reads L

/-- The name has no double quote and every member reads. -/
def PlaneTok.Reads (L : CLib α) (pl : PlaneTok α) : Prop :=
  dquote ∉ pl.name ∧ ∀ f ∈ pl.fields, f.Reads L

def Field.Reads (L : CLib α) : Field α → Prop
  | .receiverPlanes planes => ∀ pl ∈ planes, pl.Reads L
  | .polygons es => ∀ e ∈ es, e.Reads L
  | .polygonsLegacy ps => ∀ vs ∈ ps, PolygonReads L vs
  | .inertPolygons ps => ∀ vs ∈ ps, PolygonReads L vs
  | .numRays n => n.Reads L
  | .seed sd => sd.Reads L

end Apply

section Census

variable {α : Type}

/-- The member is a `receiver_planes` member. -/
def Field.isReceiverPlanes : Field α → Bool
  | .receiverPlanes _ => true
  | _ => false

/-- The member is a `polygons` member, in either form. -/
def Field.isPolygons : Field α → Bool
  | .polygons _ => true
  | .polygonsLegacy _ => true
  | _ => false

/-- The member is a `num_rays` member. -/
def Field.isNumRays : Field α → Bool
  | .numRays _ => true
  | _ => false

/-- The member is a `seed` member. -/
def Field.isSeed : Field α → Bool
  | .seed _ => true
  | _ => false

/-- The emitters a member lists in the form with temperatures. -/
def Field.emitterTokens : Field α → List (EmitterTok α)
  | .polygons es => es
  | _ => []

/-- The receiver points a plane member lists. -/
def PlaneField.pointTokens : PlaneField α → List (PointTok α)
  | .points ps => ps
  | _ => []

/-- The receiver points a member lists, over all its planes. -/
def Field.pointTokens : Field α → List (PointTok α)
  | .receiverPlanes planes =>
    (planes.map (fun pl => (pl.fields.map PlaneField.pointTokens).flatten)).flatten
  | _ => []

/-- All receiver points of a request, in the order of the text. -/
def requestPoints (fields : List (Field α)) : List (PointTok α) :=
  (fields.map Field.pointTokens).flatten

end Census

end Requests

/-! ## A decimal stand-in for the C library -/

/-- The digit loop of `decStrtod`: the value so far and the number of digits read. -/
def digitsLoop : List Char → Nat → Nat → Nat × Nat
  | [], v, n => (v, n)
  | c :: cs, v, n =>
    if c.isDigit then digitsLoop cs (10 * v + (c.toNat - 48)) (n + 1) else (v, n)

/-- A `strtod` for decimal integer literals with an optional minus sign. -/
def decStrtod (s : List Char) : ℚ × Nat :=
  match s with
  | '-' :: cs =>
    let r := digitsLoop cs 0 0
    if r.2 = 0 then (0, 0) else (-(r.1 : ℚ), r.2 + 1)
  | _ =>
    let r := digitsLoop s 0 0
    ((r.1 : ℚ), r.2)

/-- Six decimals of a rational, rounded down. -/
def showFixed6Rat (q : ℚ) : String :=
  let n : Int := q.num * 1000000 / (q.den : Int)
  let a := n.natAbs / 1000000
  let b := n.natAbs % 1000000
  (if n < 0 then "-" else "") ++ toString a ++ "." ++
    String.mk (List.replicate (6 - (toString b).length) '0') ++ toString b

/-- The library used to run the reader on concrete texts. -/
def decLib : CLib ℚ := ⟨decStrtod, fun s => digitsLoop s 0 0, showFixed6Rat⟩

/-! ## A sample request -/

/-- The one-digit literal `c`. -/
def digitTok (c : Char) : NumTok ℚ := ⟨[c], ((c.toNat - 48 : Nat) : ℚ)⟩

/-- The one-digit seed literal `c`. -/
def digitSeed (c : Char) : SeedTok := ⟨[c], c.toNat - 48⟩

/-- The literal `[a,b,c]` of three digits. -/
def digitVec (a b c : Char) : Vec3Tok ℚ := ⟨digitTok a, digitTok b, digitTok c⟩

/-- The plane `"P"` of width 2 and height 1 with one receiver point at the origin, normal
`(0,0,1)`. -/
def samplePlanes : Field ℚ :=
  .receiverPlanes [⟨['P'], [.width (digitTok '2'), .height (digitTok '1'),
    .points [⟨digitVec '0' '0' '0', digitVec '0' '0' '1'⟩]]⟩]

/-- The same plane without `width` and `height`. -/
def samplePlanesBare : Field ℚ :=
  .receiverPlanes [⟨['P'], [.points [⟨digitVec '0' '0' '0', digitVec '0' '0' '1'⟩]]⟩]

/-- A unit square at height 5. -/
def sampleSquare : List (Vec3Tok ℚ) :=
  [digitVec '0' '0' '5', digitVec '1' '0' '5', digitVec '1' '1' '5', digitVec '0' '1' '5']

/-- A request with one emitter of temperature 7, four rays and seed 3. -/
def sampleRequest : List (Field ℚ) :=
  [samplePlanes, .polygons [⟨sampleSquare, digitTok '7'⟩], .numRays (digitTok '4'),
    .seed (digitSeed '3')]

/-- A request whose `polygons` member is the empty list. -/
def emptyPolygonsRequest : List (Field ℚ) := [samplePlanes, .polygons []]

/-- A request with a seed whose plane gives neither `width` nor `height`: one emitter in the
legacy form, four rays, seed 3. -/
def unsizedRequest : List (Field ℚ) :=
  [samplePlanesBare, .polygonsLegacy [sampleSquare], .numRays (digitTok '4'),
    .seed (digitSeed '3')]

/-- A request with one emitter of temperature 7 and `num_rays` 0. -/
def zeroRaysRequest : List (Field ℚ) :=
  [samplePlanes, .polygons [⟨sampleSquare, digitTok '7'⟩], .numRays (digitTok '0')]

/-- The text `{"x":1}`: an object whose only key is none of those the reader knows. -/
def unknownKeyText : List Char := ['\x7b', '"', 'x', '"', ':', '1', '\x7d']

/-- A request without `receiver_planes`. -/
def noPlanesRequest : List (Field ℚ) := [.polygons [⟨sampleSquare, digitTok '7'⟩]]

/-- What the reader makes of `sampleRequest`. -/
def sampleInput : JsonInput ℚ :=
  ⟨[⟨⟨0, 0, 0⟩, ⟨0, 0, 1⟩⟩], [⟨[⟨0, 0, 5⟩, ⟨1, 0, 5⟩, ⟨1, 1, 5⟩, ⟨0, 1, 5⟩], 7⟩], [], 4, some 3,
    ['P'], 2, 1⟩

/-- The plane `"P"` of width 2 and height 1 with two receiver points, at `(0,5,0)` and at the
origin, both with normal `(0,0,1)`. -/
def twoPointPlanes : Field ℚ :=
  .receiverPlanes [⟨['P'], [.width (digitTok '2'), .height (digitTok '1'),
    .points [⟨digitVec '0' '5' '0', digitVec '0' '0' '1'⟩,
      ⟨digitVec '0' '0' '0', digitVec '0' '0' '1'⟩]]⟩]

/-- The square `[0,1] x [4,5]` at height 1. -/
def nearSquare : List (Vec3Tok ℚ) :=
  [digitVec '0' '4' '1', digitVec '1' '4' '1', digitVec '1' '5' '1', digitVec '0' '5' '1']

/-- A request with two receiver points, one emitter of temperature 7, four rays and seed 3. -/
def twoPointRequest : List (Field ℚ) :=
  [twoPointPlanes, .polygons [⟨nearSquare, digitTok '7'⟩], .numRays (digitTok '4'),
    .seed (digitSeed '3')]

/-- What the reader makes of `twoPointRequest`. -/
def twoPointInput : JsonInput ℚ :=
  ⟨[⟨⟨0, 5, 0⟩, ⟨0, 0, 1⟩⟩, ⟨⟨0, 0, 0⟩, ⟨0, 0, 1⟩⟩],
    [⟨[⟨0, 4, 1⟩, ⟨1, 4, 1⟩, ⟨1, 5, 1⟩, ⟨0, 5, 1⟩], 7⟩], [], 4, some 3, ['P'], 2, 1⟩

/-- The sample request with its emitter in the legacy form. -/
def legacyRequest : List (Field ℚ) :=
  [samplePlanes] ++ .polygonsLegacy [sampleSquare] ::
    [.numRays (digitTok '4'), .seed (digitSeed '3')]

/-- The sample request with temperature `0`. -/
def zeroTemperatureRequest : List (Field ℚ) :=
  [samplePlanes] ++ .polygons ([sampleSquare].map (fun vs => ⟨vs, digitTok '0'⟩)) ::
    [.numRays (digitTok '4'), .seed (digitSeed '3')]

/-- What the reader makes of both. -/
def legacyInput : JsonInput ℚ :=
  ⟨[⟨⟨0, 0, 0⟩, ⟨0, 0, 1⟩⟩], [⟨[⟨0, 0, 5⟩, ⟨1, 0, 5⟩, ⟨1, 1, 5⟩, ⟨0, 1, 5⟩], 0⟩], [], 4, some 3,
    ['P'], 2, 1⟩

/-! # Properties -/

section Properties

variable {α : Type} [LinearOrderedField α]

/-! ## Conservation of the hit counters -/

theorem incrAt_length (l : List Nat) (k : Nat) : (incrAt l k).length = l.length := by
  induction l generalizing k with
  | nil => rfl
  | cons c cs ih => cases k <;> simp [incrAt, ih]

theorem incrAt_sum_le (l : List Nat) (k : Nat) : (incrAt l k).sum ≤ l.sum + 1 := by
  induction l generalizing k with
  | nil => simp [incrAt]
  | cons c cs ih =>
    cases k with
    | zero => simp [incrAt]; omega
    | succ k => have := ih k; simp [incrAt]; omega

theorem castRay_length (origin : Vec3 α) (inertScene emitScene : List (PolyData α))
    (acc : RayAcc α) (rdir : Vec3 α) :
    (castRay origin inertScene emitScene acc rdir).hitCounts.length = acc.hitCounts.length := by
  unfold castRay
  dsimp only
  split
  · simp [incrAt_length]
  · rfl

theorem castRay_sum_le (origin : Vec3 α) (inertScene emitScene : List (PolyData α))
    (acc : RayAcc α) (rdir : Vec3 α) :
    (castRay origin inertScene emitScene acc rdir).hitCounts.sum ≤ acc.hitCounts.sum + 1 := by
  unfold castRay
  dsimp only
  split
  · exact incrAt_sum_le _ _
  · omega

theorem foldl_castRay_length (origin : Vec3 α) (inertScene emitScene : List (PolyData α))
    (rays : List (Vec3 α)) (acc : RayAcc α) :
    (rays.foldl (castRay origin inertScene emitScene) acc).hitCounts.length
      = acc.hitCounts.length := by
  induction rays generalizing acc with
  | nil => rfl
  | cons r rs ih => simp only [List.foldl_cons, ih, castRay_length]

theorem foldl_castRay_sum_le (origin : Vec3 α) (inertScene emitScene : List (PolyData α))
    (rays : List (Vec3 α)) (acc : RayAcc α) :
    (rays.foldl (castRay origin inertScene emitScene) acc).hitCounts.sum
      ≤ acc.hitCounts.sum + rays.length := by
  induction rays generalizing acc with
  | nil => simp
  | cons r rs ih =>
    have h1 := ih (castRay origin inertScene emitScene acc r)
    have h2 := castRay_sum_le origin inertScene emitScene acc r
    simp only [List.foldl_cons, List.length_cons]
    omega

theorem sampleLoop_length (M : MathLib α) (R : RandomSource α) (u v w : Vec3 α) (n : Nat)
    (g : R.State) : (sampleLoop M R u v w n g).1.length = n := by
  induction n generalizing g with
  | zero => rfl
  | succ n ih => simp [sampleLoop, ih]

theorem generateCosineHemisphereRays_length (M : MathLib α) (R : RandomSource α) (numRays : Nat)
    (surfaceNormal : Vec3 α) (rng : R.State) :
    (generateCosineHemisphereRays M R numRays surfaceNormal rng).1.length = numRays := by
  unfold generateCosineHemisphereRays
  split
  · simp [*]
  · exact sampleLoop_length ..

theorem sum_map_div (l : List Nat) (N : α) :
    (l.map (fun (c : Nat) => (c : α) / N)).sum = ((l.sum : Nat) : α) / N := by
  induction l with
  | nil => simp
  | cons c cs ih => simp [ih, add_div]

theorem sum_replicate_zero (n : Nat) : (List.replicate n (0 : Nat)).sum = 0 := by
  induction n with
  | zero => rfl
  | succ n ih => simp [List.replicate_succ, ih]

/-- C1. For every receiver, scene, ray count and generator state the result has one view factor
per emitter, each view factor is in `[0, 1]`, and the view factors sum to at most `1`. -/
theorem viewFactors_conservation (M : MathLib α) (R : RandomSource α)
    (origin originNormal : Vec3 α) (emitterPolygons : List (PolygonWithTemp α))
    (inertPolygons : List (List (Vec3 α))) (numRays : Nat) (rng : R.State) :
    (calculateViewFactorsWithBlockage M R origin originNormal emitterPolygons inertPolygons
        numRays rng).1.viewFactors.length = emitterPolygons.length ∧
    (∀ f ∈ (calculateViewFactorsWithBlockage M R origin originNormal emitterPolygons
        inertPolygons numRays rng).1.viewFactors, 0 ≤ f ∧ f ≤ 1) ∧
    (calculateViewFactorsWithBlockage M R origin originNormal emitterPolygons inertPolygons
        numRays rng).1.viewFactors.sum ≤ 1 := by
  unfold calculateViewFactorsWithBlockage
  by_cases h0 : numRays = 0
  · simp only [h0, if_true]
    refine ⟨by simp, ?_, ?_⟩
    · intro f hf
      rw [List.eq_of_mem_replicate hf]
      exact ⟨le_refl _, zero_le_one⟩
    · have : (List.replicate emitterPolygons.length (0 : α)).sum = 0 := by
        simp [List.sum_replicate]
      rw [this]; exact zero_le_one
  · simp only [h0, if_false]
    have hN : (0 : α) < (numRays : α) := by exact_mod_cast Nat.pos_of_ne_zero h0
    have hlen := foldl_castRay_length origin (inertPolygons.map (classify M))
      (emitterPolygons.map (fun poly => classify M poly.vertices))
      (generateCosineHemisphereRays M R numRays originNormal rng).1
      ⟨List.replicate emitterPolygons.length 0, [], []⟩
    have hsum := foldl_castRay_sum_le origin (inertPolygons.map (classify M))
      (emitterPolygons.map (fun poly => classify M poly.vertices))
      (generateCosineHemisphereRays M R numRays originNormal rng).1
      ⟨List.replicate emitterPolygons.length 0, [], []⟩
    rw [generateCosineHemisphereRays_length] at hsum
    simp only [sum_replicate_zero, zero_add] at hsum
    refine ⟨by simpa using hlen, ?_, ?_⟩
    · intro f hf
      obtain ⟨c, hc, rfl⟩ := List.mem_map.1 hf
      have hcs : c ≤ numRays := le_trans (List.single_le_sum (fun _ _ => Nat.zero_le _) c hc) hsum
      refine ⟨div_nonneg (Nat.cast_nonneg c) hN.le, ?_⟩
      rw [div_le_one hN]
      exact_mod_cast hcs
    · rw [sum_map_div, div_le_one hN]
      exact_mod_cast hsum

/-! ## Occlusion -/

theorem rayPlaneIntersect_some_lt_top (o d n q hit : Vec3 α)
    (h : (rayPlaneIntersect o d n q).1 = some hit) : (rayPlaneIntersect o d n q).2 < ⊤ := by
  unfold rayPlaneIntersect at h ⊢
  dsimp only at h ⊢
  split
  · rename_i h1; rw [if_pos h1] at h; exact absurd h (by simp)
  · split
    · rename_i h1 h2; rw [if_neg h1, if_pos h2] at h; exact absurd h (by simp)
    · exact WithTop.coe_lt_top _

theorem scanInert_le_init (o d : Vec3 α) (l : List (PolyData α)) (c : WithTop α) :
    scanInert o d l c ≤ c := by
  induction l generalizing c with
  | nil => exact le_refl _
  | cons pd rest ih =>
    unfold scanInert
    dsimp only
    split
    · exact ih c
    · split
      · split
        · rename_i hlt
          split
          · exact le_trans (ih _) hlt.le
          · exact ih c
        · exact ih c
      · exact ih c

theorem scanInert_le_hit (o d : Vec3 α) (l : List (PolyData α)) (c : WithTop α)
    (pd : PolyData α) (hit : Vec3 α) (hmem : pd ∈ l) (hvalid : pd.valid = true)
    (hhit : (rayPlaneIntersect o d pd.normal pd.point).1 = some hit)
    (hin : isPointInPolygon3D hit pd.verts pd.normal = true) :
    scanInert o d l c ≤ (rayPlaneIntersect o d pd.normal pd.point).2 := by
  induction l generalizing c with
  | nil => simp at hmem
  | cons q rest ih =>
    rcases List.mem_cons.1 hmem with rfl | hm
    · unfold scanInert
      simp only [hvalid, Bool.not_true, hhit, Bool.false_eq_true, if_false]
      by_cases hlt : (rayPlaneIntersect o d pd.normal pd.point).2 < c
      · simp only [hlt, hin, if_true]
        exact scanInert_le_init _ _ _ _
      · simp only [hlt, if_false]
        exact le_trans (scanInert_le_init _ _ _ _) (not_lt.1 hlt)
    · unfold scanInert
      dsimp only
      split
      · exact ih c hm
      · split
        · split
          · split
            · exact ih _ hm
            · exact ih c hm
          · exact ih c hm
        · exact ih c hm

theorem indexToInt_of_lt (p : Nat) (h : p < 2 ^ 31) : indexToInt p = (p : Int) := by
  unfold indexToInt
  norm_num at h ⊢
  omega

theorem indexToInt_range (p : Nat) : -2 ^ 31 ≤ indexToInt p ∧ indexToInt p < 2 ^ 31 := by
  unfold indexToInt
  norm_num
  omega

theorem intToIndex_of_nonneg (k : Int) (h0 : 0 ≤ k) (h : k < 2 ^ 31) :
    intToIndex k = k.toNat := by
  unfold intToIndex
  norm_num at h ⊢
  omega

theorem intToIndex_of_neg (k : Int) (h0 : k < 0) (h : -2 ^ 31 ≤ k) :
    2 ^ 64 - 2 ^ 31 ≤ intToIndex k := by
  unfold intToIndex
  norm_num at h ⊢
  omega

/-- The recorded index is always a value of the 32-bit `int`. -/
theorem scanEmit_finalIdx_range (o d : Vec3 α) (p : Nat) (l : List (PolyData α))
    (st : EmitHit α) (h : -2 ^ 31 ≤ st.finalIdx ∧ st.finalIdx < 2 ^ 31) :
    -2 ^ 31 ≤ (scanEmit o d p l st).finalIdx ∧ (scanEmit o d p l st).finalIdx < 2 ^ 31 := by
  induction l generalizing p st with
  | nil => exact h
  | cons pd rest ih =>
    unfold scanEmit
    dsimp only
    split
    · exact ih _ _ h
    · split
      · split
        · split
          · exact ih _ _ (indexToInt_range p)
          · exact ih _ _ h
        · exact ih _ _ h
      · exact ih _ _ h

theorem scanEmit_finalIdx (o d : Vec3 α) (p : Nat) (l : List (PolyData α)) (st : EmitHit α)
    (hb : p + l.length ≤ 2 ^ 31) (h : st.finalIdx = -1 ∨ 0 ≤ st.finalIdx) :
    (scanEmit o d p l st).finalIdx = -1 ∨ 0 ≤ (scanEmit o d p l st).finalIdx := by
  induction l generalizing p st with
  | nil => exact h
  | cons pd rest ih =>
    have hb' : p + 1 + rest.length ≤ 2 ^ 31 := by
      simp only [List.length_cons] at hb; omega
    have hp : indexToInt p = (p : Int) :=
      indexToInt_of_lt p (by simp only [List.length_cons] at hb; omega)
    unfold scanEmit
    dsimp only
    split
    · exact ih _ _ hb' h
    · split
      · split
        · split
          · exact ih _ _ hb' (Or.inr (by rw [hp]; exact Int.natCast_nonneg p))
          · exact ih _ _ hb' h
        · exact ih _ _ hb' h
      · exact ih _ _ hb' h

theorem incrAt_getElem?_ne (l : List Nat) (j k : Nat) (h : j ≠ k) :
    (incrAt l j)[k]? = l[k]? := by
  induction l generalizing j k with
  | nil => rfl
  | cons c cs ih =>
    cases j with
    | zero =>
      cases k with
      | zero => exact absurd rfl h
      | succ k => simp [incrAt]
    | succ j =>
      cases k with
      | zero => simp [incrAt]
      | succ k => simpa [incrAt] using ih j k (by omega)

/-- The ray `rdir` is not attributed to emitter `k`: either it is blocked or its nearest
emitter is another one (or none). -/
theorem castRay_getElem?_of_blocked (origin : Vec3 α) (inertScene emitScene : List (PolyData α))
    (acc : RayAcc α) (rdir : Vec3 α) (k : Nat) (hk31 : k < 2 ^ 31)
    (h : (scanEmit origin rdir 0 emitScene ⟨⊤, -1, Vec3.zero⟩).finalIdx = (k : Int) →
      scanInert origin rdir inertScene ⊤ < ⊤ ∧
      scanInert origin rdir inertScene ⊤ ≤
        (scanEmit origin rdir 0 emitScene ⟨⊤, -1, Vec3.zero⟩).closestEmit) :
    (castRay origin inertScene emitScene acc rdir).hitCounts[k]? = acc.hitCounts[k]? := by
  unfold castRay
  dsimp only
  split
  · rename_i hc
    simp only [Bool.and_eq_true, Bool.not_eq_true', decide_eq_true_eq, Bool.and_eq_false_imp,
      decide_eq_false_iff_not] at hc
    have hrng := scanEmit_finalIdx_range origin rdir 0 emitScene ⟨⊤, -1, Vec3.zero⟩
      ⟨by norm_num, by norm_num⟩
    apply incrAt_getElem?_ne
    intro heq
    have hk : (scanEmit origin rdir 0 emitScene ⟨⊤, -1, Vec3.zero⟩).finalIdx = (k : Int) := by
      by_cases hneg : (scanEmit origin rdir 0 emitScene ⟨⊤, -1, Vec3.zero⟩).finalIdx < 0
      · have h1 := intToIndex_of_neg _ hneg hrng.1
        norm_num at h1 hk31
        omega
      · have h1 := intToIndex_of_nonneg _ (not_lt.1 hneg) hrng.2
        omega
    obtain ⟨h1, h2⟩ := h hk
    exact hc.1 h1 h2
  · rfl

theorem foldl_castRay_getElem? (origin : Vec3 α) (inertScene emitScene : List (PolyData α))
    (rays : List (Vec3 α)) (acc : RayAcc α) (k : Nat) (hk31 : k < 2 ^ 31)
    (h : ∀ rdir ∈ rays,
      (scanEmit origin rdir 0 emitScene ⟨⊤, -1, Vec3.zero⟩).finalIdx = (k : Int) →
      scanInert origin rdir inertScene ⊤ < ⊤ ∧
      scanInert origin rdir inertScene ⊤ ≤
        (scanEmit origin rdir 0 emitScene ⟨⊤, -1, Vec3.zero⟩).closestEmit) :
    (rays.foldl (castRay origin inertScene emitScene) acc).hitCounts[k]? = acc.hitCounts[k]? := by
  induction rays generalizing acc with
  | nil => rfl
  | cons r rs ih =>
    simp only [List.foldl_cons]
    rw [ih _ (fun rdir hr => h rdir (List.mem_cons_of_mem _ hr))]
    exact castRay_getElem?_of_blocked origin inertScene emitScene acc r k hk31
      (h r (List.mem_cons_self _ _))

/-! ## The occlusion scene: a square emitter at height 5 behind a square blocker at height 3 -/

theorem edgeStep_vertical (poly : List (α × α)) (x y : α) (j i : Nat) (b : Bool)
    (a ya yb : α) (hi : poly.getD i (0, 0) = (a, ya)) (hj : poly.getD j (0, 0) = (a, yb))
    (hden : (yb - ya) + 1 / 10 ^ 30 ≠ 0) :
    edgeStep poly x y (j, b) i =
      (i, if (decide (ya > y) != decide (yb > y)) && decide (x < a) then !b else b) := by
  simp only [edgeStep, hi, hj, sub_self, zero_mul, zero_div, zero_add, hden, if_false]

theorem edgeStep_horizontal (poly : List (α × α)) (x y : α) (j i : Nat) (b : Bool)
    (xa xb c : α) (hi : poly.getD i (0, 0) = (xa, c)) (hj : poly.getD j (0, 0) = (xb, c)) :
    edgeStep poly x y (j, b) i = (i, b) := by
  simp only [edgeStep, hi, hj, bne_self_eq_false, Bool.false_and, Bool.false_eq_true, if_false]

theorem unitSquare_inside (x y : α) :
    isPointInPolygon2D [((-1 : α), (-1 : α)), (1, -1), (1, 1), (-1, 1)] x y = true ↔
      (-1 ≤ x ∧ x < 1 ∧ -1 ≤ y ∧ y < 1) := by
  have hfold : isPointInPolygon2D [((-1 : α), (-1 : α)), (1, -1), (1, 1), (-1, 1)] x y =
      (edgeStep [((-1 : α), (-1 : α)), (1, -1), (1, 1), (-1, 1)] x y
        (edgeStep [((-1 : α), (-1 : α)), (1, -1), (1, 1), (-1, 1)] x y
          (edgeStep [((-1 : α), (-1 : α)), (1, -1), (1, 1), (-1, 1)] x y
            (edgeStep [((-1 : α), (-1 : α)), (1, -1), (1, 1), (-1, 1)] x y
              (3, false) 0) 1) 2) 3).2 := by
    simp only [isPointInPolygon2D, List.length_cons, List.length_nil, List.range_succ,
      List.range_zero, List.nil_append, List.cons_append, List.foldl_cons, List.foldl_nil]
  rw [hfold,
    edgeStep_vertical [((-1 : α), (-1 : α)), (1, -1), (1, 1), (-1, 1)] x y 3 0 false (-1) (-1) 1
      rfl rfl (by norm_num),
    edgeStep_horizontal [((-1 : α), (-1 : α)), (1, -1), (1, 1), (-1, 1)] x y 0 1 _ 1 (-1) (-1)
      rfl rfl,
    edgeStep_vertical [((-1 : α), (-1 : α)), (1, -1), (1, 1), (-1, 1)] x y 1 2 _ 1 1 (-1)
      rfl rfl (by norm_num),
    edgeStep_horizontal [((-1 : α), (-1 : α)), (1, -1), (1, 1), (-1, 1)] x y 2 3 _ (-1) 1 1
      rfl rfl]
  by_cases h1 : y < 1 <;> by_cases h2 : y < -1 <;> by_cases h3 : x < 1 <;>
    by_cases h4 : x < -1 <;>
    simp [h1, h2, h3, h4, not_lt.1, not_le.2] <;> linarith


theorem classify_sceneEmitter (M : MathLib α) (hs : M.sqrt 16 = 4) :
    classify M (sceneEmitter : List (Vec3 α)) = ⟨sceneEmitter, ⟨0, 0, 1⟩, ⟨-1, -1, 5⟩, true⟩ := by
  have h16 : dot (cross ((⟨1, -1, 5⟩ : Vec3 α).sub ⟨-1, -1, 5⟩)
      ((⟨1, 1, 5⟩ : Vec3 α).sub ⟨-1, -1, 5⟩)) (cross ((⟨1, -1, 5⟩ : Vec3 α).sub ⟨-1, -1, 5⟩)
      ((⟨1, 1, 5⟩ : Vec3 α).sub ⟨-1, -1, 5⟩)) = 16 := by
    simp only [dot, cross, Vec3.sub]; norm_num
  have hlt : ¬ ((4 : α) < 1 / 10 ^ 9) := by norm_num
  simp only [classify, getPolygonPlane, sceneEmitter, length, h16, hs, hlt, if_false]
  simp only [cross, Vec3.sub, Vec3.divide]
  norm_num

theorem keptAxes_up : keptAxes (⟨0, 0, 1⟩ : Vec3 α) = (0, 1) := by
  simp only [keptAxes]; norm_num

theorem inside_sceneEmitter (hit : Vec3 α) :
    isPointInPolygon3D hit sceneEmitter ⟨0, 0, 1⟩ = true ↔
      (-1 ≤ hit.x ∧ hit.x < 1 ∧ -1 ≤ hit.y ∧ hit.y < 1) := by
  rw [← unitSquare_inside]
  simp [isPointInPolygon3D, keptAxes_up, sceneEmitter, Vec3.coord]

theorem inside_sceneInert (hit : Vec3 α) :
    isPointInPolygon3D hit sceneInert ⟨0, 0, 1⟩ = true ↔
      (-1 ≤ hit.x ∧ hit.x < 1 ∧ -1 ≤ hit.y ∧ hit.y < 1) := by
  rw [← unitSquare_inside]
  simp [isPointInPolygon3D, keptAxes_up, sceneInert, Vec3.coord]

theorem rayPlane_scene (d : Vec3 α) (h : α) :
    rayPlaneIntersect ⟨0, 0, 0⟩ d ⟨0, 0, 1⟩ ⟨-1, -1, h⟩ =
      if |d.z| < 1 / 10 ^ 9 then (none, ⊤)
      else if h / d.z < 1 / 10 ^ 7 then (none, ⊤)
      else (some ⟨d.x * (h / d.z), d.y * (h / d.z), d.z * (h / d.z)⟩,
        ((h / d.z : α) : WithTop α)) := by
  have h1 : dot (⟨0, 0, 1⟩ : Vec3 α) d = d.z := by simp [dot]
  have h2 : -dot (⟨0, 0, 1⟩ : Vec3 α) ((⟨0, 0, 0⟩ : Vec3 α).sub ⟨-1, -1, h⟩) = h := by
    simp [dot, Vec3.sub]
  simp only [rayPlaneIntersect, h1, h2, Vec3.add, Vec3.scale, zero_add]

theorem sampleLoop_z_le_one (M : MathLib α) (R : RandomSource α) (u v w : Vec3 α)
    (hu : u.z = 0) (hv : v.z = 0) (hw : w.z = 1) (hsq : ∀ x, x ≤ 1 → M.sqrt x ≤ 1)
    (hdraw : ∀ g, 0 ≤ (R.uniform g).1) (n : Nat) (g : R.State) :
    ∀ r ∈ (sampleLoop M R u v w n g).1, r.z ≤ 1 := by
  induction n generalizing g with
  | zero => intro r hr; simp [sampleLoop] at hr
  | succ n ih =>
    intro r hr
    simp only [sampleLoop, List.mem_cons] at hr
    rcases hr with rfl | hr
    · simp only [hu, hv, hw, zero_mul, zero_add, one_mul]
      exact hsq _ (by linarith [hdraw (R.uniform g).2])
    · exact ih _ r hr

theorem sceneRays_z_le_one (M : MathLib α) (R : RandomSource α) (hs1 : M.sqrt 1 = 1)
    (hsq : ∀ x, x ≤ 1 → M.sqrt x ≤ 1) (hdraw : ∀ g, 0 ≤ (R.uniform g).1) (numRays : Nat)
    (rng : R.State) :
    ∀ r ∈ (generateCosineHemisphereRays M R numRays ⟨0, 0, 1⟩ rng).1, r.z ≤ 1 := by
  unfold generateCosineHemisphereRays
  split
  · intro r hr; simp at hr
  · have hw : normalize M (⟨0, 0, 1⟩ : Vec3 α) = ⟨0, 0, 1⟩ := by
      have hl : length M (⟨0, 0, 1⟩ : Vec3 α) = 1 := by simp [length, dot, hs1]
      have h1 : ¬ ((1 : α) ≤ 1 / 10 ^ 12) := by norm_num
      simp only [normalize, hl, h1, if_false, Vec3.divide]
      norm_num
    have hx : ¬ (|(0 : α)| > 9999 / 10000) := by norm_num
    have hu : normalize M (cross (⟨1, 0, 0⟩ : Vec3 α) ⟨0, 0, 1⟩) = ⟨0, -1, 0⟩ := by
      have hc : cross (⟨1, 0, 0⟩ : Vec3 α) ⟨0, 0, 1⟩ = ⟨0, -1, 0⟩ := by simp [cross]
      have hl : length M (⟨0, -1, 0⟩ : Vec3 α) = 1 := by simp [length, dot, hs1]
      have h1 : ¬ ((1 : α) ≤ 1 / 10 ^ 12) := by norm_num
      rw [hc]
      simp only [normalize, hl, h1, if_false, Vec3.divide]
      norm_num
    simp only [hw, hx, if_false, hu]
    exact sampleLoop_z_le_one M R _ _ _ rfl (by simp [cross]) rfl hsq hdraw numRays rng

theorem scene_ray_hit (d : Vec3 α) (hz : d.z ≤ 1)
    (hfin : (scanEmit ⟨0, 0, 0⟩ d 0 [⟨sceneEmitter, ⟨0, 0, 1⟩, ⟨-1, -1, 5⟩, true⟩]
        ⟨⊤, -1, Vec3.zero⟩).finalIdx = ((0 : Nat) : Int)) :
    ∃ hit, (rayPlaneIntersect ⟨0, 0, 0⟩ d ⟨0, 0, 1⟩ ⟨-1, -1, 3⟩).1 = some hit ∧
      isPointInPolygon3D hit sceneInert ⟨0, 0, 1⟩ = true ∧
      (rayPlaneIntersect ⟨0, 0, 0⟩ d ⟨0, 0, 1⟩ ⟨-1, -1, 3⟩).2 ≤
        (scanEmit ⟨0, 0, 0⟩ d 0 [⟨sceneEmitter, ⟨0, 0, 1⟩, ⟨-1, -1, 5⟩, true⟩]
          ⟨⊤, -1, Vec3.zero⟩).closestEmit := by
  simp only [scanEmit, rayPlane_scene, Bool.not_true, Bool.false_eq_true, if_false] at hfin ⊢
  by_cases hnd : |d.z| < 1 / 10 ^ 9
  · simp only [hnd, if_true] at hfin
    simp at hfin
  · by_cases ht : 5 / d.z < 1 / 10 ^ 7
    · simp only [hnd, ht, if_true, if_false] at hfin
      simp at hfin
    · have hpos : 0 < d.z := by
        by_contra hneg
        have : 5 / d.z ≤ 0 := div_nonpos_of_nonneg_of_nonpos (by norm_num) (not_lt.1 hneg)
        have : (0 : α) < 1 / 10 ^ 7 := by norm_num
        exact ht (by linarith)
      have ht3 : ¬ (3 / d.z < 1 / 10 ^ 7) := by
        rw [not_lt, le_div_iff₀ hpos]
        have : (1 : α) / 10 ^ 7 * d.z ≤ 1 / 10 ^ 7 * 1 :=
          mul_le_mul_of_nonneg_left hz (by norm_num)
        linarith
      simp only [hnd, ht, ht3, if_false, WithTop.coe_lt_top, if_true] at hfin ⊢
      by_cases hin : isPointInPolygon3D
          (⟨d.x * (5 / d.z), d.y * (5 / d.z), d.z * (5 / d.z)⟩ : Vec3 α) sceneEmitter ⟨0, 0, 1⟩
          = true
      · have hin3 : isPointInPolygon3D
            (⟨d.x * (3 / d.z), d.y * (3 / d.z), d.z * (3 / d.z)⟩ : Vec3 α) sceneInert ⟨0, 0, 1⟩
            = true := by
          rw [inside_sceneEmitter] at hin
          rw [inside_sceneInert]
          obtain ⟨a1, a2, a3, a4⟩ := hin
          dsimp only at a1 a2 a3 a4 ⊢
          have e1 : d.x * (3 / d.z) = 3 / 5 * (d.x * (5 / d.z)) := by ring
          have e2 : d.y * (3 / d.z) = 3 / 5 * (d.y * (5 / d.z)) := by ring
          rw [e1, e2]
          refine ⟨by linarith, by linarith, by linarith, by linarith⟩
        refine ⟨_, rfl, hin3, ?_⟩
        simp only [hin, if_true, WithTop.coe_le_coe]
        exact div_le_div_of_nonneg_right (by norm_num) hpos.le
      · simp only [hin, Bool.false_eq_true, if_false] at hfin
        simp at hfin

theorem getPolygonPlane_sceneInert (M : MathLib α) (hs : M.sqrt 16 = 4) :
    getPolygonPlane M (sceneInert : List (Vec3 α)) = some ⟨⟨0, 0, 1⟩, ⟨-1, -1, 3⟩⟩ := by
  have h16 : dot (cross ((⟨1, -1, 3⟩ : Vec3 α).sub ⟨-1, -1, 3⟩)
      ((⟨1, 1, 3⟩ : Vec3 α).sub ⟨-1, -1, 3⟩)) (cross ((⟨1, -1, 3⟩ : Vec3 α).sub ⟨-1, -1, 3⟩)
      ((⟨1, 1, 3⟩ : Vec3 α).sub ⟨-1, -1, 3⟩)) = 16 := by
    simp only [dot, cross, Vec3.sub]; norm_num
  have hlt : ¬ ((4 : α) < 1 / 10 ^ 9) := by norm_num
  simp only [getPolygonPlane, sceneInert, length, h16, hs, hlt, if_false]
  simp only [cross, Vec3.sub, Vec3.divide]
  norm_num

/-- In the occlusion scene every sampled direction that reaches the emitter reaches the inert
square first. -/
theorem scene_occluded (M : MathLib α) (R : RandomSource α) (hs1 : M.sqrt 1 = 1)
    (hs16 : M.sqrt 16 = 4) (hsq : ∀ x, x ≤ 1 → M.sqrt x ≤ 1) (hdraw : ∀ g, 0 ≤ (R.uniform g).1)
    (temperature : α) (numRays : Nat) (rng : R.State) :
    ∀ rdir ∈ (generateCosineHemisphereRays M R numRays ⟨0, 0, 1⟩ rng).1,
      (scanEmit ⟨0, 0, 0⟩ rdir 0 (([⟨sceneEmitter, temperature⟩] : List (PolygonWithTemp α)).map
        (fun poly => classify M poly.vertices)) ⟨⊤, -1, Vec3.zero⟩).finalIdx = ((0 : Nat) : Int) →
      ∃ verts ∈ ([sceneInert] : List (List (Vec3 α))), ∃ pl hit,
        getPolygonPlane M verts = some pl ∧
        (rayPlaneIntersect ⟨0, 0, 0⟩ rdir pl.normal pl.point).1 = some hit ∧
        isPointInPolygon3D hit verts pl.normal = true ∧
        (rayPlaneIntersect ⟨0, 0, 0⟩ rdir pl.normal pl.point).2 ≤
          (scanEmit ⟨0, 0, 0⟩ rdir 0
            (([⟨sceneEmitter, temperature⟩] : List (PolygonWithTemp α)).map
              (fun poly => classify M poly.vertices)) ⟨⊤, -1, Vec3.zero⟩).closestEmit := by
  intro rdir hr hfin
  have hz := sceneRays_z_le_one M R hs1 hsq hdraw numRays rng rdir hr
  simp only [List.map_cons, List.map_nil, classify_sceneEmitter M hs16] at hfin ⊢
  obtain ⟨hit, h1, h2, h3⟩ := scene_ray_hit rdir hz hfin
  exact ⟨sceneInert, List.mem_singleton.2 rfl, ⟨⟨0, 0, 1⟩, ⟨-1, -1, 3⟩⟩, hit,
    getPolygonPlane_sceneInert M hs16, h1, h2, h3⟩

theorem classify_of_plane (M : MathLib α) (verts : List (Vec3 α)) (pl : Plane α)
    (h : getPolygonPlane M verts = some pl) :
    classify M verts = ⟨verts, pl.normal, pl.point, true⟩ := by
  simp only [classify, h]

/-- The counter of emitter `k` stays `0` when no sampled ray is attributed to `k`. -/
theorem viewFactor_zero_of_blocked (M : MathLib α) (R : RandomSource α)
    (origin originNormal : Vec3 α) (emitterPolygons : List (PolygonWithTemp α))
    (inertPolygons : List (List (Vec3 α))) (numRays : Nat) (rng : R.State) (k : Nat)
    (hk : k < emitterPolygons.length) (hlen : emitterPolygons.length ≤ 2 ^ 31)
    (h : ∀ rdir ∈ (generateCosineHemisphereRays M R numRays originNormal rng).1,
      (scanEmit origin rdir 0 (emitterPolygons.map (fun poly => classify M poly.vertices))
        ⟨⊤, -1, Vec3.zero⟩).finalIdx = (k : Int) →
      scanInert origin rdir (inertPolygons.map (classify M)) ⊤ < ⊤ ∧
      scanInert origin rdir (inertPolygons.map (classify M)) ⊤ ≤
        (scanEmit origin rdir 0 (emitterPolygons.map (fun poly => classify M poly.vertices))
          ⟨⊤, -1, Vec3.zero⟩).closestEmit) :
    (calculateViewFactorsWithBlockage M R origin originNormal emitterPolygons inertPolygons
      numRays rng).1.viewFactors[k]? = some 0 := by
  unfold calculateViewFactorsWithBlockage
  split
  · simp [List.getElem?_replicate, hk]
  · have := foldl_castRay_getElem? origin (inertPolygons.map (classify M))
      (emitterPolygons.map (fun poly => classify M poly.vertices))
      (generateCosineHemisphereRays M R numRays originNormal rng).1
      ⟨List.replicate emitterPolygons.length 0, [], []⟩ k (lt_of_lt_of_le hk hlen) h
    simp only [List.getElem?_map, this]
    simp [List.getElem?_replicate, hk]

theorem viewFactors_length (M : MathLib α) (R : RandomSource α)
    (origin originNormal : Vec3 α) (emitterPolygons : List (PolygonWithTemp α))
    (inertPolygons : List (List (Vec3 α))) (numRays : Nat) (rng : R.State) :
    (calculateViewFactorsWithBlockage M R origin originNormal emitterPolygons inertPolygons
        numRays rng).1.viewFactors.length = emitterPolygons.length := by
  unfold calculateViewFactorsWithBlockage
  split
  · simp
  · simp [foldl_castRay_length]

/-- C2. Full occlusion. If every sampled ray whose nearest emitter is emitter `k` also hits,
inside its outline, a valid inert polygon at a distance not greater than the emitter hit, then
the view factor of emitter `k` is exactly `0` (the scene having at most `2^31` emitters, so that
the index of every emitter fits the `int` that records it). In the scene with the receiver at the origin,
normal `(0,0,1)`, the emitter square at height 5 and the inert square at height 3, the view
factor of the emitter is `0` for every ray count and generator state, as soon as the library
square root is exact at `1` and `16`, is at most `1` below `1`, and the draws are not negative. -/
theorem full_occlusion (M : MathLib α) (R : RandomSource α) :
    (∀ (origin originNormal : Vec3 α) (emitterPolygons : List (PolygonWithTemp α))
      (inertPolygons : List (List (Vec3 α))) (numRays : Nat) (rng : R.State) (k : Nat),
      k < emitterPolygons.length → emitterPolygons.length ≤ 2 ^ 31 →
      (∀ rdir ∈ (generateCosineHemisphereRays M R numRays originNormal rng).1,
        (scanEmit origin rdir 0 (emitterPolygons.map (fun poly => classify M poly.vertices))
          ⟨⊤, -1, Vec3.zero⟩).finalIdx = (k : Int) →
        ∃ verts ∈ inertPolygons, ∃ pl hit, getPolygonPlane M verts = some pl ∧
          (rayPlaneIntersect origin rdir pl.normal pl.point).1 = some hit ∧
          isPointInPolygon3D hit verts pl.normal = true ∧
          (rayPlaneIntersect origin rdir pl.normal pl.point).2 ≤
            (scanEmit origin rdir 0 (emitterPolygons.map (fun poly => classify M poly.vertices))
              ⟨⊤, -1, Vec3.zero⟩).closestEmit) →
      (calculateViewFactorsWithBlockage M R origin originNormal emitterPolygons inertPolygons
        numRays rng).1.viewFactors[k]? = some 0) ∧
    (M.sqrt 1 = 1 → M.sqrt 16 = 4 → (∀ x, x ≤ 1 → M.sqrt x ≤ 1) →
      (∀ g, 0 ≤ (R.uniform g).1) →
      ∀ (temperature : α) (numRays : Nat) (rng : R.State),
        (calculateViewFactorsWithBlockage M R ⟨0, 0, 0⟩ ⟨0, 0, 1⟩ [⟨sceneEmitter, temperature⟩]
          [sceneInert] numRays rng).1.viewFactors = [0]) := by
  have hgen : ∀ (origin originNormal : Vec3 α) (emitterPolygons : List (PolygonWithTemp α))
      (inertPolygons : List (List (Vec3 α))) (numRays : Nat) (rng : R.State) (k : Nat),
      k < emitterPolygons.length → emitterPolygons.length ≤ 2 ^ 31 →
      (∀ rdir ∈ (generateCosineHemisphereRays M R numRays originNormal rng).1,
        (scanEmit origin rdir 0 (emitterPolygons.map (fun poly => classify M poly.vertices))
          ⟨⊤, -1, Vec3.zero⟩).finalIdx = (k : Int) →
        ∃ verts ∈ inertPolygons, ∃ pl hit, getPolygonPlane M verts = some pl ∧
          (rayPlaneIntersect origin rdir pl.normal pl.point).1 = some hit ∧
          isPointInPolygon3D hit verts pl.normal = true ∧
          (rayPlaneIntersect origin rdir pl.normal pl.point).2 ≤
            (scanEmit origin rdir 0 (emitterPolygons.map (fun poly => classify M poly.vertices))
              ⟨⊤, -1, Vec3.zero⟩).closestEmit) →
      (calculateViewFactorsWithBlockage M R origin originNormal emitterPolygons inertPolygons
        numRays rng).1.viewFactors[k]? = some 0 := by
    intro origin originNormal emitterPolygons inertPolygons numRays rng k hk hlen h
    apply viewFactor_zero_of_blocked M R origin originNormal emitterPolygons inertPolygons
      numRays rng k hk hlen
    intro rdir hr hfin
    obtain ⟨verts, hmem, pl, hit, hpl, hhit, hin, hle⟩ := h rdir hr hfin
    have hpd : (⟨verts, pl.normal, pl.point, true⟩ : PolyData α) ∈
        inertPolygons.map (classify M) :=
      List.mem_map.2 ⟨verts, hmem, classify_of_plane M verts pl hpl⟩
    have hmin := scanInert_le_hit origin rdir (inertPolygons.map (classify M)) ⊤
      ⟨verts, pl.normal, pl.point, true⟩ hit hpd rfl hhit hin
    exact ⟨lt_of_le_of_lt hmin (rayPlaneIntersect_some_lt_top _ _ _ _ hit hhit),
      le_trans hmin hle⟩
  refine ⟨hgen, ?_⟩
  · intro hs1 hs16 hsq hdraw temperature numRays rng
    have hlen := viewFactors_length M R ⟨0, 0, 0⟩ ⟨0, 0, 1⟩ [⟨sceneEmitter, temperature⟩]
      [sceneInert] numRays rng
    have hzero := hgen ⟨0, 0, 0⟩ ⟨0, 0, 1⟩ [⟨sceneEmitter, temperature⟩] [sceneInert] numRays
      rng 0 (by simp) (by norm_num)
      (scene_occluded M R hs1 hs16 hsq hdraw temperature numRays rng)
    generalize (calculateViewFactorsWithBlockage M R ⟨0, 0, 0⟩ ⟨0, 0, 1⟩
      [⟨sceneEmitter, temperature⟩] [sceneInert] numRays rng).1.viewFactors = vf at hlen hzero
    match vf, hlen, hzero with
    | [f], _, hz => simpa using hz

/-! ## Degenerate polygons -/

theorem getPolygonPlane_degenerate (M : MathLib α) (deg : List (Vec3 α))
    (hdeg : deg.length < 3 ∨ (M.sqrt 0 = 0 ∧ ∃ v0 v1 v2 rest, deg = v0 :: v1 :: v2 :: rest ∧
      cross (v1.sub v0) (v2.sub v0) = ⟨0, 0, 0⟩)) :
    getPolygonPlane M deg = none := by
  rcases hdeg with h | ⟨hs0, v0, v1, v2, rest, rfl, hc⟩
  · match deg, h with
    | [], _ => rfl
    | [_], _ => rfl
    | [_, _], _ => rfl
    | _ :: _ :: _ :: _, h => simp at h; omega
  · have hd : dot (⟨0, 0, 0⟩ : Vec3 α) ⟨0, 0, 0⟩ = 0 := by simp [dot]
    have hlt : (0 : α) < 1 / 10 ^ 9 := by norm_num
    simp only [getPolygonPlane, hc, length, hd, hs0, hlt, if_true]

theorem classify_invalid (M : MathLib α) (deg : List (Vec3 α))
    (h : getPolygonPlane M deg = none) : (classify M deg).valid = false := by
  simp only [classify, h]

theorem scanInert_skip (o d : Vec3 α) (l₁ l₂ : List (PolyData α)) (pd : PolyData α)
    (hpd : pd.valid = false) (c : WithTop α) :
    scanInert o d (l₁ ++ pd :: l₂) c = scanInert o d (l₁ ++ l₂) c := by
  induction l₁ generalizing c with
  | nil => simp [scanInert, hpd]
  | cons q rest ih =>
    simp only [List.cons_append]
    unfold scanInert
    simp only [ih]

theorem scanEmit_cons (o d : Vec3 α) (p : Nat) (pd : PolyData α) (rest : List (PolyData α))
    (st : EmitHit α) :
    scanEmit o d p (pd :: rest) st = scanEmit o d (p + 1) rest (scanEmit o d p [pd] st) := by
  simp only [scanEmit]
  split
  · rfl
  · split
    · split
      · split <;> rfl
      · rfl
    · rfl

theorem scanEmit_append (o d : Vec3 α) (p : Nat) (l₁ l₂ : List (PolyData α)) (st : EmitHit α) :
    scanEmit o d p (l₁ ++ l₂) st = scanEmit o d (p + l₁.length) l₂ (scanEmit o d p l₁ st) := by
  induction l₁ generalizing p st with
  | nil => simp [scanEmit]
  | cons q rest ih =>
    have e : p + (q :: rest).length = p + 1 + rest.length := by simp; omega
    rw [e, List.cons_append, scanEmit_cons, ih, ← scanEmit_cons]

theorem scanEmit_finalIdx_lt (o d : Vec3 α) (p : Nat) (l : List (PolyData α)) (st : EmitHit α)
    (hb : p + l.length ≤ 2 ^ 31) (h : st.finalIdx < (p : Int)) :
    (scanEmit o d p l st).finalIdx < ((p + l.length : Nat) : Int) := by
  induction l generalizing p st with
  | nil => simpa [scanEmit] using h
  | cons pd rest ih =>
    have e : p + (pd :: rest).length = p + 1 + rest.length := by simp; omega
    have hb' : p + 1 + rest.length ≤ 2 ^ 31 := by
      simp only [List.length_cons] at hb; omega
    have hp : indexToInt p = (p : Int) :=
      indexToInt_of_lt p (by simp only [List.length_cons] at hb; omega)
    rw [e]
    unfold scanEmit
    dsimp only
    split
    · exact ih _ _ hb' (by push_cast; omega)
    · split
      · split
        · split
          · exact ih _ _ hb' (by rw [hp]; push_cast; omega)
          · exact ih _ _ hb' (by push_cast; omega)
        · exact ih _ _ hb' (by push_cast; omega)
      · exact ih _ _ hb' (by push_cast; omega)

theorem scanEmit_shift (o d : Vec3 α) (m q : Nat) (hq : m ≤ q) (l : List (PolyData α))
    (hb : q + 1 + l.length ≤ 2 ^ 31)
    (st st' : EmitHit α) (hc : st'.closestEmit = st.closestEmit)
    (hp : st'.closestPoint = st.closestPoint)
    (hi : st'.finalIdx = if (m : Int) ≤ st.finalIdx then st.finalIdx + 1 else st.finalIdx) :
    (scanEmit o d (q + 1) l st').closestEmit = (scanEmit o d q l st).closestEmit ∧
    (scanEmit o d (q + 1) l st').closestPoint = (scanEmit o d q l st).closestPoint ∧
    (scanEmit o d (q + 1) l st').finalIdx =
      if (m : Int) ≤ (scanEmit o d q l st).finalIdx then (scanEmit o d q l st).finalIdx + 1
      else (scanEmit o d q l st).finalIdx := by
  induction l generalizing q st st' with
  | nil => exact ⟨hc, hp, hi⟩
  | cons pd rest ih =>
    have hb' : q + 1 + 1 + rest.length ≤ 2 ^ 31 := by
      simp only [List.length_cons] at hb; omega
    unfold scanEmit
    dsimp only
    rw [hc]
    have hnew : indexToInt (q + 1) =
        if (m : Int) ≤ indexToInt q then indexToInt q + 1 else indexToInt q := by
      have : (m : Int) ≤ (q : Int) := by exact_mod_cast hq
      rw [indexToInt_of_lt (q + 1) (by omega), indexToInt_of_lt q (by omega)]
      simp [this]
    split
    · exact ih (q + 1) (by omega) hb' st st' hc hp hi
    · split
      · split
        · split
          · exact ih (q + 1) (by omega) hb' _ _ rfl rfl hnew
          · exact ih (q + 1) (by omega) hb' st st' hc hp hi
        · exact ih (q + 1) (by omega) hb' st st' hc hp hi
      · exact ih (q + 1) (by omega) hb' st st' hc hp hi

theorem scanEmit_insert (o d : Vec3 α) (l₁ l₂ : List (PolyData α)) (pd : PolyData α)
    (hpd : pd.valid = false) (hb : (l₁ ++ pd :: l₂).length ≤ 2 ^ 31) :
    (scanEmit o d 0 (l₁ ++ pd :: l₂) ⟨⊤, -1, Vec3.zero⟩).closestEmit =
      (scanEmit o d 0 (l₁ ++ l₂) ⟨⊤, -1, Vec3.zero⟩).closestEmit ∧
    (scanEmit o d 0 (l₁ ++ pd :: l₂) ⟨⊤, -1, Vec3.zero⟩).closestPoint =
      (scanEmit o d 0 (l₁ ++ l₂) ⟨⊤, -1, Vec3.zero⟩).closestPoint ∧
    (scanEmit o d 0 (l₁ ++ pd :: l₂) ⟨⊤, -1, Vec3.zero⟩).finalIdx =
      if (l₁.length : Int) ≤ (scanEmit o d 0 (l₁ ++ l₂) ⟨⊤, -1, Vec3.zero⟩).finalIdx then
        (scanEmit o d 0 (l₁ ++ l₂) ⟨⊤, -1, Vec3.zero⟩).finalIdx + 1
      else (scanEmit o d 0 (l₁ ++ l₂) ⟨⊤, -1, Vec3.zero⟩).finalIdx := by
  simp only [List.length_append, List.length_cons] at hb
  rw [scanEmit_append, scanEmit_append o d 0 l₁ l₂]
  have hlt := scanEmit_finalIdx_lt o d 0 l₁ ⟨⊤, -1, Vec3.zero⟩ (by omega) (by simp)
  simp only [Nat.zero_add] at hlt ⊢
  have hstep : scanEmit o d l₁.length (pd :: l₂) (scanEmit o d 0 l₁ ⟨⊤, -1, Vec3.zero⟩) =
      scanEmit o d (l₁.length + 1) l₂ (scanEmit o d 0 l₁ ⟨⊤, -1, Vec3.zero⟩) := by
    rw [scanEmit]; simp [hpd]
  rw [hstep]
  exact scanEmit_shift o d l₁.length l₁.length (le_refl _) l₂ (by omega) _ _ rfl rfl
    (by rw [if_neg (by omega)])

theorem incrAt_insert (l : List Nat) (m i : Nat) (hm : m ≤ l.length) :
    incrAt (l.take m ++ 0 :: l.drop m) (if m ≤ i then i + 1 else i) =
      (incrAt l i).take m ++ 0 :: (incrAt l i).drop m := by
  induction l generalizing m i with
  | nil =>
    have : m = 0 := by simpa using hm
    subst this
    simp [incrAt]
  | cons a l ih =>
    cases m with
    | zero => simp [incrAt]
    | succ m =>
      have hm' : m ≤ l.length := by simpa using hm
      cases i with
      | zero => simp [incrAt]
      | succ i =>
        have := ih m i hm'
        by_cases h : m ≤ i
        · simp only [h, if_true] at this
          simp [incrAt, h, this]
        · simp only [h, if_false] at this
          simp [incrAt, h, this]

theorem castRay_insert (origin : Vec3 α) (inertScene l₁ l₂ : List (PolyData α))
    (pd : PolyData α) (hpd : pd.valid = false) (hb : (l₁ ++ pd :: l₂).length ≤ 2 ^ 31)
    (acc acc' : RayAcc α) (rdir : Vec3 α)
    (hm : l₁.length ≤ acc.hitCounts.length)
    (hc : acc'.hitCounts = acc.hitCounts.take l₁.length ++ 0 :: acc.hitCounts.drop l₁.length)
    (hp : acc'.hitPoints = acc.hitPoints) (hr : acc'.hitRayDirs = acc.hitRayDirs) :
    (castRay origin inertScene (l₁ ++ pd :: l₂) acc' rdir).hitCounts =
      (castRay origin inertScene (l₁ ++ l₂) acc rdir).hitCounts.take l₁.length ++
        0 :: (castRay origin inertScene (l₁ ++ l₂) acc rdir).hitCounts.drop l₁.length ∧
    (castRay origin inertScene (l₁ ++ pd :: l₂) acc' rdir).hitPoints =
      (castRay origin inertScene (l₁ ++ l₂) acc rdir).hitPoints ∧
    (castRay origin inertScene (l₁ ++ pd :: l₂) acc' rdir).hitRayDirs =
      (castRay origin inertScene (l₁ ++ l₂) acc rdir).hitRayDirs := by
  obtain ⟨e1, e2, e3⟩ := scanEmit_insert origin rdir l₁ l₂ pd hpd hb
  have hb' : 0 + (l₁ ++ l₂).length + 1 ≤ 2 ^ 31 := by
    simp only [List.length_append, List.length_cons] at hb ⊢; omega
  have hinv := scanEmit_finalIdx origin rdir 0 (l₁ ++ l₂) ⟨⊤, -1, Vec3.zero⟩ (by omega)
    (Or.inl rfl)
  have hlt := scanEmit_finalIdx_lt origin rdir 0 (l₁ ++ l₂) ⟨⊤, -1, Vec3.zero⟩ (by omega)
    (by simp)
  unfold castRay
  simp only [e1, e2]
  generalize (scanEmit origin rdir 0 (l₁ ++ l₂) ⟨⊤, -1, Vec3.zero⟩).finalIdx = fi
    at e3 hinv hlt
  generalize (scanEmit origin rdir 0 (l₁ ++ pd :: l₂) ⟨⊤, -1, Vec3.zero⟩).finalIdx = fi' at e3
  have hne : (fi' ≠ -1) ↔ (fi ≠ -1) := by
    rw [e3]; split <;> omega
  have htn : fi ≠ -1 →
      intToIndex fi' = if l₁.length ≤ intToIndex fi then intToIndex fi + 1
        else intToIndex fi := by
    intro h
    have h0 : 0 ≤ fi := by omega
    have h1 : fi + 1 < 2 ^ 31 := by
      have : ((0 + (l₁ ++ l₂).length : Nat) : Int) + 1 ≤ 2 ^ 31 := by exact_mod_cast hb'
      omega
    rw [intToIndex_of_nonneg fi h0 (by omega)]
    rw [e3]
    by_cases hle : (l₁.length : Int) ≤ fi
    · have : l₁.length ≤ fi.toNat := by omega
      simp only [hle, this, if_true]
      rw [intToIndex_of_nonneg (fi + 1) (by omega) h1]
      omega
    · have : ¬ l₁.length ≤ fi.toNat := by omega
      simp only [hle, this, if_false]
      exact intToIndex_of_nonneg fi h0 (by omega)
  by_cases hcond : (!(decide (scanInert origin rdir inertScene ⊤ < ⊤) &&
      decide (scanInert origin rdir inertScene ⊤ ≤
        (scanEmit origin rdir 0 (l₁ ++ l₂) ⟨⊤, -1, Vec3.zero⟩).closestEmit)) &&
      decide (fi ≠ -1)) = true
  · have hfi : fi ≠ -1 := by
      simp only [Bool.and_eq_true, decide_eq_true_eq] at hcond
      exact hcond.2
    have hcond' : (!(decide (scanInert origin rdir inertScene ⊤ < ⊤) &&
      decide (scanInert origin rdir inertScene ⊤ ≤
        (scanEmit origin rdir 0 (l₁ ++ l₂) ⟨⊤, -1, Vec3.zero⟩).closestEmit)) &&
      decide (fi' ≠ -1)) = true := by
      simp only [Bool.and_eq_true, decide_eq_true_eq] at hcond ⊢
      exact ⟨hcond.1, hne.2 hfi⟩
    simp only [hcond, hcond', if_true, htn hfi, hc, hp, hr, incrAt_insert _ _ _ hm, and_self]
  · have hcond' : ¬ (!(decide (scanInert origin rdir inertScene ⊤ < ⊤) &&
      decide (scanInert origin rdir inertScene ⊤ ≤
        (scanEmit origin rdir 0 (l₁ ++ l₂) ⟨⊤, -1, Vec3.zero⟩).closestEmit)) &&
      decide (fi' ≠ -1)) = true := by
      simp only [Bool.and_eq_true, decide_eq_true_eq] at hcond ⊢
      exact fun h => hcond ⟨h.1, hne.1 h.2⟩
    simp only [hcond, hcond', Bool.false_eq_true, if_false, hc, hp, hr, and_self]

theorem foldl_castRay_insert (origin : Vec3 α) (inertScene l₁ l₂ : List (PolyData α))
    (pd : PolyData α) (hpd : pd.valid = false) (hb : (l₁ ++ pd :: l₂).length ≤ 2 ^ 31)
    (rays : List (Vec3 α)) (acc acc' : RayAcc α)
    (hm : l₁.length ≤ acc.hitCounts.length)
    (hc : acc'.hitCounts = acc.hitCounts.take l₁.length ++ 0 :: acc.hitCounts.drop l₁.length)
    (hp : acc'.hitPoints = acc.hitPoints) (hr : acc'.hitRayDirs = acc.hitRayDirs) :
    (rays.foldl (castRay origin inertScene (l₁ ++ pd :: l₂)) acc').hitCounts =
      (rays.foldl (castRay origin inertScene (l₁ ++ l₂)) acc).hitCounts.take l₁.length ++
        0 :: (rays.foldl (castRay origin inertScene (l₁ ++ l₂)) acc).hitCounts.drop
          l₁.length := by
  induction rays generalizing acc acc' with
  | nil => exact hc
  | cons r rs ih =>
    obtain ⟨h1, h2, h3⟩ :=
      castRay_insert origin inertScene l₁ l₂ pd hpd hb acc acc' r hm hc hp hr
    simp only [List.foldl_cons]
    exact ih _ _ (by rw [castRay_length]; exact hm) h1 h2 h3

/-- C3. Degenerate polygon tolerance. A polygon with fewer than three vertices, or whose first
three vertices are collinear (zero cross product of the two edges, the library square root being
`0` at `0`), changes nothing when it is inserted anywhere in the inert list, and when it is
inserted in the emitter list it receives the view factor `0` while the view factors of the other
emitters stay as they were (the emitter list having at most `2^31` entries, so that every index
fits the `int` that records it). -/
theorem degenerate_polygon_tolerance (M : MathLib α) (R : RandomSource α) (deg : List (Vec3 α))
    (hdeg : deg.length < 3 ∨ (M.sqrt 0 = 0 ∧ ∃ v0 v1 v2 rest, deg = v0 :: v1 :: v2 :: rest ∧
      cross (v1.sub v0) (v2.sub v0) = ⟨0, 0, 0⟩))
    (origin originNormal : Vec3 α) (numRays : Nat) (rng : R.State) :
    (∀ (emitterPolygons : List (PolygonWithTemp α)) (I₁ I₂ : List (List (Vec3 α))),
      calculateViewFactorsWithBlockage M R origin originNormal emitterPolygons
          (I₁ ++ deg :: I₂) numRays rng =
        calculateViewFactorsWithBlockage M R origin originNormal emitterPolygons
          (I₁ ++ I₂) numRays rng) ∧
    (∀ (E₁ E₂ : List (PolygonWithTemp α)) (inertPolygons : List (List (Vec3 α)))
      (temperature : α), (E₁ ++ ⟨deg, temperature⟩ :: E₂).length ≤ 2 ^ 31 →
      (calculateViewFactorsWithBlockage M R origin originNormal
          (E₁ ++ ⟨deg, temperature⟩ :: E₂) inertPolygons numRays rng).1.viewFactors =
        (calculateViewFactorsWithBlockage M R origin originNormal (E₁ ++ E₂) inertPolygons
            numRays rng).1.viewFactors.take E₁.length ++
          0 :: (calculateViewFactorsWithBlockage M R origin originNormal (E₁ ++ E₂)
            inertPolygons numRays rng).1.viewFactors.drop E₁.length) := by
  have hinv := classify_invalid M deg (getPolygonPlane_degenerate M deg hdeg)
  constructor
  · intro emitterPolygons I₁ I₂
    have hfun : castRay origin ((I₁ ++ deg :: I₂).map (classify M))
          (emitterPolygons.map (fun poly => classify M poly.vertices)) =
        castRay origin ((I₁ ++ I₂).map (classify M))
          (emitterPolygons.map (fun poly => classify M poly.vertices)) := by
      funext acc rdir
      simp only [castRay, List.map_append, List.map_cons, scanInert_skip _ _ _ _ _ hinv]
    unfold calculateViewFactorsWithBlockage
    simp only [hfun]
  · intro E₁ E₂ inertPolygons temperature hlen
    unfold calculateViewFactorsWithBlockage
    split
    · simp only [List.length_append, List.length_cons, List.take_replicate, List.drop_replicate]
      rw [← List.replicate_succ, ← List.replicate_add]
      congr 1
      omega
    · have h := foldl_castRay_insert origin (inertPolygons.map (classify M))
        (E₁.map (fun poly => classify M poly.vertices))
        (E₂.map (fun poly => classify M poly.vertices)) (classify M deg) hinv
        (by simpa using hlen)
        (generateCosineHemisphereRays M R numRays originNormal rng).1
        ⟨List.replicate (E₁ ++ E₂).length 0, [], []⟩
        ⟨List.replicate (E₁ ++ ⟨deg, temperature⟩ :: E₂).length 0, [], []⟩
        (by simp) (by
          simp only [List.length_append, List.length_cons, List.length_map,
            List.take_replicate, List.drop_replicate]
          rw [← List.replicate_succ, ← List.replicate_add]
          congr 1
          omega) rfl rfl
      simp only [List.length_map] at h
      simp only [List.map_append, List.map_cons, h, List.map_take, List.map_drop,
        Nat.cast_zero, zero_div]

end Properties

/-! ## Aggregation of the incident temperature -/

section Aggregation

open mini_json

variable {α : Type} [LinearOrderedField α]

theorem totalTemperature_eq_sum_range (vf : List α) (polys : List (PolygonWithTemp α)) :
    totalTemperature vf polys =
      ((List.range polys.length).map
        (fun p => vf.getD p 0 * (polys.getD p ⟨[], 0⟩).temperature)).sum := by
  unfold totalTemperature
  rw [List.sum_eq_foldl, List.foldl_map]

theorem totalTemperature_eq_sum (vf : List α) (polys : List (PolygonWithTemp α))
    (h : vf.length = polys.length) :
    totalTemperature vf polys =
      (List.zipWith (fun f t => f * t) vf (polys.map (fun poly => poly.temperature))).sum := by
  rw [totalTemperature_eq_sum_range]
  congr 1
  apply List.ext_getElem
  · simp [h]
  · intro i h1 h2
    have hi : i < polys.length := by simpa using h1
    have hv : i < vf.length := by omega
    simp [List.getD_eq_getElem _ _ hv, List.getD_eq_getElem _ _ hi,
      List.getElem?_eq_getElem hv, List.getElem?_eq_getElem hi]

theorem pointLoop_length (M : MathLib α) (R : RandomSource α) (inp : JsonInput α)
    (rng : R.State) (k : Nat) (pts : List (ReceiverPoint α)) :
    (pointLoop M R inp rng k pts).length = pts.length := by
  induction pts generalizing k with
  | nil => rfl
  | cons p rest ih => simp [pointLoop, ih]

theorem pointLoop_getElem? (M : MathLib α) (R : RandomSource α) (inp : JsonInput α)
    (rng : R.State) (k : Nat) (pts : List (ReceiverPoint α)) (i : Nat)
    (rp : ReceiverPoint α) (h : pts[i]? = some rp) :
    (pointLoop M R inp rng k pts)[i]? =
      some (totalTemperature (calculateViewFactorsWithBlockage M R rp.origin rp.normal
        inp.polygons inp.inertPolygons inp.numRays
        (pointRng R inp.seed rng (k + i))).1.viewFactors inp.polygons) := by
  induction pts generalizing k i with
  | nil => simp at h
  | cons p rest ih =>
    cases i with
    | zero =>
      simp only [List.getElem?_cons_zero, Option.some.injEq] at h
      subst h
      simp [pointLoop]
    | succ i =>
      simp only [List.getElem?_cons_succ] at h
      have := ih (k + 1) i h
      simp only [pointLoop, List.getElem?_cons_succ, this]
      congr 6
      omega

theorem pointRng_seeded {β : Type} (R : RandomSource β) (s : Nat) (rng : R.State) (i : Nat) :
    pointRng R (some s) rng i = R.seed ((s + i * 12345) % 2 ^ 64) := by
  simp only [pointRng, Nat.add_mod_mod]

/-- C6. With a seed `s` the generator of the receiver point at index `i` is seeded with
`(s + i * 12345) mod 2^64`, whatever the entropy source gives, and the incident temperature of
point `i` equals the one computed for that point alone (index `0`) in the same scene with the
same ray count and the seed `(s + i * 12345) mod 2^64`. -/
theorem per_point_seed (M : MathLib α) (R : RandomSource α) (entropy entropy' : List Nat)
    (inp : JsonInput α) (s : Nat) (hseed : inp.seed = some s) (i : Nat) (rp : ReceiverPoint α)
    (hi : inp.receiverPoints[i]? = some rp) :
    pointRng R inp.seed (baseRng R inp.seed entropy) i = R.seed ((s + i * 12345) % 2 ^ 64) ∧
    (pointTemperatures M R entropy inp)[i]? =
      (pointTemperatures M R entropy'
        { inp with receiverPoints := [rp], seed := some ((s + i * 12345) % 2 ^ 64) })[0]? := by
  refine ⟨by rw [hseed, pointRng_seeded], ?_⟩
  unfold pointTemperatures
  rw [pointLoop_getElem? M R inp _ 0 _ i rp hi, Nat.zero_add, hseed, pointRng_seeded]
  simp only [pointLoop, List.getElem?_cons_zero, pointRng_seeded, Nat.zero_mul, Nat.add_zero,
    Nat.mod_mod]

theorem calculateViewFactors_congr (M : MathLib α) (R : RandomSource α)
    (origin originNormal : Vec3 α) (E E' : List (PolygonWithTemp α))
    (inertPolygons : List (List (Vec3 α))) (numRays : Nat) (rng : R.State)
    (h : E.map (fun poly => poly.vertices) = E'.map (fun poly => poly.vertices)) :
    calculateViewFactorsWithBlockage M R origin originNormal E inertPolygons numRays rng =
      calculateViewFactorsWithBlockage M R origin originNormal E' inertPolygons numRays rng := by
  have hlen : E.length = E'.length := by simpa using congrArg List.length h
  have hmap : E.map (fun poly => classify M poly.vertices) =
      E'.map (fun poly => classify M poly.vertices) := by
    have := congrArg (List.map (classify M)) h
    simpa [List.map_map, Function.comp_def] using this
  unfold calculateViewFactorsWithBlockage
  rw [hlen, hmap]

theorem totalTemperature_scale (vf : List α) (polys : List (PolygonWithTemp α)) (c : α) :
    totalTemperature vf (polys.map (fun poly => ⟨poly.vertices, c * poly.temperature⟩)) =
      c * totalTemperature vf polys := by
  rw [totalTemperature_eq_sum_range, totalTemperature_eq_sum_range, ← List.sum_map_mul_left,
    List.length_map]
  congr 1
  apply List.map_congr_left
  intro p hp
  have hp' : p < polys.length := List.mem_range.1 hp
  simp only [List.getD_eq_getElem?_getD, List.getElem?_map, List.getElem?_eq_getElem hp',
    Option.map_some', Option.getD_some]
  ring

theorem totalTemperature_add (vf : List α) (P Q : List (PolygonWithTemp α))
    (h : P.length = Q.length) :
    totalTemperature vf
        (List.zipWith (fun p q => ⟨p.vertices, p.temperature + q.temperature⟩) P Q) =
      totalTemperature vf P + totalTemperature vf Q := by
  rw [totalTemperature_eq_sum_range, totalTemperature_eq_sum_range,
    totalTemperature_eq_sum_range, ← h, ← List.sum_map_add, List.length_zipWith, ← h,
    Nat.min_self]
  congr 1
  apply List.map_congr_left
  intro p hp
  have hp' : p < P.length := List.mem_range.1 hp
  have hq' : p < Q.length := h ▸ hp'
  simp only [List.getD_eq_getElem?_getD, List.getElem?_zipWith, List.getElem?_eq_getElem hp',
    List.getElem?_eq_getElem hq', Option.getD_some]
  ring

/-- C7. For a fixed receiver, geometry, ray count and generator state the result of
`calculateViewFactorsWithBlockage` does not depend on the emitter temperatures, and the
incident temperature is linear in the temperatures: scaling all of them by `c` scales it by
`c`, and adding two temperature vectors adds the results. -/
theorem temperature_linearity (M : MathLib α) (R : RandomSource α)
    (origin originNormal : Vec3 α) (inertPolygons : List (List (Vec3 α))) (numRays : Nat)
    (rng : R.State) :
    (∀ E E' : List (PolygonWithTemp α),
      E.map (fun poly => poly.vertices) = E'.map (fun poly => poly.vertices) →
      calculateViewFactorsWithBlockage M R origin originNormal E inertPolygons numRays rng =
        calculateViewFactorsWithBlockage M R origin originNormal E' inertPolygons numRays rng) ∧
    (∀ (E : List (PolygonWithTemp α)) (c : α),
      totalTemperature (calculateViewFactorsWithBlockage M R origin originNormal
          (E.map (fun poly => ⟨poly.vertices, c * poly.temperature⟩)) inertPolygons numRays
          rng).1.viewFactors (E.map (fun poly => ⟨poly.vertices, c * poly.temperature⟩)) =
        c * totalTemperature (calculateViewFactorsWithBlockage M R origin originNormal E
          inertPolygons numRays rng).1.viewFactors E) ∧
    (∀ E E' : List (PolygonWithTemp α),
      E.map (fun poly => poly.vertices) = E'.map (fun poly => poly.vertices) →
      totalTemperature (calculateViewFactorsWithBlockage M R origin originNormal
          (List.zipWith (fun p q => ⟨p.vertices, p.temperature + q.temperature⟩) E E')
          inertPolygons numRays rng).1.viewFactors
          (List.zipWith (fun p q => ⟨p.vertices, p.temperature + q.temperature⟩) E E') =
        totalTemperature (calculateViewFactorsWithBlockage M R origin originNormal E
          inertPolygons numRays rng).1.viewFactors E +
        totalTemperature (calculateViewFactorsWithBlockage M R origin originNormal E'
          inertPolygons numRays rng).1.viewFactors E') := by
  refine ⟨fun E E' h => calculateViewFactors_congr M R origin originNormal E E' inertPolygons
    numRays rng h, ?_, ?_⟩
  · intro E c
    rw [calculateViewFactors_congr M R origin originNormal
      (E.map (fun poly => ⟨poly.vertices, c * poly.temperature⟩)) E inertPolygons numRays rng
      (by simp [List.map_map, Function.comp_def]), totalTemperature_scale]
  · intro E E' h
    have hlen : E.length = E'.length := by simpa using congrArg List.length h
    have hz : (List.zipWith (fun p q => (⟨p.vertices, p.temperature + q.temperature⟩ :
        PolygonWithTemp α)) E E').map (fun poly => poly.vertices) =
        E.map (fun poly => poly.vertices) := by
      apply List.ext_getElem
      · simp [hlen]
      · intro k h1 h2
        simp
    rw [calculateViewFactors_congr M R origin originNormal _ E inertPolygons numRays rng hz,
      totalTemperature_add _ _ _ hlen,
      calculateViewFactors_congr M R origin originNormal E E' inertPolygons numRays rng h]

theorem totalTemperature_zero (vf : List α) (polys : List (PolygonWithTemp α))
    (h : ∀ p ∈ polys, p.temperature = 0) : totalTemperature vf polys = 0 := by
  rw [totalTemperature_eq_sum_range]
  apply List.sum_eq_zero
  intro x hx
  obtain ⟨p, hp, rfl⟩ := List.mem_map.1 hx
  have hp' : p < polys.length := List.mem_range.1 hp
  rw [List.getD_eq_getElem _ _ hp', h _ (List.getElem_mem hp'), mul_zero]

theorem pointLoop_zero (M : MathLib α) (R : RandomSource α) (inp : JsonInput α)
    (rng : R.State) (k : Nat) (pts : List (ReceiverPoint α))
    (h : ∀ p ∈ inp.polygons, p.temperature = 0) :
    pointLoop M R inp rng k pts = List.replicate pts.length 0 := by
  induction pts generalizing k with
  | nil => rfl
  | cons p rest ih =>
    simp only [pointLoop, totalTemperature_zero _ _ h, ih, List.length_cons,
      List.replicate_succ]

theorem pointTemperatures_zero (M : MathLib α) (R : RandomSource α) (entropy : List Nat)
    (inp : JsonInput α) (h : ∀ p ∈ inp.polygons, p.temperature = 0) :
    pointTemperatures M R entropy inp = List.replicate inp.receiverPoints.length 0 :=
  pointLoop_zero M R inp _ 0 _ h

theorem pointLoop_seeded (M : MathLib α) (R : RandomSource α) (rng1 rng2 : R.State)
    (inp : JsonInput α) (s : Nat) (hseed : inp.seed = some s) (k : Nat)
    (pts : List (ReceiverPoint α)) :
    pointLoop M R inp rng1 k pts = pointLoop M R inp rng2 k pts := by
  induction pts generalizing k with
  | nil => rfl
  | cons p rest ih =>
    simp only [pointLoop, hseed, pointRng_seeded, ih]

/-- With a seed the entropy is not used by the loop over the receiver points. -/
theorem pointTemperatures_seeded (M : MathLib α) (R : RandomSource α) (e1 e2 : List Nat)
    (inp : JsonInput α) (s : Nat) (hseed : inp.seed = some s) :
    pointTemperatures M R e1 inp = pointTemperatures M R e2 inp :=
  pointLoop_seeded M R _ _ inp s hseed 0 _

variable [FloorRing α]

/-- C4. On a successfully parsed request `runFromJsonString` returns `ok` with the text made of
the lines `Plane: <name>`, `Width: <w>`, `Height: <h>` and one last line: the incident
temperatures in fixed notation, separated by single blanks, one per receiver point and in the
order of the points. The temperature of point `i` is the sum over the emitters of view factor
times temperature, the view factors being those of `calculateViewFactorsWithBlockage` for the
origin and normal of point `i` (with the generator of that point). -/
theorem one_temperature_per_point (L : CLib α) (M : MathLib α) (R : RandomSource α)
    (fuel : Nat) (entropy : List Nat) (w0 h0 : α) (json : List Char) (inp : JsonInput α)
    (hparse : parseInputJson L fuel json (JsonInput.fresh w0 h0) = some (.ok inp)) :
    runFromJsonString L M R fuel entropy w0 h0 json =
      some ⟨true,
        "Plane: " ++ String.mk inp.planeName ++ "\n" ++
        "Width: " ++ L.showFixed6 inp.planeWidth ++ "\n" ++
        "Height: " ++ L.showFixed6 inp.planeHeight ++ "\n" ++
        String.intercalate " " ((pointTemperatures M R entropy inp).map L.showFixed6) ++
        "\n"⟩ ∧
    (pointTemperatures M R entropy inp).length = inp.receiverPoints.length ∧
    ∀ (i : Nat) (rp : ReceiverPoint α), inp.receiverPoints[i]? = some rp →
      (pointTemperatures M R entropy inp)[i]? =
        some (List.zipWith (fun f t => f * t)
          (calculateViewFactorsWithBlockage M R rp.origin rp.normal inp.polygons
            inp.inertPolygons inp.numRays
            (pointRng R inp.seed (baseRng R inp.seed entropy) i)).1.viewFactors
          (inp.polygons.map (fun poly => poly.temperature))).sum := by
  refine ⟨by simp only [runFromJsonString, hparse, reportText], pointLoop_length .., ?_⟩
  intro i rp hi
  unfold pointTemperatures
  rw [pointLoop_getElem? M R inp _ 0 _ i rp hi, Nat.zero_add,
    totalTemperature_eq_sum _ _ (viewFactors_length ..)]

end Aggregation

/-! ## The reader on well-formed requests -/

section ReaderProofs

open mini_json

variable {α : Type}

theorem takeWhile_append_stop (k rest : List Char) (hk : dquote ∉ k) :
    (k ++ dquote :: rest).takeWhile (fun c => c ≠ dquote) = k := by
  induction k with
  | nil => simp
  | cons c cs ih =>
    have hc : c ≠ dquote := fun h => hk (h ▸ List.mem_cons_self _ _)
    have hp : (fun c => decide (c ≠ dquote)) c = true := decide_eq_true hc
    rw [List.cons_append, @List.takeWhile_cons_of_pos _ (fun c => decide (c ≠ dquote)) c _ hp,
      ih (fun h => hk (List.mem_cons_of_mem _ h))]

theorem dropWhile_append_stop (k rest : List Char) (hk : dquote ∉ k) :
    (k ++ dquote :: rest).dropWhile (fun c => c ≠ dquote) = dquote :: rest := by
  induction k with
  | nil => simp
  | cons c cs ih =>
    have hc : c ≠ dquote := fun h => hk (h ▸ List.mem_cons_self _ _)
    have hp : (fun c => decide (c ≠ dquote)) c = true := decide_eq_true hc
    rw [List.cons_append, @List.dropWhile_cons_of_pos _ (fun c => decide (c ≠ dquote)) c _ hp,
      ih (fun h => hk (List.mem_cons_of_mem _ h))]

/-- A quoted key followed by a colon: `parseKey` consumes it and compares. -/
theorem parseKey_renderKey (key key' rest : List Char) (hk : dquote ∉ key) :
    parseKey (renderKey key ++ rest) key' = (decide (key = key'), rest) := by
  have h1 : skipSpaces (dquote :: (key ++ dquote :: ':' :: rest)) =
      dquote :: (key ++ dquote :: ':' :: rest) := by simp [skipSpaces, dquote]
  have h2 : skipSpaces (':' :: rest) = ':' :: rest := by simp [skipSpaces]
  simp only [parseKey, renderKey, List.cons_append, List.append_assoc, List.nil_append,
    expectChar, h1, if_true, Bool.not_true, Bool.false_eq_true, if_false,
    takeWhile_append_stop _ _ hk, dropWhile_append_stop _ _ hk, h2]

/-- At a `,`, `]` or brace there is no key. -/
theorem parseKey_delim (d : Char) (rest key : List Char)
    (hd : d = ',' ∨ d = ']' ∨ d = '\x7d') :
    (parseKey (d :: rest) key).1 = false := by
  rcases hd with rfl | rfl | rfl <;> simp [parseKey, expectChar, skipSpaces, dquote]

theorem NumTok.Reads.length_pos {L : CLib α} {t : NumTok α} (h : t.Reads L) :
    t.text.length ≠ 0 := by
  intro h0
  have : t.text = [] := List.length_eq_zero.1 h0
  have h1 := h.1 [' ']
  rw [this] at h1
  simp [skipSpaces] at h1

theorem parseNumber_tok (L : CLib α) (t : NumTok α) (ht : t.Reads L) (d : Char)
    (rest : List Char) (hd : d = ',' ∨ d = ']' ∨ d = '\x7d') :
    parseNumber L (t.text ++ d :: rest) = (some t.value, d :: rest) := by
  simp only [parseNumber, ht.1, ht.2 d rest hd, ht.length_pos, if_false,
    List.drop_left]

theorem parseVec3_render (L : CLib α) (v : Vec3Tok α) (hv : v.Reads L) (rest : List Char) :
    parseVec3 L (renderVec3 v ++ rest) = (some (vec3Value v), rest) := by
  obtain ⟨hx, hy, hz⟩ := hv
  have e1 : expectChar ('[' :: (v.x.text ++ ',' :: (v.y.text ++ ',' :: (v.z.text ++ ']' :: rest))))
      '[' = (true, v.x.text ++ ',' :: (v.y.text ++ ',' :: (v.z.text ++ ']' :: rest))) := by
    simp [expectChar, skipSpaces]
  have ec : ∀ r, expectChar (',' :: r) ',' = (true, r) := by
    intro r; simp [expectChar, skipSpaces]
  have eb : ∀ r, expectChar (']' :: r) ']' = (true, r) := by
    intro r; simp [expectChar, skipSpaces]
  simp only [parseVec3, renderVec3, List.cons_append, List.append_assoc, List.nil_append, e1,
    Bool.not_true, Bool.false_eq_true, if_false, parseNumber_tok L _ hx ',' _ (Or.inl rfl),
    parseNumber_tok L _ hy ',' _ (Or.inl rfl), parseNumber_tok L _ hz ']' _ (Or.inr (Or.inl rfl)),
    ec, eb, vec3Value]

/-! ### Cursor facts in the normal form of the rendered text -/

theorem skipSpaces_dq (r : List Char) : skipSpaces ('"' :: r) = '"' :: r := by
  simp [skipSpaces]

theorem skipSpaces_comma (r : List Char) : skipSpaces (',' :: r) = ',' :: r := by
  simp [skipSpaces]

theorem skipSpaces_rbrace (r : List Char) : skipSpaces ('\x7d' :: r) = '\x7d' :: r := by
  simp [skipSpaces]

theorem skipSpaces_lbrace (r : List Char) : skipSpaces ('\x7b' :: r) = '\x7b' :: r := by
  simp [skipSpaces]

theorem skipSpaces_rbracket (r : List Char) : skipSpaces (']' :: r) = ']' :: r := by
  simp [skipSpaces]

theorem skipSpaces_lbracket (r : List Char) : skipSpaces ('[' :: r) = '[' :: r := by
  simp [skipSpaces]

theorem expectChar_lbrace (r : List Char) : expectChar ('\x7b' :: r) '\x7b' = (true, r) := by
  simp [expectChar, skipSpaces]

theorem expectChar_lbracket (r : List Char) : expectChar ('[' :: r) '[' = (true, r) := by
  simp [expectChar, skipSpaces]

theorem skipSpaces_colon (r : List Char) : skipSpaces (':' :: r) = ':' :: r := by
  simp [skipSpaces]

theorem expectChar_colon (r : List Char) : expectChar (':' :: r) ':' = (true, r) := by
  simp [expectChar, skipSpaces]

theorem expectChar_dq (r : List Char) : expectChar ('"' :: r) '"' = (true, r) := by
  simp [expectChar, skipSpaces]

theorem expectChar_lbrace_miss (r : List Char) :
    expectChar ('[' :: r) '\x7b' = (false, '[' :: r) := by
  simp [expectChar, skipSpaces]

theorem parseKey_quoted (key key' rest : List Char) (hk : dquote ∉ key) :
    parseKey ('"' :: (key ++ '"' :: ':' :: rest)) key' = (decide (key = key'), rest) := by
  have := parseKey_renderKey key key' rest hk
  simpa [renderKey, dquote] using this

theorem parseKey_comma (rest key : List Char) : (parseKey (',' :: rest) key).1 = false :=
  parseKey_delim ',' rest key (Or.inl rfl)

theorem parseKey_rbrace (rest key : List Char) : (parseKey ('\x7d' :: rest) key).1 = false :=
  parseKey_delim '\x7d' rest key (Or.inr (Or.inr rfl))

theorem parseUInt64_tok (L : CLib α) (t : SeedTok) (ht : t.Reads L) (d : Char)
    (rest : List Char) (hd : d = ',' ∨ d = ']' ∨ d = '\x7d') :
    parseUInt64 L (t.text ++ d :: rest) = (some (t.value % 2 ^ 64), d :: rest) := by
  have hlen : t.text.length ≠ 0 := by
    intro h0
    have : t.text = [] := List.length_eq_zero.1 h0
    have h1 := ht.1 [' ']
    rw [this] at h1
    simp [skipSpaces] at h1
  simp only [parseUInt64, ht.1, ht.2 d rest hd, hlen, if_false, List.drop_left]

attribute [irreducible] skipSpaces expectChar parseKey parseNumber parseVec3 parseUInt64

theorem renderVec3_cons (v : Vec3Tok α) :
    renderVec3 v = '[' :: (v.x.text ++ ',' :: v.y.text ++ ',' :: v.z.text ++ [']']) := rfl

theorem vertexLoop_render (L : CLib α) (vs : List (Vec3Tok α)) (hvs : ∀ v ∈ vs, v.Reads L)
    (hne : vs ≠ []) (rest : List Char) (acc : List (Vec3 α)) (fuel : Nat)
    (hf : (renderSeq ']' (vs.map renderVec3) ++ rest).length ≤ fuel) :
    vertexLoop L fuel (renderSeq ']' (vs.map renderVec3) ++ rest) acc =
      some ⟨true, rest, acc ++ vs.map vec3Value⟩ := by
  induction vs generalizing fuel acc with
  | nil => exact absurd rfl hne
  | cons v tl ih =>
    have hv : v.Reads L := hvs v (List.mem_cons_self _ _)
    have htl : ∀ w ∈ tl, w.Reads L := fun w hw => hvs w (List.mem_cons_of_mem _ hw)
    cases fuel with
    | zero =>
      cases tl <;> simp [renderSeq, renderVec3_cons] at hf
    | succ fuel =>
      cases tl with
      | nil =>
        have hs : renderVec3 v ++ ']' :: rest ≠ [] := by simp [renderVec3_cons]
        have hsk : skipSpaces (']' :: rest) = ']' :: rest := by simp [skipSpaces]
        simp only [List.map_cons, List.map_nil, renderSeq, List.append_assoc, List.cons_append,
          List.nil_append, vertexLoop, hs, if_false, parseVec3_render L v hv, hsk]
      | cons w tl' =>
        have hs : renderVec3 v ++ ',' :: (renderSeq ']' (renderVec3 w :: tl'.map renderVec3)
            ++ rest) ≠ [] := by simp [renderVec3_cons]
        have hsk : ∀ r, skipSpaces (',' :: r) = ',' :: r := by intro r; simp [skipSpaces]
        have := ih htl (by simp) (acc ++ [vec3Value v]) fuel (by
          simp only [List.map_cons, renderSeq, List.append_assoc, List.cons_append,
            List.length_append, List.length_cons] at hf ⊢
          omega)
        simp only [List.map_cons] at this
        simp only [List.map_cons, renderSeq, List.append_assoc, List.cons_append,
          vertexLoop, hs, if_false, parseVec3_render L v hv, hsk, this, List.nil_append]

theorem renderSeq_ne_nil (close : Char) (items : List (List Char)) :
    renderSeq close items ≠ [] := by
  match items with
  | [] => simp [renderSeq]
  | [x] => simp [renderSeq]
  | x :: y :: r => simp [renderSeq]

/-- A sequence of items that all start with the character `c` starts with `c`. -/
theorem renderSeq_head (close c : Char) (items : List (List Char)) (hne : items ≠ [])
    (hc : ∀ x ∈ items, ∃ t, x = c :: t) : ∃ t, renderSeq close items = c :: t := by
  match items, hne, hc with
  | [x], _, hc =>
    obtain ⟨t, rfl⟩ := hc x (List.mem_cons_self _ _)
    exact ⟨t ++ [close], by simp [renderSeq]⟩
  | x :: y :: r, _, hc =>
    obtain ⟨t, rfl⟩ := hc x (List.mem_cons_self _ _)
    exact ⟨t ++ ',' :: renderSeq close (y :: r), by simp [renderSeq]⟩

theorem renderVec3_seq_head (close : Char) (vs : List (Vec3Tok α)) (hne : vs ≠ []) :
    ∃ t, renderSeq close (vs.map renderVec3) = '[' :: t :=
  renderSeq_head close '[' _ (by simpa using hne) (by
    intro x hx
    obtain ⟨v, _, rfl⟩ := List.mem_map.1 hx
    exact ⟨_, renderVec3_cons v⟩)

theorem parseSinglePolygon_render (L : CLib α) (vs : List (Vec3Tok α))
    (hvs : ∀ v ∈ vs, v.Reads L) (rest : List Char) (acc : List (Vec3 α)) (fuel : Nat)
    (hf : (renderPolygon vs ++ rest).length ≤ fuel) :
    parseSinglePolygon L fuel (renderPolygon vs ++ rest) acc =
      some ⟨true, rest, acc ++ vs.map vec3Value⟩ := by
  have he : ∀ r, expectChar ('[' :: r) '[' = (true, r) := by
    intro r; simp [expectChar, skipSpaces]
  by_cases hne : vs = []
  · subst hne
    have hsk : skipSpaces (']' :: rest) = ']' :: rest := by simp [skipSpaces]
    simp only [parseSinglePolygon, renderPolygon, List.map_nil, renderSeq, List.cons_append,
      List.nil_append, he, Bool.not_true, Bool.false_eq_true, if_false, hsk, List.append_nil]
  · obtain ⟨t, ht⟩ := renderVec3_seq_head ']' vs hne
    have hloop := vertexLoop_render L vs hvs hne rest acc fuel (by
      simp only [renderPolygon, List.cons_append, List.length_cons] at hf; omega)
    rw [ht] at hloop
    have hsk : skipSpaces ('[' :: (t ++ rest)) = '[' :: (t ++ rest) := by simp [skipSpaces]
    simp only [parseSinglePolygon, renderPolygon, List.cons_append, he, Bool.not_true,
      Bool.false_eq_true, if_false, ht, hsk]
    exact hloop

theorem polygonsLoop_render (L : CLib α) (ps : List (List (Vec3Tok α)))
    (hps : ∀ vs ∈ ps, PolygonReads L vs) (hne : ps ≠ []) (rest : List Char)
    (acc : List (List (Vec3 α))) (fuel : Nat)
    (hf : (renderSeq ']' (ps.map renderPolygon) ++ rest).length ≤ fuel) :
    polygonsLoop L fuel (renderSeq ']' (ps.map renderPolygon) ++ rest) acc =
      some ⟨true, rest, acc ++ ps.map (fun vs => vs.map vec3Value)⟩ := by
  have he : ∀ r, expectChar ('[' :: r) '[' = (true, r) := by
    intro r; simp [expectChar, skipSpaces]
  have hskb : ∀ r, skipSpaces (']' :: r) = ']' :: r := by intro r; simp [skipSpaces]
  have hskc : ∀ r, skipSpaces (',' :: r) = ',' :: r := by intro r; simp [skipSpaces]
  have hsko : ∀ r, skipSpaces ('[' :: r) = '[' :: r := by intro r; simp [skipSpaces]
  -- one iteration on the polygon `vs` followed by the delimiter `d`
  have inner : ∀ (vs : List (Vec3Tok α)) (_ : PolygonReads L vs) (tail : List Char) (n : Nat),
      (renderSeq ']' (vs.map renderVec3) ++ tail).length ≤ n →
      (match skipSpaces (renderSeq ']' (vs.map renderVec3) ++ tail) with
        | ']' :: r => (some ⟨true, r, []⟩ : Option (PRes (List (Vec3 α))))
        | r => vertexLoop L n r []) = some ⟨true, tail, vs.map vec3Value⟩ := by
    intro vs hvs tail n hn
    by_cases hv : vs = []
    · subst hv
      simp only [List.map_nil, renderSeq, List.cons_append, List.nil_append, hskb]
    · obtain ⟨t, ht⟩ := renderVec3_seq_head ']' vs hv
      have hloop := vertexLoop_render L vs hvs hv tail [] n hn
      rw [ht] at hloop
      simp only [ht, List.cons_append, hsko]
      simpa using hloop
  induction ps generalizing fuel acc with
  | nil => exact absurd rfl hne
  | cons vs tl ih =>
    have hvs : PolygonReads L vs := hps vs (List.mem_cons_self _ _)
    have htl : ∀ w ∈ tl, PolygonReads L w := fun w hw => hps w (List.mem_cons_of_mem _ hw)
    cases fuel with
    | zero => cases tl <;> simp [renderSeq, renderPolygon] at hf
    | succ fuel =>
      cases tl with
      | nil =>
        have hin := inner vs hvs (']' :: rest) fuel (by
          simp only [List.map_cons, List.map_nil, renderSeq, renderPolygon, List.append_assoc,
            List.cons_append, List.nil_append, List.length_append, List.length_cons] at hf ⊢
          omega)
        simp only [List.map_cons, List.map_nil, renderSeq, renderPolygon, List.append_assoc,
          List.cons_append, List.nil_append, polygonsLoop, he, Bool.not_true,
          Bool.false_eq_true, if_false, hin, hskb]
        simp
      | cons w tl' =>
        have hsplit : renderSeq ']' ((vs :: w :: tl').map renderPolygon) ++ rest =
            renderPolygon vs ++ ',' :: (renderSeq ']' ((w :: tl').map renderPolygon) ++ rest) := by
          simp [renderSeq]
        rw [hsplit] at hf ⊢
        have hin := inner vs hvs (',' :: (renderSeq ']' ((w :: tl').map renderPolygon) ++ rest))
          fuel (by
          simp only [renderPolygon, List.cons_append, List.length_append, List.length_cons]
            at hf ⊢
          omega)
        have := ih htl (by simp) (acc ++ [vs.map vec3Value]) fuel (by
          simp only [renderPolygon, List.cons_append, List.length_append, List.length_cons]
            at hf ⊢
          omega)
        generalize renderSeq ']' ((w :: tl').map renderPolygon) ++ rest = T at this hin
        simp only [renderPolygon, List.cons_append, polygonsLoop, he, Bool.not_true,
          Bool.false_eq_true, if_false, hin, hskc, this]
        simp

theorem parsePolygons_render (L : CLib α) (ps : List (List (Vec3Tok α)))
    (hps : ∀ vs ∈ ps, PolygonReads L vs) (rest : List Char)
    (acc : List (List (Vec3 α))) (fuel : Nat)
    (hf : (renderPolygons ps ++ rest).length ≤ fuel) :
    parsePolygons L fuel (renderPolygons ps ++ rest) acc =
      some ⟨true, rest, acc ++ ps.map (fun vs => vs.map vec3Value)⟩ := by
  have he : ∀ r, expectChar ('[' :: r) '[' = (true, r) := by
    intro r; simp [expectChar, skipSpaces]
  by_cases hne : ps = []
  · subst hne
    have hsk : skipSpaces (']' :: rest) = ']' :: rest := by simp [skipSpaces]
    simp only [parsePolygons, renderPolygons, List.map_nil, renderSeq, List.cons_append,
      List.nil_append, he, Bool.not_true, Bool.false_eq_true, if_false, hsk, List.append_nil]
  · obtain ⟨t, ht⟩ := renderSeq_head ']' '[' (ps.map renderPolygon) (by simpa using hne) (by
      intro x hx
      obtain ⟨v, _, rfl⟩ := List.mem_map.1 hx
      exact ⟨_, rfl⟩)
    have hloop := polygonsLoop_render L ps hps hne rest acc fuel (by
      simp only [renderPolygons, List.cons_append, List.length_cons] at hf; omega)
    rw [ht] at hloop
    have hsk : skipSpaces ('[' :: (t ++ rest)) = '[' :: (t ++ rest) := by simp [skipSpaces]
    simp only [parsePolygons, renderPolygons, List.cons_append, he, Bool.not_true,
      Bool.false_eq_true, if_false, ht, hsk]
    exact hloop

theorem parseReceiverPoint_render (L : CLib α) [LinearOrderedField α] (p : PointTok α)
    (hp : p.Reads L) (rest : List Char) (fuel : Nat) (hf : 3 ≤ fuel) :
    parseReceiverPoint L fuel (renderPoint p ++ rest) =
      some ⟨true, rest, pointValue p⟩ := by
  obtain ⟨ho, hn⟩ := hp
  obtain ⟨fuel, rfl⟩ : ∃ n, fuel = n + 3 := ⟨fuel - 3, by omega⟩
  have k1 : dquote ∉ keyOrigin := by decide
  have k2 : dquote ∉ keyNormal := by decide
  have d1 : decide (keyOrigin = keyNormal) = false := by decide
  have d2 : decide (keyNormal = keyOrigin) = false := by decide
  simp only [parseReceiverPoint, renderPoint, renderKey, dquote, List.cons_append,
    List.append_assoc, List.nil_append, expectChar_lbrace, Bool.not_true, Bool.false_eq_true,
    if_false, receiverPointLoop, skipSpaces_dq, skipSpaces_comma, skipSpaces_rbrace,
    parseKey_quoted _ _ _ k1, parseKey_quoted _ _ _ k2, parseVec3_render L _ ho,
    parseVec3_render L _ hn, parseKey_comma, parseKey_rbrace, d1, d2, decide_True,
    Option.isNone_some, Bool.and_false, Bool.and_true, Bool.false_and, if_true, Option.getD_some,
    reduceCtorEq, pointValue, Vec3.zero, List.cons.injEq, Char.reduceEq, false_and, imp_false,
    not_false_eq_true, implies_true]

theorem renderPoint_length (p : PointTok α) : 3 ≤ (renderPoint p).length := by
  simp only [renderPoint, renderKey, List.cons_append, List.length_cons, List.length_append]
  omega

theorem receiverPointsLoop_render (L : CLib α) [LinearOrderedField α] (ps : List (PointTok α))
    (hps : ∀ p ∈ ps, p.Reads L) (hne : ps ≠ []) (rest : List Char)
    (acc : List (ReceiverPoint α)) (fuel : Nat)
    (hf : (renderSeq ']' (ps.map renderPoint) ++ rest).length ≤ fuel) :
    receiverPointsLoop L fuel (renderSeq ']' (ps.map renderPoint) ++ rest) acc =
      some ⟨true, rest, acc ++ ps.map pointValue⟩ := by
  induction ps generalizing fuel acc with
  | nil => exact absurd rfl hne
  | cons p tl ih =>
    have hp : p.Reads L := hps p (List.mem_cons_self _ _)
    have htl : ∀ w ∈ tl, w.Reads L := fun w hw => hps w (List.mem_cons_of_mem _ hw)
    have hlen := renderPoint_length p
    cases fuel with
    | zero => cases tl <;> simp [renderSeq, renderPoint] at hf
    | succ fuel =>
      cases tl with
      | nil =>
        have hsplit : renderSeq ']' ([p].map renderPoint) ++ rest =
            renderPoint p ++ ']' :: rest := by simp [renderSeq]
        rw [hsplit] at hf ⊢
        have h3 : 3 ≤ fuel := by
          simp only [List.length_append, List.length_cons] at hf; omega
        have hs : renderPoint p ++ ']' :: rest ≠ [] := by simp
        simp only [receiverPointsLoop, hs, if_false, parseReceiverPoint_render L p hp _ fuel h3,
          Bool.not_true, Bool.false_eq_true, skipSpaces_rbracket, List.map_cons, List.map_nil,
          List.cons.injEq, Char.reduceEq, false_and, imp_false, not_false_eq_true, implies_true]
      | cons w tl' =>
        have hsplit : renderSeq ']' ((p :: w :: tl').map renderPoint) ++ rest =
            renderPoint p ++ ',' :: (renderSeq ']' ((w :: tl').map renderPoint) ++ rest) := by
          simp [renderSeq]
        rw [hsplit] at hf ⊢
        have h3 : 3 ≤ fuel := by
          simp only [List.length_append, List.length_cons] at hf; omega
        have := ih htl (by simp) (acc ++ [pointValue p]) fuel (by
          simp only [List.length_append, List.length_cons] at hf ⊢
          omega)
        generalize renderSeq ']' ((w :: tl').map renderPoint) ++ rest = T at this
        have hs : renderPoint p ++ ',' :: T ≠ [] := by simp
        simp only [receiverPointsLoop, hs, if_false, parseReceiverPoint_render L p hp _ fuel h3,
          Bool.not_true, Bool.false_eq_true, skipSpaces_comma, this, List.map_cons,
          List.append_assoc, List.cons_append, List.nil_append]

theorem parseReceiverPoints_render (L : CLib α) [LinearOrderedField α] (ps : List (PointTok α))
    (hps : ∀ p ∈ ps, p.Reads L) (rest : List Char) (acc : List (ReceiverPoint α)) (fuel : Nat)
    (hf : (renderPoints ps ++ rest).length ≤ fuel) :
    parseReceiverPoints L fuel (renderPoints ps ++ rest) acc =
      some ⟨true, rest, acc ++ ps.map pointValue⟩ := by
  by_cases hne : ps = []
  · subst hne
    simp only [parseReceiverPoints, renderPoints, List.map_nil, renderSeq, List.cons_append,
      List.nil_append, expectChar_lbracket, Bool.not_true, Bool.false_eq_true, if_false,
      skipSpaces_rbracket, List.append_nil]
  · obtain ⟨t, ht⟩ := renderSeq_head ']' '\x7b' (ps.map renderPoint) (by simpa using hne) (by
      intro x hx
      obtain ⟨v, _, rfl⟩ := List.mem_map.1 hx
      exact ⟨_, rfl⟩)
    have hloop := receiverPointsLoop_render L ps hps hne rest acc fuel (by
      simp only [renderPoints, List.cons_append, List.length_cons] at hf; omega)
    rw [ht] at hloop
    simp only [parseReceiverPoints, renderPoints, List.cons_append, expectChar_lbracket,
      Bool.not_true, Bool.false_eq_true, if_false, ht, skipSpaces_lbrace, List.cons.injEq,
      Char.reduceEq, false_and, imp_false, not_false_eq_true, implies_true]
    exact hloop

theorem parsePolygonWithTemp_render (L : CLib α) [LinearOrderedField α] (e : EmitterTok α)
    (he : e.Reads L) (rest : List Char) (fuel : Nat)
    (hf : (renderEmitter e ++ rest).length ≤ fuel + 1) :
    parsePolygonWithTemp L fuel (renderEmitter e ++ rest) =
      some ⟨true, rest, emitterValue e⟩ := by
  obtain ⟨hpoly, htemp⟩ := he
  obtain ⟨fuel, rfl⟩ : ∃ n, fuel = n + 3 := ⟨fuel - 3, by
    simp only [renderEmitter, renderKey, List.cons_append, List.length_cons, List.length_append]
      at hf
    omega⟩
  have k1 : dquote ∉ keyPolygon := by decide
  have k2 : dquote ∉ keyTemperature := by decide
  have d1 : decide (keyTemperature = keyPolygon) = false := by decide
  have hsp := parseSinglePolygon_render L e.polygon hpoly
    (',' :: '"' :: (keyTemperature ++ '"' :: ':' :: (e.temperature.text ++ '\x7d' :: rest)))
    [] (fuel + 2) (by
      simp only [renderEmitter, renderKey, List.cons_append, List.length_cons,
        List.length_append, List.append_assoc, List.nil_append] at hf ⊢
      omega)
  simp only [parsePolygonWithTemp, renderEmitter, renderKey, dquote, List.cons_append,
    List.append_assoc, List.nil_append, expectChar_lbrace, Bool.not_true, Bool.false_eq_true,
    if_false, polygonWithTempLoop, skipSpaces_dq, skipSpaces_comma, skipSpaces_rbrace,
    parseKey_quoted _ _ _ k1, parseKey_quoted _ _ _ k2, hsp,
    parseNumber_tok L _ htemp '\x7d' _ (Or.inr (Or.inr rfl)), parseKey_comma, parseKey_rbrace,
    d1, decide_True, Option.isNone_some, Bool.and_false, Bool.and_true, Bool.false_and, if_true,
    Option.getD_some, reduceCtorEq, emitterValue, List.cons.injEq, Char.reduceEq, false_and,
    imp_false, not_false_eq_true, implies_true]

theorem polygonsWithTempLoop_render (L : CLib α) [LinearOrderedField α]
    (es : List (EmitterTok α)) (hes : ∀ e ∈ es, e.Reads L) (hne : es ≠ []) (rest : List Char)
    (acc : List (PolygonWithTemp α)) (fuel : Nat)
    (hf : (renderSeq ']' (es.map renderEmitter) ++ rest).length ≤ fuel) :
    polygonsWithTempLoop L fuel (renderSeq ']' (es.map renderEmitter) ++ rest) acc =
      some ⟨true, rest, acc ++ es.map emitterValue⟩ := by
  induction es generalizing fuel acc with
  | nil => exact absurd rfl hne
  | cons e tl ih =>
    have he : e.Reads L := hes e (List.mem_cons_self _ _)
    have htl : ∀ w ∈ tl, w.Reads L := fun w hw => hes w (List.mem_cons_of_mem _ hw)
    cases fuel with
    | zero => cases tl <;> simp [renderSeq, renderEmitter] at hf
    | succ fuel =>
      cases tl with
      | nil =>
        have hsplit : renderSeq ']' ([e].map renderEmitter) ++ rest =
            renderEmitter e ++ ']' :: rest := by simp [renderSeq]
        rw [hsplit] at hf ⊢
        have hs : renderEmitter e ++ ']' :: rest ≠ [] := by simp [renderEmitter]
        simp only [polygonsWithTempLoop, hs, if_false,
          parsePolygonWithTemp_render L e he _ fuel hf,
          Bool.not_true, Bool.false_eq_true, skipSpaces_rbracket, List.map_cons, List.map_nil,
          List.cons.injEq, Char.reduceEq, false_and, imp_false, not_false_eq_true, implies_true]
      | cons w tl' =>
        have hsplit : renderSeq ']' ((e :: w :: tl').map renderEmitter) ++ rest =
            renderEmitter e ++ ',' :: (renderSeq ']' ((w :: tl').map renderEmitter) ++ rest) := by
          simp [renderSeq]
        rw [hsplit] at hf ⊢
        have := ih htl (by simp) (acc ++ [emitterValue e]) fuel (by
          simp only [List.length_append, List.length_cons, renderEmitter] at hf ⊢
          omega)
        generalize renderSeq ']' ((w :: tl').map renderEmitter) ++ rest = T at this hf
        have hs : renderEmitter e ++ ',' :: T ≠ [] := by simp [renderEmitter]
        simp only [polygonsWithTempLoop, hs, if_false,
          parsePolygonWithTemp_render L e he _ fuel hf,
          Bool.not_true, Bool.false_eq_true, skipSpaces_comma, this, List.map_cons,
          List.append_assoc, List.cons_append, List.nil_append]

theorem parsePolygonsWithTemp_render (L : CLib α) [LinearOrderedField α]
    (es : List (EmitterTok α)) (hes : ∀ e ∈ es, e.Reads L) (rest : List Char)
    (acc : List (PolygonWithTemp α)) (fuel : Nat)
    (hf : (renderEmitters es ++ rest).length ≤ fuel) :
    parsePolygonsWithTemp L fuel (renderEmitters es ++ rest) acc =
      some ⟨true, rest, acc ++ es.map emitterValue⟩ := by
  by_cases hne : es = []
  · subst hne
    simp only [parsePolygonsWithTemp, renderEmitters, List.map_nil, renderSeq, List.cons_append,
      List.nil_append, expectChar_lbracket, Bool.not_true, Bool.false_eq_true, if_false,
      skipSpaces_rbracket, List.append_nil]
  · obtain ⟨t, ht⟩ := renderSeq_head ']' '\x7b' (es.map renderEmitter) (by simpa using hne) (by
      intro x hx
      obtain ⟨v, _, rfl⟩ := List.mem_map.1 hx
      exact ⟨_, rfl⟩)
    have hloop := polygonsWithTempLoop_render L es hes hne rest acc fuel (by
      simp only [renderEmitters, List.cons_append, List.length_cons] at hf; omega)
    rw [ht] at hloop
    simp only [parsePolygonsWithTemp, renderEmitters, List.cons_append, expectChar_lbracket,
      Bool.not_true, Bool.false_eq_true, if_false, ht, skipSpaces_lbrace, List.cons.injEq,
      Char.reduceEq, false_and, imp_false, not_false_eq_true, implies_true]
    exact hloop

/-- On a non-empty list in the legacy form the reader for the form with temperatures gives
up at the first polygon (`return false`). -/
theorem parsePolygonsWithTemp_legacy (L : CLib α) [LinearOrderedField α]
    (ps : List (List (Vec3Tok α))) (hne : ps ≠ []) (rest : List Char)
    (acc : List (PolygonWithTemp α)) (fuel : Nat) (hf : 1 ≤ fuel) :
    ∃ r, parsePolygonsWithTemp L fuel (renderPolygons ps ++ rest) acc = some ⟨false, r, acc⟩ := by
  obtain ⟨t, ht⟩ := renderSeq_head ']' '[' (ps.map renderPolygon) (by simpa using hne) (by
    intro x hx
    obtain ⟨v, _, rfl⟩ := List.mem_map.1 hx
    exact ⟨_, rfl⟩)
  obtain ⟨fuel, rfl⟩ : ∃ n, fuel = n + 1 := ⟨fuel - 1, by omega⟩
  have hex : expectChar ('[' :: (t ++ rest)) '\x7b' = (false, '[' :: (t ++ rest)) := by
    simp [expectChar, skipSpaces]
  refine ⟨'[' :: (t ++ rest), ?_⟩
  simp only [parsePolygonsWithTemp, renderPolygons, List.cons_append, expectChar_lbracket,
    Bool.not_true, Bool.false_eq_true, if_false, ht, skipSpaces_lbracket, List.cons.injEq,
    Char.reduceEq, false_and, imp_false, not_false_eq_true, implies_true,
    polygonsWithTempLoop, reduceCtorEq, parsePolygonWithTemp, hex, Bool.not_false, if_true]

attribute [irreducible] parseSinglePolygon parsePolygons parseReceiverPoint parseReceiverPoints
  parsePolygonWithTemp parsePolygonsWithTemp

/-- One iteration of the plane loop on a member followed by `,` or the closing brace. -/
theorem planeDataLoop_step (L : CLib α) [LinearOrderedField α] (f : PlaneField α)
    (hfr : f.Reads L) (d : Char) (hd : d = ',' ∨ d = '\x7d') (tail : List Char)
    (pl : PlaneOut α) (fuel : Nat)
    (hf : (renderPlaneField f ++ d :: tail).length ≤ fuel + 1) :
    planeDataLoop L (fuel + 1) (renderPlaneField f ++ d :: tail) pl =
      planeDataLoop L fuel (if d = ',' then tail else d :: tail) (applyPlaneField pl f) := by
  have kw : dquote ∉ keyWidth := by decide
  have kh : dquote ∉ keyHeight := by decide
  have kp : dquote ∉ keyPoints := by decide
  have d1 : decide (keyHeight = keyWidth) = false := by decide
  have d2 : decide (keyPoints = keyWidth) = false := by decide
  have d3 : decide (keyPoints = keyHeight) = false := by decide
  obtain ⟨name, w, h, pts⟩ := pl
  cases f with
  | width n =>
    have hn : n.Reads L := hfr
    rcases hd with rfl | rfl
    · simp only [planeDataLoop, renderPlaneField, renderKey, dquote, List.cons_append,
        List.append_assoc, List.nil_append, skipSpaces_dq, skipSpaces_comma,
        parseKey_quoted _ _ _ kw, parseNumber_tok L _ hn ',' _ (Or.inl rfl), parseKey_comma,
        decide_True, Option.isNone_some, Bool.and_false, Bool.false_and, Bool.false_eq_true,
        if_false, if_true, Option.getD_some, reduceCtorEq, List.cons.injEq, Char.reduceEq,
        false_and, imp_false, not_false_eq_true, implies_true, Bool.not_true, applyPlaneField]
    · simp only [planeDataLoop, renderPlaneField, renderKey, dquote, List.cons_append,
        List.append_assoc, List.nil_append, skipSpaces_dq, skipSpaces_rbrace,
        parseKey_quoted _ _ _ kw, parseNumber_tok L _ hn '\x7d' _ (Or.inr (Or.inr rfl)),
        parseKey_rbrace,
        decide_True, Option.isNone_some, Bool.and_false, Bool.false_and, Bool.false_eq_true,
        if_false, if_true, Option.getD_some, reduceCtorEq, List.cons.injEq, Char.reduceEq,
        false_and, imp_false, not_false_eq_true, implies_true, Bool.not_true, applyPlaneField]
  | height n =>
    have hn : n.Reads L := hfr
    rcases hd with rfl | rfl
    · simp only [planeDataLoop, renderPlaneField, renderKey, dquote, List.cons_append,
        List.append_assoc, List.nil_append, skipSpaces_dq, skipSpaces_comma,
        parseKey_quoted _ _ _ kh, parseNumber_tok L _ hn ',' _ (Or.inl rfl), parseKey_comma, d1,
        decide_True, Option.isNone_some, Bool.and_false, Bool.false_and, Bool.false_eq_true,
        if_false, if_true, Option.getD_some, reduceCtorEq, List.cons.injEq, Char.reduceEq,
        false_and, imp_false, not_false_eq_true, implies_true, Bool.not_true, applyPlaneField]
    · simp only [planeDataLoop, renderPlaneField, renderKey, dquote, List.cons_append,
        List.append_assoc, List.nil_append, skipSpaces_dq, skipSpaces_rbrace,
        parseKey_quoted _ _ _ kh, parseNumber_tok L _ hn '\x7d' _ (Or.inr (Or.inr rfl)),
        parseKey_rbrace, d1,
        decide_True, Option.isNone_some, Bool.and_false, Bool.false_and, Bool.false_eq_true,
        if_false, if_true, Option.getD_some, reduceCtorEq, List.cons.injEq, Char.reduceEq,
        false_and, imp_false, not_false_eq_true, implies_true, Bool.not_true, applyPlaneField]
  | points ps =>
    have hps : ∀ p ∈ ps, p.Reads L := hfr
    have hpts := parseReceiverPoints_render L ps hps (d :: tail) pts fuel (by
      simp only [renderPlaneField, renderKey, List.cons_append, List.length_cons,
        List.length_append, List.append_assoc, List.nil_append] at hf ⊢
      omega)
    rcases hd with rfl | rfl
    · simp only [planeDataLoop, renderPlaneField, renderKey, dquote, List.cons_append,
        List.append_assoc, List.nil_append, skipSpaces_dq, skipSpaces_comma,
        parseKey_quoted _ _ _ kp, hpts, parseKey_comma, d2, d3,
        decide_True, Option.isNone_some, Bool.and_false, Bool.false_and, Bool.false_eq_true,
        if_false, if_true, Option.getD_some, reduceCtorEq, List.cons.injEq, Char.reduceEq,
        false_and, imp_false, not_false_eq_true, implies_true, Bool.not_true, applyPlaneField]
    · simp only [planeDataLoop, renderPlaneField, renderKey, dquote, List.cons_append,
        List.append_assoc, List.nil_append, skipSpaces_dq, skipSpaces_rbrace,
        parseKey_quoted _ _ _ kp, hpts, parseKey_rbrace, d2, d3,
        decide_True, Option.isNone_some, Bool.and_false, Bool.false_and, Bool.false_eq_true,
        if_false, if_true, Option.getD_some, reduceCtorEq, List.cons.injEq, Char.reduceEq,
        false_and, imp_false, not_false_eq_true, implies_true, Bool.not_true, applyPlaneField]

theorem renderPlaneField_cons (f : PlaneField α) :
    ∃ t, renderPlaneField f = '"' :: t := by
  cases f <;> exact ⟨_, rfl⟩

theorem planeDataLoop_render (L : CLib α) [LinearOrderedField α] (fields : List (PlaneField α))
    (hfs : ∀ f ∈ fields, f.Reads L) (rest : List Char) (pl : PlaneOut α) (fuel : Nat)
    (hf : (renderSeq '\x7d' (fields.map renderPlaneField) ++ rest).length ≤ fuel) :
    planeDataLoop L fuel (renderSeq '\x7d' (fields.map renderPlaneField) ++ rest) pl =
      some ⟨true, rest, fields.foldl applyPlaneField pl⟩ := by
  induction fields generalizing fuel pl with
  | nil =>
    obtain ⟨fuel, rfl⟩ : ∃ n, fuel = n + 1 := ⟨fuel - 1, by
      simp only [List.map_nil, renderSeq, List.cons_append, List.length_cons] at hf; omega⟩
    simp only [List.map_nil, renderSeq, List.cons_append, List.nil_append, planeDataLoop,
      reduceCtorEq, if_false, skipSpaces_rbrace, List.foldl_nil]
  | cons f tl ih =>
    have hfr : f.Reads L := hfs f (List.mem_cons_self _ _)
    have htl : ∀ w ∈ tl, w.Reads L := fun w hw => hfs w (List.mem_cons_of_mem _ hw)
    obtain ⟨t, ht⟩ := renderPlaneField_cons f
    cases tl with
    | nil =>
      have hsplit : renderSeq '\x7d' ([f].map renderPlaneField) ++ rest =
          renderPlaneField f ++ '\x7d' :: rest := by simp [renderSeq]
      rw [hsplit] at hf ⊢
      obtain ⟨fuel, rfl⟩ : ∃ n, fuel = n + 1 := ⟨fuel - 1, by
        simp only [List.length_append, List.length_cons] at hf; omega⟩
      rw [planeDataLoop_step L f hfr '\x7d' (Or.inr rfl) rest pl fuel hf]
      have := ih htl (applyPlaneField pl f) fuel (by
        simp only [ht, List.map_nil, renderSeq, List.cons_append, List.nil_append,
          List.length_append, List.length_cons] at hf ⊢
        omega)
      simpa [renderSeq] using this
    | cons g r =>
      have hsplit : renderSeq '\x7d' ((f :: g :: r).map renderPlaneField) ++ rest =
          renderPlaneField f ++ ',' ::
            (renderSeq '\x7d' ((g :: r).map renderPlaneField) ++ rest) := by
        simp [renderSeq]
      rw [hsplit] at hf ⊢
      obtain ⟨fuel, rfl⟩ : ∃ n, fuel = n + 1 := ⟨fuel - 1, by
        simp only [List.length_append, List.length_cons] at hf; omega⟩
      rw [planeDataLoop_step L f hfr ',' (Or.inl rfl) _ pl fuel hf]
      have := ih htl (applyPlaneField pl f) fuel (by
        simp only [List.length_append, List.length_cons] at hf ⊢
        omega)
      simpa using this

theorem parseReceiverPlaneData_render (L : CLib α) [LinearOrderedField α]
    (fields : List (PlaneField α)) (hfs : ∀ f ∈ fields, f.Reads L) (rest : List Char)
    (pl : PlaneOut α) (fuel : Nat)
    (hf : (renderSeq '\x7d' (fields.map renderPlaneField) ++ rest).length ≤ fuel) :
    parseReceiverPlaneData L fuel ('\x7b' :: (renderSeq '\x7d' (fields.map renderPlaneField)
      ++ rest)) pl = some ⟨true, rest, fields.foldl applyPlaneField pl⟩ := by
  by_cases hne : fields = []
  · subst hne
    simp only [parseReceiverPlaneData, List.map_nil, renderSeq, List.cons_append,
      List.nil_append, expectChar_lbrace, Bool.not_true, Bool.false_eq_true, if_false,
      skipSpaces_rbrace, List.foldl_nil]
  · obtain ⟨t, ht⟩ := renderSeq_head '\x7d' '"' (fields.map renderPlaneField)
      (by simpa using hne) (by
        intro x hx
        obtain ⟨v, _, rfl⟩ := List.mem_map.1 hx
        exact renderPlaneField_cons v)
    have hloop := planeDataLoop_render L fields hfs rest pl fuel hf
    rw [ht] at hloop
    simp only [parseReceiverPlaneData, expectChar_lbrace, Bool.not_true, Bool.false_eq_true,
      if_false, ht, List.cons_append, skipSpaces_dq, List.cons.injEq, Char.reduceEq, false_and,
      imp_false, not_false_eq_true, implies_true]
    exact hloop

attribute [irreducible] parseReceiverPlaneData

/-- One iteration of the loop over the planes. -/
theorem receiverPlanesLoop_step (L : CLib α) [LinearOrderedField α] (p : PlaneTok α)
    (hp : p.Reads L) (d : Char) (hd : d = ',' ∨ d = '\x7d') (tail : List Char)
    (pl : PlaneOut α) (fuel : Nat) (hf : (renderPlane p ++ d :: tail).length ≤ fuel + 1) :
    receiverPlanesLoop L (fuel + 1) (renderPlane p ++ d :: tail) pl =
      receiverPlanesLoop L fuel (if d = ',' then tail else d :: tail) (applyPlane pl p) := by
  obtain ⟨hname, hfields⟩ := hp
  have hdata := parseReceiverPlaneData_render L p.fields hfields (d :: tail)
    { pl with planeName := p.name } fuel (by
      simp only [renderPlane, renderKey, List.cons_append, List.length_cons,
        List.length_append, List.append_assoc, List.nil_append] at hf ⊢
      omega)
  have hdrop := dropWhile_append_stop p.name (':' :: '\x7b' ::
    (renderSeq '\x7d' (p.fields.map renderPlaneField) ++ d :: tail)) hname
  have htake := takeWhile_append_stop p.name (':' :: '\x7b' ::
    (renderSeq '\x7d' (p.fields.map renderPlaneField) ++ d :: tail)) hname
  simp only [dquote] at hdrop htake
  rcases hd with rfl | rfl
  · simp only [receiverPlanesLoop, renderPlane, renderKey, dquote, List.cons_append,
      List.append_assoc, List.nil_append, reduceCtorEq, if_false, skipSpaces_dq,
      List.cons.injEq, Char.reduceEq, false_and, imp_false, not_false_eq_true, implies_true]
    simp only [expectChar_dq, hdrop, htake, Bool.not_true, Bool.false_eq_true, if_false,
      skipSpaces_colon, expectChar_colon, hdata, skipSpaces_comma, if_true, applyPlane]
  · simp only [receiverPlanesLoop, renderPlane, renderKey, dquote, List.cons_append,
      List.append_assoc, List.nil_append, reduceCtorEq, if_false, skipSpaces_dq,
      List.cons.injEq, Char.reduceEq, false_and, imp_false, not_false_eq_true, implies_true]
    simp only [expectChar_dq, hdrop, htake, Bool.not_true, Bool.false_eq_true, if_false,
      skipSpaces_colon, expectChar_colon, hdata, skipSpaces_rbrace, applyPlane,
      List.cons.injEq, Char.reduceEq, false_and, imp_false, not_false_eq_true, implies_true]

theorem renderPlane_cons (p : PlaneTok α) : ∃ t, renderPlane p = '"' :: t := ⟨_, rfl⟩

theorem receiverPlanesLoop_render (L : CLib α) [LinearOrderedField α]
    (planes : List (PlaneTok α)) (hps : ∀ p ∈ planes, p.Reads L) (rest : List Char)
    (pl : PlaneOut α) (fuel : Nat)
    (hf : (renderSeq '\x7d' (planes.map renderPlane) ++ rest).length ≤ fuel) :
    receiverPlanesLoop L fuel (renderSeq '\x7d' (planes.map renderPlane) ++ rest) pl =
      some ⟨true, rest, planes.foldl applyPlane pl⟩ := by
  induction planes generalizing fuel pl with
  | nil =>
    obtain ⟨fuel, rfl⟩ : ∃ n, fuel = n + 1 := ⟨fuel - 1, by
      simp only [List.map_nil, renderSeq, List.cons_append, List.length_cons] at hf; omega⟩
    simp only [List.map_nil, renderSeq, List.cons_append, List.nil_append, receiverPlanesLoop,
      reduceCtorEq, if_false, skipSpaces_rbrace, List.foldl_nil]
  | cons f tl ih =>
    have hfr : f.Reads L := hps f (List.mem_cons_self _ _)
    have htl : ∀ w ∈ tl, w.Reads L := fun w hw => hps w (List.mem_cons_of_mem _ hw)
    obtain ⟨t, ht⟩ := renderPlane_cons f
    cases tl with
    | nil =>
      have hsplit : renderSeq '\x7d' ([f].map renderPlane) ++ rest =
          renderPlane f ++ '\x7d' :: rest := by simp [renderSeq]
      rw [hsplit] at hf ⊢
      obtain ⟨fuel, rfl⟩ : ∃ n, fuel = n + 1 := ⟨fuel - 1, by
        simp only [List.length_append, List.length_cons] at hf; omega⟩
      rw [receiverPlanesLoop_step L f hfr '\x7d' (Or.inr rfl) rest pl fuel hf]
      have := ih htl (applyPlane pl f) fuel (by
        simp only [ht, List.map_nil, renderSeq, List.cons_append, List.nil_append,
          List.length_append, List.length_cons] at hf ⊢
        omega)
      simpa [renderSeq] using this
    | cons g r =>
      have hsplit : renderSeq '\x7d' ((f :: g :: r).map renderPlane) ++ rest =
          renderPlane f ++ ',' :: (renderSeq '\x7d' ((g :: r).map renderPlane) ++ rest) := by
        simp [renderSeq]
      rw [hsplit] at hf ⊢
      obtain ⟨fuel, rfl⟩ : ∃ n, fuel = n + 1 := ⟨fuel - 1, by
        simp only [List.length_append, List.length_cons] at hf; omega⟩
      rw [receiverPlanesLoop_step L f hfr ',' (Or.inl rfl) _ pl fuel hf]
      have := ih htl (applyPlane pl f) fuel (by
        simp only [List.length_append, List.length_cons] at hf ⊢
        omega)
      simpa using this

theorem parseReceiverPlanes_render (L : CLib α) [LinearOrderedField α]
    (planes : List (PlaneTok α)) (hps : ∀ p ∈ planes, p.Reads L) (rest : List Char)
    (pl : PlaneOut α) (fuel : Nat)
    (hf : (renderSeq '\x7d' (planes.map renderPlane) ++ rest).length ≤ fuel) :
    parseReceiverPlanes L fuel ('\x7b' :: (renderSeq '\x7d' (planes.map renderPlane) ++ rest))
      pl = some ⟨true, rest, planes.foldl applyPlane pl⟩ := by
  by_cases hne : planes = []
  · subst hne
    simp only [parseReceiverPlanes, List.map_nil, renderSeq, List.cons_append,
      List.nil_append, expectChar_lbrace, Bool.not_true, Bool.false_eq_true, if_false,
      skipSpaces_rbrace, List.foldl_nil]
  · obtain ⟨t, ht⟩ := renderSeq_head '\x7d' '"' (planes.map renderPlane)
      (by simpa using hne) (by
        intro x hx
        obtain ⟨v, _, rfl⟩ := List.mem_map.1 hx
        exact renderPlane_cons v)
    have hloop := receiverPlanesLoop_render L planes hps rest pl fuel hf
    rw [ht] at hloop
    simp only [parseReceiverPlanes, expectChar_lbrace, Bool.not_true, Bool.false_eq_true,
      if_false, ht, List.cons_append, skipSpaces_dq, List.cons.injEq, Char.reduceEq, false_and,
      imp_false, not_false_eq_true, implies_true]
    exact hloop

attribute [irreducible] parseReceiverPlanes

end ReaderProofs

/-! ### The loop of `parseInputJson` -/

section MainLoopProofs

open mini_json

set_option linter.unusedSectionVars false

variable {α : Type} [LinearOrderedField α] [FloorRing α]

theorem andThen_ok {σ τ : Type} (a : σ) (f : σ → Option (Except String τ)) :
    andThen (some (.ok a)) f = f a := rfl

theorem stepReceiverPlanes_miss (L : CLib α) (fuel : Nat) (s : List Char) (st : MainState α)
    (h : (parseKey s keyReceiverPlanes).1 = false) :
    stepReceiverPlanes L fuel (s, st) = some (.ok (s, st)) := by
  simp only [stepReceiverPlanes, h, Bool.false_eq_true, if_false]

theorem stepPolygons_miss (L : CLib α) (fuel : Nat) (s : List Char) (st : MainState α)
    (h : (parseKey s keyPolygons).1 = false) :
    stepPolygons L fuel (s, st) = some (.ok (s, st)) := by
  simp only [stepPolygons, h, Bool.false_eq_true, if_false]

theorem stepInertPolygons_miss (L : CLib α) (fuel : Nat) (s : List Char) (st : MainState α)
    (h : (parseKey s keyInertPolygons).1 = false) :
    stepInertPolygons L fuel (s, st) = some (.ok (s, st)) := by
  simp only [stepInertPolygons, h, Bool.false_eq_true, if_false]

theorem stepNumRays_miss (L : CLib α) (s : List Char) (st : MainState α)
    (h : (parseKey s keyNumRays).1 = false) :
    stepNumRays L (s, st) = some (.ok (s, st)) := by
  simp only [stepNumRays, h, Bool.false_eq_true, if_false]

theorem stepSeed_miss (L : CLib α) (s : List Char) (st : MainState α)
    (h : (parseKey s keySeed).1 = false) :
    stepSeed L (s, st) = some (.ok (s, st)) := by
  simp only [stepSeed, h, Bool.false_eq_true, if_false]

theorem stepReceiverPlanes_other (L : CLib α) (fuel : Nat) (key rest : List Char)
    (st : MainState α) (hk : dquote ∉ key) (hne : decide (key = keyReceiverPlanes) = false) :
    stepReceiverPlanes L fuel ('"' :: (key ++ '"' :: ':' :: rest), st) =
      some (.ok ('"' :: (key ++ '"' :: ':' :: rest), st)) :=
  stepReceiverPlanes_miss L fuel _ st (by rw [parseKey_quoted _ _ _ hk, hne])

theorem stepPolygons_other (L : CLib α) (fuel : Nat) (key rest : List Char)
    (st : MainState α) (hk : dquote ∉ key) (hne : decide (key = keyPolygons) = false) :
    stepPolygons L fuel ('"' :: (key ++ '"' :: ':' :: rest), st) =
      some (.ok ('"' :: (key ++ '"' :: ':' :: rest), st)) :=
  stepPolygons_miss L fuel _ st (by rw [parseKey_quoted _ _ _ hk, hne])

theorem stepInertPolygons_other (L : CLib α) (fuel : Nat) (key rest : List Char)
    (st : MainState α) (hk : dquote ∉ key) (hne : decide (key = keyInertPolygons) = false) :
    stepInertPolygons L fuel ('"' :: (key ++ '"' :: ':' :: rest), st) =
      some (.ok ('"' :: (key ++ '"' :: ':' :: rest), st)) :=
  stepInertPolygons_miss L fuel _ st (by rw [parseKey_quoted _ _ _ hk, hne])

theorem stepNumRays_other (L : CLib α) (key rest : List Char)
    (st : MainState α) (hk : dquote ∉ key) (hne : decide (key = keyNumRays) = false) :
    stepNumRays L ('"' :: (key ++ '"' :: ':' :: rest), st) =
      some (.ok ('"' :: (key ++ '"' :: ':' :: rest), st)) :=
  stepNumRays_miss L _ st (by rw [parseKey_quoted _ _ _ hk, hne])

/-- The steps after the one that read the member: at `,` or the closing brace no key is
found. -/
theorem steps_after (L : CLib α) (fuel : Nat) (d : Char) (hd : d = ',' ∨ d = '\x7d')
    (tail : List Char) (st : MainState α) :
    stepReceiverPlanes L fuel (d :: tail, st) = some (.ok (d :: tail, st)) ∧
    stepPolygons L fuel (d :: tail, st) = some (.ok (d :: tail, st)) ∧
    stepInertPolygons L fuel (d :: tail, st) = some (.ok (d :: tail, st)) ∧
    stepNumRays L (d :: tail, st) = some (.ok (d :: tail, st)) ∧
    stepSeed L (d :: tail, st) = some (.ok (d :: tail, st)) := by
  have hd' : d = ',' ∨ d = ']' ∨ d = '\x7d' := by
    rcases hd with h | h
    · exact Or.inl h
    · exact Or.inr (Or.inr h)
  exact ⟨stepReceiverPlanes_miss L fuel _ st (parseKey_delim d tail _ hd'),
    stepPolygons_miss L fuel _ st (parseKey_delim d tail _ hd'),
    stepInertPolygons_miss L fuel _ st (parseKey_delim d tail _ hd'),
    stepNumRays_miss L _ st (parseKey_delim d tail _ hd'),
    stepSeed_miss L _ st (parseKey_delim d tail _ hd')⟩

theorem stepReceiverPlanes_hit (L : CLib α) (planes : List (PlaneTok α))
    (hps : ∀ p ∈ planes, p.Reads L) (rest : List Char) (st : MainState α) (fuel : Nat)
    (hf : (renderSeq '\x7d' (planes.map renderPlane) ++ rest).length ≤ fuel) :
    stepReceiverPlanes L fuel ('"' :: (keyReceiverPlanes ++ '"' :: ':' :: '\x7b' ::
      (renderSeq '\x7d' (planes.map renderPlane) ++ rest)), st) =
      some (.ok (rest, applyField st (.receiverPlanes planes))) := by
  have hk : dquote ∉ keyReceiverPlanes := by decide
  simp only [stepReceiverPlanes, parseKey_quoted _ _ _ hk, decide_True, if_true,
    parseReceiverPlanes_render L planes hps rest _ fuel hf, Bool.not_true, Bool.false_eq_true,
    if_false, applyField]

theorem stepPolygons_hit (L : CLib α) (es : List (EmitterTok α)) (hes : ∀ e ∈ es, e.Reads L)
    (rest : List Char) (st : MainState α) (fuel : Nat)
    (hf : (renderEmitters es ++ rest).length ≤ fuel) :
    stepPolygons L fuel ('"' :: (keyPolygons ++ '"' :: ':' :: (renderEmitters es ++ rest)), st) =
      some (.ok (rest, applyField st (.polygons es))) := by
  have hk : dquote ∉ keyPolygons := by decide
  simp only [stepPolygons, parseKey_quoted _ _ _ hk, decide_True, if_true,
    parsePolygonsWithTemp_render L es hes rest _ fuel hf, applyField]

theorem stepPolygons_hit_legacy (L : CLib α) (ps : List (List (Vec3Tok α)))
    (hps : ∀ vs ∈ ps, PolygonReads L vs) (rest : List Char) (st : MainState α) (fuel : Nat)
    (hf : (renderPolygons ps ++ rest).length ≤ fuel) :
    stepPolygons L fuel ('"' :: (keyPolygons ++ '"' :: ':' :: (renderPolygons ps ++ rest)), st) =
      some (.ok (rest, applyField st (.polygonsLegacy ps))) := by
  have hk : dquote ∉ keyPolygons := by decide
  by_cases hne : ps = []
  · subst hne
    have h := parsePolygonsWithTemp_render L ([] : List (EmitterTok α)) (by simp) rest
      st.out.polygons fuel (by simpa [renderEmitters, renderPolygons] using hf)
    have e : renderEmitters ([] : List (EmitterTok α)) = renderPolygons ([] : List (List
      (Vec3Tok α))) := rfl
    rw [e] at h
    simp only [stepPolygons, parseKey_quoted _ _ _ hk, decide_True, if_true, h, applyField,
      List.map_nil, List.append_nil, List.isEmpty_nil]
  · obtain ⟨r, hr⟩ := parsePolygonsWithTemp_legacy L ps hne rest st.out.polygons fuel (by
      simp only [renderPolygons, List.cons_append, List.length_cons] at hf; omega)
    have hnil : ps.isEmpty = false := by
      cases ps with
      | nil => exact absurd rfl hne
      | cons _ _ => rfl
    simp only [stepPolygons, parseKey_quoted _ _ _ hk, decide_True, if_true, hr,
      Bool.false_eq_true, if_false, parsePolygons_render L ps hps rest [] fuel hf,
      List.nil_append, List.map_map, applyField, hnil]
    rfl

theorem stepInertPolygons_hit (L : CLib α) (ps : List (List (Vec3Tok α)))
    (hps : ∀ vs ∈ ps, PolygonReads L vs) (rest : List Char) (st : MainState α) (fuel : Nat)
    (hf : (renderPolygons ps ++ rest).length ≤ fuel) :
    stepInertPolygons L fuel
      ('"' :: (keyInertPolygons ++ '"' :: ':' :: (renderPolygons ps ++ rest)), st) =
      some (.ok (rest, applyField st (.inertPolygons ps))) := by
  have hk : dquote ∉ keyInertPolygons := by decide
  simp only [stepInertPolygons, parseKey_quoted _ _ _ hk, decide_True, if_true,
    parsePolygons_render L ps hps rest [] fuel hf, Bool.not_true, Bool.false_eq_true, if_false,
    List.nil_append, applyField]

theorem stepNumRays_hit (L : CLib α) (n : NumTok α) (hn : n.Reads L) (d : Char)
    (hd : d = ',' ∨ d = '\x7d') (tail : List Char) (st : MainState α) :
    stepNumRays L ('"' :: (keyNumRays ++ '"' :: ':' :: (n.text ++ d :: tail)), st) =
      some (.ok (d :: tail, applyField st (.numRays n))) := by
  have hk : dquote ∉ keyNumRays := by decide
  have hd' : d = ',' ∨ d = ']' ∨ d = '\x7d' := by
    rcases hd with h | h
    · exact Or.inl h
    · exact Or.inr (Or.inr h)
  simp only [stepNumRays, parseKey_quoted _ _ _ hk, decide_True, if_true,
    parseNumber_tok L n hn d tail hd', applyField]

theorem stepSeed_hit (L : CLib α) (sd : SeedTok) (hs : sd.Reads L) (d : Char)
    (hd : d = ',' ∨ d = '\x7d') (tail : List Char) (st : MainState α) :
    stepSeed L ('"' :: (keySeed ++ '"' :: ':' :: (sd.text ++ d :: tail)), st) =
      some (.ok (d :: tail, applyField st (.seed sd))) := by
  have hk : dquote ∉ keySeed := by decide
  have hd' : d = ',' ∨ d = ']' ∨ d = '\x7d' := by
    rcases hd with h | h
    · exact Or.inl h
    · exact Or.inr (Or.inr h)
  simp only [stepSeed, parseKey_quoted _ _ _ hk, decide_True, if_true,
    parseUInt64_tok L sd hs d tail hd', applyField]

theorem renderField_cons (f : Field α) : ∃ t, renderField f = '"' :: t := by
  cases f <;> exact ⟨_, rfl⟩

/-- One iteration of the loop of `parseInputJson` on a member followed by `,` or the closing
brace. -/
theorem mainLoop_step (L : CLib α) (f : Field α) (hfr : f.Reads L) (d : Char)
    (hd : d = ',' ∨ d = '\x7d') (tail : List Char) (st : MainState α) (fuel : Nat)
    (hf : (renderField f ++ d :: tail).length ≤ fuel + 1) :
    mainLoop L (fuel + 1) (renderField f ++ d :: tail) st =
      mainLoop L fuel (if d = ',' then tail else d :: tail) (applyField st f) := by
  have kP : dquote ∉ keyPolygons := by decide
  have kI : dquote ∉ keyInertPolygons := by decide
  have kN : dquote ∉ keyNumRays := by decide
  have kS : dquote ∉ keySeed := by decide
  have e1 : decide (keyPolygons = keyReceiverPlanes) = false := by decide
  have e2 : decide (keyInertPolygons = keyReceiverPlanes) = false := by decide
  have e3 : decide (keyInertPolygons = keyPolygons) = false := by decide
  have e4 : decide (keyNumRays = keyReceiverPlanes) = false := by decide
  have e5 : decide (keyNumRays = keyPolygons) = false := by decide
  have e6 : decide (keyNumRays = keyInertPolygons) = false := by decide
  have e7 : decide (keySeed = keyReceiverPlanes) = false := by decide
  have e8 : decide (keySeed = keyPolygons) = false := by decide
  have e9 : decide (keySeed = keyInertPolygons) = false := by decide
  have e10 : decide (keySeed = keyNumRays) = false := by decide
  have hafter := fun st' => steps_after L fuel d hd tail st'
  have hfinal : ∀ st', (match skipSpaces (d :: tail) with
      | ',' :: r => mainLoop L fuel r st'
      | r => mainLoop L fuel r st') =
      mainLoop L fuel (if d = ',' then tail else d :: tail) st' := by
    intro st'
    rcases hd with rfl | rfl
    · simp only [skipSpaces_comma, if_true]
    · simp only [skipSpaces_rbrace, List.cons.injEq, Char.reduceEq, false_and, imp_false,
        not_false_eq_true, implies_true, if_false]
  obtain ⟨t, ht⟩ := renderField_cons f
  have hhead : mainLoop L (fuel + 1) (renderField f ++ d :: tail) st =
      andThen (stepReceiverPlanes L fuel (renderField f ++ d :: tail, st)) fun c1 =>
      andThen (stepPolygons L fuel c1) fun c2 =>
      andThen (stepInertPolygons L fuel c2) fun c3 =>
      andThen (stepNumRays L c3) fun c4 =>
      andThen (stepSeed L c4) fun c5 =>
        match skipSpaces c5.1 with
        | ',' :: r => mainLoop L fuel r c5.2
        | r => mainLoop L fuel r c5.2 := by
    rw [mainLoop]
    simp only [ht, List.cons_append, reduceCtorEq, if_false, skipSpaces_dq, List.cons.injEq,
      Char.reduceEq, false_and, imp_false, not_false_eq_true, implies_true]
  rw [hhead]
  cases f with
  | receiverPlanes planes =>
    have hps : ∀ p ∈ planes, p.Reads L := hfr
    have h := stepReceiverPlanes_hit L planes hps (d :: tail) st fuel (by
      simp only [renderField, renderKey, List.cons_append, List.length_cons,
        List.length_append, List.append_assoc, List.nil_append] at hf ⊢
      omega)
    simp only [renderField, renderKey, dquote, List.cons_append, List.append_assoc,
      List.nil_append, h, andThen_ok, (hafter _).2.1, (hafter _).2.2.1, (hafter _).2.2.2.1,
      (hafter _).2.2.2.2, hfinal]
  | polygons es =>
    have hes : ∀ e ∈ es, e.Reads L := hfr
    have h := stepPolygons_hit L es hes (d :: tail) st fuel (by
      simp only [renderField, renderKey, List.cons_append, List.length_cons,
        List.length_append, List.append_assoc, List.nil_append] at hf ⊢
      omega)
    simp only [renderField, renderKey, dquote, List.cons_append, List.append_assoc,
      List.nil_append,
      stepReceiverPlanes_other L fuel _ _ st kP e1,
      h, andThen_ok, (hafter _).2.2.1, (hafter _).2.2.2.1, (hafter _).2.2.2.2, hfinal]
  | polygonsLegacy ps =>
    have hps : ∀ vs ∈ ps, PolygonReads L vs := hfr
    have h := stepPolygons_hit_legacy L ps hps (d :: tail) st fuel (by
      simp only [renderField, renderKey, List.cons_append, List.length_cons,
        List.length_append, List.append_assoc, List.nil_append] at hf ⊢
      omega)
    simp only [renderField, renderKey, dquote, List.cons_append, List.append_assoc,
      List.nil_append,
      stepReceiverPlanes_other L fuel _ _ st kP e1,
      h, andThen_ok, (hafter _).2.2.1, (hafter _).2.2.2.1, (hafter _).2.2.2.2, hfinal]
  | inertPolygons ps =>
    have hps : ∀ vs ∈ ps, PolygonReads L vs := hfr
    have h := stepInertPolygons_hit L ps hps (d :: tail) st fuel (by
      simp only [renderField, renderKey, List.cons_append, List.length_cons,
        List.length_append, List.append_assoc, List.nil_append] at hf ⊢
      omega)
    simp only [renderField, renderKey, dquote, List.cons_append, List.append_assoc,
      List.nil_append,
      stepReceiverPlanes_other L fuel _ _ st kI e2,
      stepPolygons_other L fuel _ _ st kI e3,
      h, andThen_ok, (hafter _).2.2.2.1, (hafter _).2.2.2.2, hfinal]
  | numRays n =>
    have hn : n.Reads L := hfr
    simp only [renderField, renderKey, dquote, List.cons_append, List.append_assoc,
      List.nil_append,
      stepReceiverPlanes_other L fuel _ _ st kN e4,
      stepPolygons_other L fuel _ _ st kN e5,
      stepInertPolygons_other L fuel _ _ st kN e6,
      stepNumRays_hit L n hn d hd tail st, andThen_ok, (hafter _).2.2.2.2, hfinal]
  | seed sd =>
    have hs : sd.Reads L := hfr
    simp only [renderField, renderKey, dquote, List.cons_append, List.append_assoc,
      List.nil_append,
      stepReceiverPlanes_other L fuel _ _ st kS e7,
      stepPolygons_other L fuel _ _ st kS e8,
      stepInertPolygons_other L fuel _ _ st kS e9,
      stepNumRays_other L _ _ st kS e10,
      stepSeed_hit L sd hs d hd tail st, andThen_ok, hfinal]

theorem mainLoop_render (L : CLib α) (fields : List (Field α))
    (hfs : ∀ f ∈ fields, f.Reads L) (rest : List Char) (st : MainState α) (fuel : Nat)
    (hf : (renderSeq '\x7d' (fields.map renderField) ++ rest).length ≤ fuel) :
    mainLoop L fuel (renderSeq '\x7d' (fields.map renderField) ++ rest) st =
      some (.ok (fields.foldl applyField st)) := by
  induction fields generalizing fuel st with
  | nil =>
    obtain ⟨fuel, rfl⟩ : ∃ n, fuel = n + 1 := ⟨fuel - 1, by
      simp only [List.map_nil, renderSeq, List.cons_append, List.length_cons] at hf; omega⟩
    simp only [List.map_nil, renderSeq, List.cons_append, List.nil_append, mainLoop,
      reduceCtorEq, if_false, skipSpaces_rbrace, List.foldl_nil]
  | cons f tl ih =>
    have hfr : f.Reads L := hfs f (List.mem_cons_self _ _)
    have htl : ∀ w ∈ tl, w.Reads L := fun w hw => hfs w (List.mem_cons_of_mem _ hw)
    obtain ⟨t, ht⟩ := renderField_cons f
    cases tl with
    | nil =>
      have hsplit : renderSeq '\x7d' ([f].map renderField) ++ rest =
          renderField f ++ '\x7d' :: rest := by simp [renderSeq]
      rw [hsplit] at hf ⊢
      obtain ⟨fuel, rfl⟩ : ∃ n, fuel = n + 1 := ⟨fuel - 1, by
        simp only [List.length_append, List.length_cons] at hf; omega⟩
      rw [mainLoop_step L f hfr '\x7d' (Or.inr rfl) rest st fuel hf]
      have := ih htl (applyField st f) fuel (by
        simp only [ht, List.map_nil, renderSeq, List.cons_append, List.nil_append,
          List.length_append, List.length_cons] at hf ⊢
        omega)
      simpa [renderSeq] using this
    | cons g r =>
      have hsplit : renderSeq '\x7d' ((f :: g :: r).map renderField) ++ rest =
          renderField f ++ ',' :: (renderSeq '\x7d' ((g :: r).map renderField) ++ rest) := by
        simp [renderSeq]
      rw [hsplit] at hf ⊢
      obtain ⟨fuel, rfl⟩ : ∃ n, fuel = n + 1 := ⟨fuel - 1, by
        simp only [List.length_append, List.length_cons] at hf; omega⟩
      rw [mainLoop_step L f hfr ',' (Or.inl rfl) _ st fuel hf]
      have := ih htl (applyField st f) fuel (by
        simp only [List.length_append, List.length_cons] at hf ⊢
        omega)
      simpa using this

/-- The reader on a well-formed request: with fuel at least the length of the text it
returns, and the result is the validation of the state built member by member. -/
theorem parseInputJson_render (L : CLib α) (fields : List (Field α))
    (hfs : ∀ f ∈ fields, f.Reads L) (out : JsonInput α) (fuel : Nat)
    (hf : (renderRequest fields).length ≤ fuel) :
    parseInputJson L fuel (renderRequest fields) out =
      some (validate (fields.foldl applyField ⟨out, false, false⟩)) := by
  have h := mainLoop_render L fields hfs [] ⟨out, false, false⟩ fuel (by
    simp only [renderRequest, List.length_cons, List.append_nil] at hf ⊢
    omega)
  rw [List.append_nil] at h
  simp only [parseInputJson, renderRequest, skipSpaces_lbrace, expectChar_lbrace, Bool.not_true,
    Bool.false_eq_true, if_false, h]

/-! ### What the members leave in the state -/

theorem foldl_applyPlaneField_points (fs : List (PlaneField α)) (out : PlaneOut α) :
    (fs.foldl applyPlaneField out).points =
      out.points ++ ((fs.map PlaneField.pointTokens).flatten).map pointValue := by
  induction fs generalizing out with
  | nil => simp
  | cons f tl ih =>
    rw [List.foldl_cons, ih]
    cases f <;> simp [applyPlaneField, PlaneField.pointTokens]

theorem foldl_applyPlane_points (planes : List (PlaneTok α)) (out : PlaneOut α) :
    (planes.foldl applyPlane out).points =
      out.points ++ ((planes.map
        (fun pl => (pl.fields.map PlaneField.pointTokens).flatten)).flatten).map pointValue := by
  induction planes generalizing out with
  | nil => simp
  | cons p tl ih =>
    rw [List.foldl_cons, ih]
    simp [applyPlane, foldl_applyPlaneField_points]

theorem applyField_receiverPoints (st : MainState α) (f : Field α) :
    (applyField st f).out.receiverPoints =
      st.out.receiverPoints ++ f.pointTokens.map pointValue := by
  cases f <;> simp [applyField, Field.pointTokens, foldl_applyPlane_points]

theorem foldl_applyField_receiverPoints (fields : List (Field α)) (st : MainState α) :
    (fields.foldl applyField st).out.receiverPoints =
      st.out.receiverPoints ++ (requestPoints fields).map pointValue := by
  induction fields generalizing st with
  | nil => simp [requestPoints]
  | cons f tl ih =>
    rw [List.foldl_cons, ih, applyField_receiverPoints]
    simp [requestPoints]

theorem foldl_applyField_haveReceiverPlanes (fields : List (Field α)) (st : MainState α) :
    (fields.foldl applyField st).haveReceiverPlanes =
      (st.haveReceiverPlanes || fields.any Field.isReceiverPlanes) := by
  induction fields generalizing st with
  | nil => simp
  | cons f tl ih =>
    rw [List.foldl_cons, ih]
    cases f <;> simp [applyField, Field.isReceiverPlanes]

theorem foldl_applyField_havePolygons (fields : List (Field α)) (st : MainState α) :
    (fields.foldl applyField st).havePolygons =
      (st.havePolygons || fields.any Field.isPolygons) := by
  induction fields generalizing st with
  | nil => simp
  | cons f tl ih =>
    rw [List.foldl_cons, ih]
    cases f <;> simp [applyField, Field.isPolygons]

/-- Members other than `polygons` leave the emitter list alone, and so does an empty
`polygons` list. -/
theorem foldl_applyField_polygons_unchanged (fields : List (Field α)) (st : MainState α)
    (h : ∀ f ∈ fields, f.isPolygons = true → f = .polygons [] ∨ f = .polygonsLegacy []) :
    (fields.foldl applyField st).out.polygons = st.out.polygons := by
  induction fields generalizing st with
  | nil => rfl
  | cons f tl ih =>
    rw [List.foldl_cons, ih _ (fun g hg => h g (List.mem_cons_of_mem _ hg))]
    have hf := h f (List.mem_cons_self _ _)
    cases f with
    | polygons es =>
      rcases hf rfl with h1 | h1
      · cases h1; simp [applyField]
      · cases h1
    | polygonsLegacy ps =>
      rcases hf rfl with h1 | h1
      · cases h1
      · cases h1; simp [applyField]
    | receiverPlanes _ => rfl
    | inertPolygons _ => rfl
    | numRays _ => rfl
    | seed _ => rfl

/-- When no member lists an emitter with a temperature, every emitter has temperature `0`. -/
theorem foldl_applyField_temperature_zero (fields : List (Field α)) (st : MainState α)
    (h : ∀ f ∈ fields, f.emitterTokens = [])
    (hst : ∀ p ∈ st.out.polygons, p.temperature = 0) :
    ∀ p ∈ (fields.foldl applyField st).out.polygons, p.temperature = 0 := by
  induction fields generalizing st with
  | nil => exact hst
  | cons f tl ih =>
    rw [List.foldl_cons]
    apply ih _ (fun g hg => h g (List.mem_cons_of_mem _ hg))
    have hf := h f (List.mem_cons_self _ _)
    cases f with
    | polygons es =>
      have : es = [] := hf
      subst this
      simpa [applyField] using hst
    | polygonsLegacy ps =>
      intro p hp
      simp only [applyField] at hp
      split at hp
      · exact hst p hp
      · obtain ⟨vs, _, rfl⟩ := List.mem_map.1 hp
        rfl
    | receiverPlanes _ => exact hst
    | inertPolygons _ => exact hst
    | numRays _ => exact hst
    | seed _ => exact hst

end MainLoopProofs

/-! ## Claims about the reader -/

section ReaderClaims

open mini_json

variable {α : Type} [LinearOrderedField α] [FloorRing α]

/-- The state in which the loop of `parseInputJson` leaves a well-formed request. -/
theorem finalState_facts (fields : List (Field α)) (w0 h0 : α) :
    (fields.foldl applyField ⟨JsonInput.fresh w0 h0, false, false⟩).haveReceiverPlanes =
      fields.any Field.isReceiverPlanes ∧
    (fields.foldl applyField ⟨JsonInput.fresh w0 h0, false, false⟩).havePolygons =
      fields.any Field.isPolygons ∧
    (fields.foldl applyField ⟨JsonInput.fresh w0 h0, false, false⟩).out.receiverPoints =
      (requestPoints fields).map pointValue := by
  refine ⟨?_, ?_, ?_⟩
  · rw [foldl_applyField_haveReceiverPlanes]; simp
  · rw [foldl_applyField_havePolygons]; simp
  · rw [foldl_applyField_receiverPoints]; simp [JsonInput.fresh]

/-- C9. A well-formed request (its members in any order and number, written in compact form)
without a `receiver_planes` member, or whose planes list no receiver point, or without a
`polygons` member: with fuel at least the length of the text `parseInputJson` returns failure
with one of its three diagnostics (none of them empty), and `runFromJsonString` returns
`ok = false` with the error object as its text, whatever the mathematical library, the
generator and the entropy are (the sampler is not consulted). -/
theorem structural_errors (L : CLib α) (fields : List (Field α))
    (hfs : ∀ f ∈ fields, f.Reads L)
    (hmiss : (∀ f ∈ fields, f.isReceiverPlanes = false) ∨ requestPoints fields = [] ∨
      (∀ f ∈ fields, f.isPolygons = false))
    (w0 h0 : α) (fuel : Nat) (hfuel : (renderRequest fields).length ≤ fuel) :
    ∃ msg : String,
      (msg = "Must provide 'receiver_planes' field" ∨ msg = "receiver_planes is empty" ∨
        msg = "Missing polygons") ∧ msg ≠ "" ∧
      parseInputJson L fuel (renderRequest fields) (JsonInput.fresh w0 h0) =
        some (.error msg) ∧
      ∀ (M : MathLib α) (R : RandomSource α) (entropy : List Nat),
        runFromJsonString L M R fuel entropy w0 h0 (renderRequest fields) =
          some ⟨false, "\x7b\"error\": \"" ++ msg ++ "\"\x7d\n"⟩ := by
  have hparse := parseInputJson_render L fields hfs (JsonInput.fresh w0 h0) fuel hfuel
  obtain ⟨h1, h2, h3⟩ := finalState_facts fields w0 h0
  have key : ∃ msg : String,
      (msg = "Must provide 'receiver_planes' field" ∨ msg = "receiver_planes is empty" ∨
        msg = "Missing polygons") ∧
      validate (fields.foldl applyField ⟨JsonInput.fresh w0 h0, false, false⟩) =
        .error msg := by
    unfold validate
    split
    · exact ⟨_, Or.inl rfl, rfl⟩
    · split
      · exact ⟨_, Or.inr (Or.inl rfl), rfl⟩
      · split
        · exact ⟨_, Or.inr (Or.inr rfl), rfl⟩
        · rename_i n1 n2 n3
          exfalso
          rcases hmiss with hm | hm | hm
          · apply n1
            rw [h1]
            have : fields.any Field.isReceiverPlanes = false := by
              rw [List.any_eq_false]
              intro f hf
              simp [hm f hf]
            simp [this]
          · apply n2
            rw [h3, hm]
            rfl
          · apply n3
            rw [h2]
            have : fields.any Field.isPolygons = false := by
              rw [List.any_eq_false]
              intro f hf
              simp [hm f hf]
            simp [this]
  obtain ⟨msg, hmsg, hval⟩ := key
  refine ⟨msg, hmsg, ?_, by rw [hparse, hval], ?_⟩
  · rcases hmsg with rfl | rfl | rfl <;> decide
  · intro M R entropy
    simp only [runFromJsonString, hparse, hval]

/-- The text of a request with a seed does not depend on the entropy, for given contents of
the two uninitialised members. -/
theorem seeded_run_ignores_entropy (L : CLib α) (M : MathLib α) (R : RandomSource α)
    (fuel : Nat) (e1 e2 : List Nat) (w0 h0 : α) (json : List Char)
    (hseed : ∀ inp, parseInputJson L fuel json (JsonInput.fresh w0 h0) = some (.ok inp) →
      inp.seed ≠ none) :
    runFromJsonString L M R fuel e1 w0 h0 json = runFromJsonString L M R fuel e2 w0 h0 json := by
  unfold runFromJsonString
  cases hp : parseInputJson L fuel json (JsonInput.fresh w0 h0) with
  | none => rfl
  | some r =>
    cases r with
    | error e => rfl
    | ok inp =>
      have hs := hseed inp hp
      obtain ⟨s, hs'⟩ := Option.ne_none_iff_exists'.1 hs
      simp only [pointTemperatures_seeded M R e1 e2 inp s hs']

/-- A request whose `polygons` members are all empty lists, with a `receiver_planes` member
and at least one receiver point, is read successfully and every temperature is `0`. -/
theorem run_without_emitters (L : CLib α) (fields : List (Field α))
    (hfs : ∀ f ∈ fields, f.Reads L)
    (hpoly : ∀ f ∈ fields, f.isPolygons = true → f = .polygons [] ∨ f = .polygonsLegacy [])
    (hex : ∃ f ∈ fields, f.isPolygons = true)
    (hrp : ∃ f ∈ fields, f.isReceiverPlanes = true)
    (hpts : requestPoints fields ≠ [])
    (w0 h0 : α) (fuel : Nat) (hfuel : (renderRequest fields).length ≤ fuel) :
    parseInputJson L fuel (renderRequest fields) (JsonInput.fresh w0 h0) =
      some (.ok (fields.foldl applyField ⟨JsonInput.fresh w0 h0, false, false⟩).out) ∧
    (fields.foldl applyField ⟨JsonInput.fresh w0 h0, false, false⟩).out.polygons = [] ∧
    (fields.foldl applyField ⟨JsonInput.fresh w0 h0, false, false⟩).out.receiverPoints =
      (requestPoints fields).map pointValue ∧
    ∀ (M : MathLib α) (R : RandomSource α) (entropy : List Nat),
      pointTemperatures M R entropy
          (fields.foldl applyField ⟨JsonInput.fresh w0 h0, false, false⟩).out =
        List.replicate (requestPoints fields).length 0 ∧
      runFromJsonString L M R fuel entropy w0 h0 (renderRequest fields) =
        some ⟨true, reportText L
          (fields.foldl applyField ⟨JsonInput.fresh w0 h0, false, false⟩).out
          (List.replicate (requestPoints fields).length 0)⟩ := by
  have hparse := parseInputJson_render L fields hfs (JsonInput.fresh w0 h0) fuel hfuel
  obtain ⟨h1, h2, h3⟩ := finalState_facts fields w0 h0
  have hpol : (fields.foldl applyField ⟨JsonInput.fresh w0 h0, false, false⟩).out.polygons
      = [] := by
    rw [foldl_applyField_polygons_unchanged fields _ hpoly]
    rfl
  have hval : validate (fields.foldl applyField ⟨JsonInput.fresh w0 h0, false, false⟩) =
      .ok (fields.foldl applyField ⟨JsonInput.fresh w0 h0, false, false⟩).out := by
    have a1 : fields.any Field.isReceiverPlanes = true := by
      obtain ⟨f, hf, hf'⟩ := hrp
      exact List.any_eq_true.2 ⟨f, hf, hf'⟩
    have a2 : fields.any Field.isPolygons = true := by
      obtain ⟨f, hf, hf'⟩ := hex
      exact List.any_eq_true.2 ⟨f, hf, hf'⟩
    have a3 : ((requestPoints fields).map (pointValue : PointTok α → ReceiverPoint α)).isEmpty
        = false := by
      cases hq : requestPoints fields with
      | nil => exact absurd hq hpts
      | cons _ _ => rfl
    simp only [validate, h1, h2, h3, a1, a2, a3, Bool.not_true, Bool.false_eq_true, if_false]
  have hzero : ∀ (M : MathLib α) (R : RandomSource α) (entropy : List Nat),
      pointTemperatures M R entropy
          (fields.foldl applyField ⟨JsonInput.fresh w0 h0, false, false⟩).out =
        List.replicate (requestPoints fields).length 0 := by
    intro M R entropy
    rw [pointTemperatures_zero M R entropy _ (by rw [hpol]; simp), h3, List.length_map]
  refine ⟨by rw [hparse, hval], hpol, h3, fun M R entropy => ⟨hzero M R entropy, ?_⟩⟩
  simp only [runFromJsonString, hparse, hval, hzero M R entropy]

/-- A well-formed request (in compact form) whose `polygons` member is an empty list is not
rejected for it: when it has a `receiver_planes` member with at least one receiver point,
`parseInputJson` returns success with no emitter, and `runFromJsonString` returns `ok = true`
with the temperature `0` for every receiver point. -/
theorem empty_polygons_accepted (L : CLib α) (fields : List (Field α))
    (hfs : ∀ f ∈ fields, f.Reads L)
    (hpoly : ∀ f ∈ fields, f.isPolygons = true → f = .polygons [] ∨ f = .polygonsLegacy [])
    (hex : ∃ f ∈ fields, f.isPolygons = true)
    (hrp : ∃ f ∈ fields, f.isReceiverPlanes = true)
    (hpts : requestPoints fields ≠ [])
    (w0 h0 : α) (fuel : Nat) (hfuel : (renderRequest fields).length ≤ fuel) :
    ∃ inp : JsonInput α,
      parseInputJson L fuel (renderRequest fields) (JsonInput.fresh w0 h0) = some (.ok inp) ∧
      inp.polygons = [] ∧
      inp.receiverPoints = (requestPoints fields).map pointValue ∧
      ∀ (M : MathLib α) (R : RandomSource α) (entropy : List Nat),
        pointTemperatures M R entropy inp = List.replicate (requestPoints fields).length 0 ∧
        runFromJsonString L M R fuel entropy w0 h0 (renderRequest fields) =
          some ⟨true, reportText L inp (List.replicate (requestPoints fields).length 0)⟩ :=
  ⟨_, run_without_emitters L fields hfs hpoly hex hrp hpts w0 h0 fuel hfuel⟩

theorem applyField_legacy_eq (st : MainState α) (ps : List (List (Vec3Tok α)))
    (z : NumTok α) (hz0 : z.value = 0) (hst : st.out.polygons = []) :
    applyField st (.polygonsLegacy ps) =
      applyField st (.polygons (ps.map (fun vs => ⟨vs, z⟩))) := by
  cases ps with
  | nil => simp [applyField, hst]
  | cons vs tl =>
    simp [applyField, hst, emitterValue, hz0, List.map_map, Function.comp_def]

theorem requestPoints_insert_polygons {β : Type} (pre post : List (Field β)) (f : Field β)
    (hf : f.isPolygons = true) :
    requestPoints (pre ++ f :: post) = requestPoints (pre ++ post) := by
  have : f.pointTokens = [] := by
    cases f <;> first | rfl | simp [Field.isPolygons] at hf
  simp [requestPoints, this]

/-- C8. Legacy format equivalence. For every list of vertex lists, the request (in compact
form) with the bare list as its (first) `polygons` member and the request with each polygon
written with its vertices and the temperature `0` are both read, with fuel at least the length
of the text, and to the same result, so the two runs return the same report. When the request
has a `receiver_planes` member and lists a receiver point, the result is success: the emitters
are the vertex lists in order, each with temperature `0` (when no later `polygons` member
follows), and when no member lists an emitter with a temperature, every incident temperature
is `0` and the report shows one `0` per receiver point. -/
theorem legacy_format_equivalence (L : CLib α) (pre post : List (Field α))
    (ps : List (List (Vec3Tok α))) (z : NumTok α) (hz : z.Reads L) (hz0 : z.value = 0)
    (hpre : ∀ f ∈ pre, f.Reads L) (hpost : ∀ f ∈ post, f.Reads L)
    (hps : ∀ vs ∈ ps, PolygonReads L vs) (hfirst : ∀ f ∈ pre, f.isPolygons = false)
    (w0 h0 : α) (fuel fuel' : Nat)
    (hfuel : (renderRequest (pre ++ .polygonsLegacy ps :: post)).length ≤ fuel)
    (hfuel' : (renderRequest
      (pre ++ .polygons (ps.map (fun vs => ⟨vs, z⟩)) :: post)).length ≤ fuel') :
    (∃ r : Except String (JsonInput α),
      parseInputJson L fuel (renderRequest (pre ++ .polygonsLegacy ps :: post))
        (JsonInput.fresh w0 h0) = some r ∧
      parseInputJson L fuel' (renderRequest
        (pre ++ .polygons (ps.map (fun vs => ⟨vs, z⟩)) :: post)) (JsonInput.fresh w0 h0) =
          some r) ∧
    (∀ (M : MathLib α) (R : RandomSource α) (entropy : List Nat), ∃ rep : Report,
      runFromJsonString L M R fuel entropy w0 h0
          (renderRequest (pre ++ .polygonsLegacy ps :: post)) = some rep ∧
      runFromJsonString L M R fuel' entropy w0 h0
          (renderRequest (pre ++ .polygons (ps.map (fun vs => ⟨vs, z⟩)) :: post)) =
        some rep) ∧
    ((∃ f ∈ pre ++ post, f.isReceiverPlanes = true) → requestPoints (pre ++ post) ≠ [] →
      ∃ inp : JsonInput α,
        parseInputJson L fuel (renderRequest (pre ++ .polygonsLegacy ps :: post))
          (JsonInput.fresh w0 h0) = some (.ok inp) ∧
        parseInputJson L fuel' (renderRequest
          (pre ++ .polygons (ps.map (fun vs => ⟨vs, z⟩)) :: post)) (JsonInput.fresh w0 h0) =
            some (.ok inp) ∧
        inp.receiverPoints = (requestPoints (pre ++ post)).map pointValue ∧
        ((∀ f ∈ post, f.isPolygons = false) →
          inp.polygons = ps.map (fun vs => ⟨vs.map vec3Value, 0⟩)) ∧
        ((∀ f ∈ pre ++ post, f.emitterTokens = []) →
          ∀ (M : MathLib α) (R : RandomSource α) (entropy : List Nat),
            pointTemperatures M R entropy inp =
              List.replicate (requestPoints (pre ++ post)).length 0 ∧
            runFromJsonString L M R fuel entropy w0 h0
                (renderRequest (pre ++ .polygonsLegacy ps :: post)) =
              some ⟨true,
                "Plane: " ++ String.mk inp.planeName ++ "\n" ++
                "Width: " ++ L.showFixed6 inp.planeWidth ++ "\n" ++
                "Height: " ++ L.showFixed6 inp.planeHeight ++ "\n" ++
                String.intercalate " "
                  ((List.replicate (requestPoints (pre ++ post)).length (0 : α)).map
                    L.showFixed6) ++ "\n"⟩)) ∧
    ((∀ f ∈ post, f.isPolygons = false) → ∀ inp : JsonInput α,
      parseInputJson L fuel (renderRequest (pre ++ .polygonsLegacy ps :: post))
        (JsonInput.fresh w0 h0) = some (.ok inp) →
      inp.polygons = ps.map (fun vs => ⟨vs.map vec3Value, 0⟩)) ∧
    ((∀ f ∈ pre ++ post, f.emitterTokens = []) → ∀ inp : JsonInput α,
      parseInputJson L fuel (renderRequest (pre ++ .polygonsLegacy ps :: post))
        (JsonInput.fresh w0 h0) = some (.ok inp) →
      ∀ (M : MathLib α) (R : RandomSource α) (entropy : List Nat),
        pointTemperatures M R entropy inp = List.replicate inp.receiverPoints.length 0) := by
  have hleg : ∀ f ∈ pre ++ .polygonsLegacy ps :: post, f.Reads L := by
    intro f hf
    rcases List.mem_append.1 hf with h | h
    · exact hpre f h
    · rcases List.mem_cons.1 h with rfl | h
      · exact hps
      · exact hpost f h
  have hnew : ∀ f ∈ pre ++ .polygons (ps.map (fun vs => ⟨vs, z⟩)) :: post, f.Reads L := by
    intro f hf
    rcases List.mem_append.1 hf with h | h
    · exact hpre f h
    · rcases List.mem_cons.1 h with rfl | h
      · intro e he
        obtain ⟨vs, hvs, rfl⟩ := List.mem_map.1 he
        exact ⟨hps vs hvs, hz⟩
      · exact hpost f h
  have hpreState : (pre.foldl applyField ⟨JsonInput.fresh w0 h0, false, false⟩).out.polygons
      = [] := by
    rw [foldl_applyField_polygons_unchanged pre _ (fun f hf hp => by
      rw [hfirst f hf] at hp; exact absurd hp (by simp))]
    rfl
  have hstate : (pre ++ .polygonsLegacy ps :: post).foldl applyField
        ⟨JsonInput.fresh w0 h0, false, false⟩ =
      (pre ++ .polygons (ps.map (fun vs => ⟨vs, z⟩)) :: post).foldl applyField
        ⟨JsonInput.fresh w0 h0, false, false⟩ := by
    simp only [List.foldl_append, List.foldl_cons, applyField_legacy_eq _ ps z hz0 hpreState]
  have h1 := parseInputJson_render L _ hleg (JsonInput.fresh w0 h0) fuel hfuel
  have h2 := parseInputJson_render L _ hnew (JsonInput.fresh w0 h0) fuel' hfuel'
  have heq : parseInputJson L fuel (renderRequest (pre ++ .polygonsLegacy ps :: post))
        (JsonInput.fresh w0 h0) =
      parseInputJson L fuel' (renderRequest
        (pre ++ .polygons (ps.map (fun vs => ⟨vs, z⟩)) :: post)) (JsonInput.fresh w0 h0) := by
    rw [h1, h2, hstate]
  have hpolys : (∀ f ∈ post, f.isPolygons = false) →
      ((pre ++ .polygonsLegacy ps :: post).foldl applyField
        ⟨JsonInput.fresh w0 h0, false, false⟩).out.polygons =
        ps.map (fun vs => ⟨vs.map vec3Value, 0⟩) := by
    intro hlast
    rw [List.foldl_append, List.foldl_cons,
      foldl_applyField_polygons_unchanged post _ (fun f hf hp => by
        rw [hlast f hf] at hp; exact absurd hp (by simp))]
    cases ps with
    | nil => simp [applyField, hpreState]
    | cons vs tl => simp [applyField]
  have hzero : (∀ f ∈ pre ++ post, f.emitterTokens = []) →
      ∀ p ∈ ((pre ++ .polygonsLegacy ps :: post).foldl applyField
        ⟨JsonInput.fresh w0 h0, false, false⟩).out.polygons, p.temperature = 0 := by
    intro hnone
    apply foldl_applyField_temperature_zero
    · intro f hf
      rcases List.mem_append.1 hf with h | h
      · exact hnone f (List.mem_append_left _ h)
      · rcases List.mem_cons.1 h with rfl | h
        · rfl
        · exact hnone f (List.mem_append_right _ h)
    · intro p hp
      simp [JsonInput.fresh] at hp
  have hout : ∀ inp : JsonInput α,
      parseInputJson L fuel (renderRequest (pre ++ .polygonsLegacy ps :: post))
        (JsonInput.fresh w0 h0) = some (.ok inp) →
      inp = ((pre ++ .polygonsLegacy ps :: post).foldl applyField
        ⟨JsonInput.fresh w0 h0, false, false⟩).out := by
    intro inp hinp
    rw [h1] at hinp
    simp only [validate, Option.some.injEq] at hinp
    split at hinp
    · cases hinp
    · split at hinp
      · cases hinp
      · split at hinp
        · cases hinp
        · cases hinp; rfl
  refine ⟨⟨_, h1, by rw [← heq, h1]⟩, ?_, ?_, ?_, ?_⟩
  · intro M R entropy
    have h2' : parseInputJson L fuel' (renderRequest
        (pre ++ .polygons (ps.map (fun vs => ⟨vs, z⟩)) :: post)) (JsonInput.fresh w0 h0) =
        some (validate ((pre ++ .polygonsLegacy ps :: post).foldl applyField
          ⟨JsonInput.fresh w0 h0, false, false⟩)) := by rw [← heq, h1]
    cases hv : validate ((pre ++ .polygonsLegacy ps :: post).foldl applyField
        ⟨JsonInput.fresh w0 h0, false, false⟩) with
    | error e =>
      exact ⟨⟨false, "\x7b\"error\": \"" ++ e ++ "\"\x7d\n"⟩,
        by simp only [runFromJsonString, h1, hv], by simp only [runFromJsonString, h2', hv]⟩
    | ok inp =>
      exact ⟨⟨true, reportText L inp (pointTemperatures M R entropy inp)⟩,
        by simp only [runFromJsonString, h1, hv], by simp only [runFromJsonString, h2', hv]⟩
  · intro hrp hpts
    obtain ⟨g1, g2, g3⟩ := finalState_facts (pre ++ .polygonsLegacy ps :: post) w0 h0
    have hreq : requestPoints (pre ++ .polygonsLegacy ps :: post) = requestPoints (pre ++ post) :=
      requestPoints_insert_polygons pre post _ rfl
    have a1 : (pre ++ .polygonsLegacy ps :: post).any Field.isReceiverPlanes = true := by
      obtain ⟨f, hf, hf'⟩ := hrp
      refine List.any_eq_true.2 ⟨f, ?_, hf'⟩
      rcases List.mem_append.1 hf with h | h
      · exact List.mem_append_left _ h
      · exact List.mem_append_right _ (List.mem_cons_of_mem _ h)
    have a2 : (pre ++ .polygonsLegacy ps :: post).any Field.isPolygons = true :=
      List.any_eq_true.2 ⟨.polygonsLegacy ps,
        List.mem_append_right _ (List.mem_cons_self _ _), rfl⟩
    have a3 : ((requestPoints (pre ++ post)).map
        (pointValue : PointTok α → ReceiverPoint α)).isEmpty = false := by
      cases hq : requestPoints (pre ++ post) with
      | nil => exact absurd hq hpts
      | cons _ _ => rfl
    have hval : validate ((pre ++ .polygonsLegacy ps :: post).foldl applyField
          ⟨JsonInput.fresh w0 h0, false, false⟩) =
        .ok ((pre ++ .polygonsLegacy ps :: post).foldl applyField
          ⟨JsonInput.fresh w0 h0, false, false⟩).out := by
      simp only [validate, g1, g2, g3, hreq, a1, a2, a3, Bool.not_true, Bool.false_eq_true,
        if_false]
    have hp1 : parseInputJson L fuel (renderRequest (pre ++ .polygonsLegacy ps :: post))
        (JsonInput.fresh w0 h0) = some (.ok ((pre ++ .polygonsLegacy ps :: post).foldl applyField
          ⟨JsonInput.fresh w0 h0, false, false⟩).out) := by rw [h1, hval]
    refine ⟨_, hp1, by rw [← heq, hp1], by rw [g3, hreq], hpolys, ?_⟩
    intro hnone M R entropy
    have ht : pointTemperatures M R entropy
        ((pre ++ .polygonsLegacy ps :: post).foldl applyField
          ⟨JsonInput.fresh w0 h0, false, false⟩).out =
        List.replicate (requestPoints (pre ++ post)).length 0 := by
      rw [pointTemperatures_zero M R entropy _ (hzero hnone), g3, hreq, List.length_map]
    refine ⟨ht, ?_⟩
    simp only [runFromJsonString, hp1, reportText, ht]
  · intro hlast inp hinp
    rw [hout inp hinp]
    exact hpolys hlast
  · intro hnone inp hinp M R entropy
    apply pointTemperatures_zero
    rw [hout inp hinp]
    exact hzero hnone

end ReaderClaims

/-! ## The sample library reads the sample literals -/

section SampleLiterals

open mini_json

theorem digit_not_space (c : Char) (hc : c.isDigit = true) (rest : List Char) :
    skipSpaces (c :: rest) = c :: rest := by
  have h1 : c ≠ ' ' := by rintro rfl; simp at hc
  have h2 : c ≠ '\n' := by rintro rfl; simp at hc
  have h3 : c ≠ '\r' := by rintro rfl; simp at hc
  have h4 : c ≠ '\t' := by rintro rfl; simp at hc
  simp [skipSpaces, h1, h2, h3, h4]

theorem digitsLoop_one (c d : Char) (hc : c.isDigit = true) (rest : List Char)
    (hd : d = ',' ∨ d = ']' ∨ d = '\x7d') :
    digitsLoop (c :: d :: rest) 0 0 = (c.toNat - 48, 1) := by
  rcases hd with rfl | rfl | rfl <;> simp [digitsLoop, hc]

theorem digitTok_reads (c : Char) (hc : c.isDigit = true) : (digitTok c).Reads decLib := by
  refine ⟨fun rest => digit_not_space c hc rest, ?_⟩
  intro d rest hd
  have hm : c ≠ '-' := by rintro rfl; simp at hc
  show decStrtod (c :: d :: rest) = _
  unfold decStrtod
  split
  · rename_i cs heq
    simp only [List.cons.injEq] at heq
    exact absurd heq.1 hm
  · simp [digitsLoop_one c d hc rest hd, digitTok]

theorem digitSeed_reads (c : Char) (hc : c.isDigit = true) : (digitSeed c).Reads decLib := by
  refine ⟨fun rest => digit_not_space c hc rest, ?_⟩
  intro d rest hd
  show digitsLoop (c :: d :: rest) 0 0 = _
  simp [digitsLoop_one c d hc rest hd, digitSeed]

theorem digitVec_reads (a b c : Char) (ha : a.isDigit = true) (hb : b.isDigit = true)
    (hc : c.isDigit = true) : (digitVec a b c).Reads decLib :=
  ⟨digitTok_reads a ha, digitTok_reads b hb, digitTok_reads c hc⟩

theorem samplePlanes_reads : samplePlanes.Reads decLib := by
  intro pl hpl
  simp only [List.mem_singleton] at hpl
  subst hpl
  refine ⟨by decide, ?_⟩
  intro f hf
  simp only [List.mem_cons, List.mem_singleton, List.not_mem_nil, or_false] at hf
  rcases hf with rfl | rfl | rfl
  · exact digitTok_reads '2' (by decide)
  · exact digitTok_reads '1' (by decide)
  · intro p hp
    simp only [List.mem_singleton] at hp
    subst hp
    exact ⟨digitVec_reads '0' '0' '0' (by decide) (by decide) (by decide),
      digitVec_reads '0' '0' '1' (by decide) (by decide) (by decide)⟩

theorem samplePlanesBare_reads : samplePlanesBare.Reads decLib := by
  intro pl hpl
  simp only [List.mem_singleton] at hpl
  subst hpl
  refine ⟨by decide, ?_⟩
  intro f hf
  simp only [List.mem_singleton] at hf
  subst hf
  intro p hp
  simp only [List.mem_singleton] at hp
  subst hp
  exact ⟨digitVec_reads '0' '0' '0' (by decide) (by decide) (by decide),
    digitVec_reads '0' '0' '1' (by decide) (by decide) (by decide)⟩

theorem sampleSquare_reads : PolygonReads decLib sampleSquare := by
  intro v hv
  simp only [sampleSquare, List.mem_cons, List.mem_singleton, List.not_mem_nil, or_false] at hv
  rcases hv with rfl | rfl | rfl | rfl <;>
    exact digitVec_reads _ _ _ (by decide) (by decide) (by decide)

theorem sampleRequest_reads : ∀ f ∈ sampleRequest, f.Reads decLib := by
  intro f hf
  simp only [sampleRequest, List.mem_cons, List.mem_singleton, List.not_mem_nil, or_false] at hf
  rcases hf with rfl | rfl | rfl | rfl
  · exact samplePlanes_reads
  · intro e he
    simp only [List.mem_singleton] at he
    subst he
    exact ⟨sampleSquare_reads, digitTok_reads '7' (by decide)⟩
  · exact digitTok_reads '4' (by decide)
  · exact digitSeed_reads '3' (by decide)

end SampleLiterals

/-! ## Witnesses on the sample request -/

section SampleRuns

open mini_json

set_option maxRecDepth 100000 in
theorem sampleRequest_parse :
    parseInputJson decLib 300 (renderRequest sampleRequest) (JsonInput.fresh 0 0) =
      some (.ok sampleInput) := by
  rw [parseInputJson_render decLib sampleRequest sampleRequest_reads _ 300
    (Nat.le_of_ble_eq_true rfl)]
  rfl

theorem nearSquare_reads : PolygonReads decLib nearSquare := by
  intro v hv
  simp only [nearSquare, List.mem_cons, List.mem_singleton, List.not_mem_nil, or_false] at hv
  rcases hv with rfl | rfl | rfl | rfl <;>
    exact digitVec_reads _ _ _ (by decide) (by decide) (by decide)

theorem twoPointRequest_reads : ∀ f ∈ twoPointRequest, f.Reads decLib := by
  intro f hf
  simp only [twoPointRequest, List.mem_cons, List.mem_singleton, List.not_mem_nil,
    or_false] at hf
  rcases hf with rfl | rfl | rfl | rfl
  · intro pl hpl
    simp only [List.mem_singleton] at hpl
    subst hpl
    refine ⟨by decide, ?_⟩
    intro f hf
    simp only [List.mem_cons, List.mem_singleton, List.not_mem_nil, or_false] at hf
    rcases hf with rfl | rfl | rfl
    · exact digitTok_reads '2' (by decide)
    · exact digitTok_reads '1' (by decide)
    · intro p hp
      simp only [List.mem_cons, List.mem_singleton, List.not_mem_nil, or_false] at hp
      rcases hp with rfl | rfl <;>
        exact ⟨digitVec_reads _ _ _ (by decide) (by decide) (by decide),
          digitVec_reads _ _ _ (by decide) (by decide) (by decide)⟩
  · intro e he
    simp only [List.mem_singleton] at he
    subst he
    exact ⟨nearSquare_reads, digitTok_reads '7' (by decide)⟩
  · exact digitTok_reads '4' (by decide)
  · exact digitSeed_reads '3' (by decide)

set_option maxRecDepth 100000 in
theorem twoPointRequest_parse :
    parseInputJson decLib 300 (renderRequest twoPointRequest) (JsonInput.fresh 0 0) =
      some (.ok twoPointInput) := by
  rw [parseInputJson_render decLib twoPointRequest twoPointRequest_reads _ 300
    (Nat.le_of_ble_eq_true rfl)]
  rfl

/-- The run on `twoPointInput` with the sample libraries: of the four rays of the first point
three reach the emitter, of the four rays of the second point none. -/
theorem twoPointInput_temperatures :
    pointTemperatures ratMath counterSource [] twoPointInput = [21 / 4, 0] := by
  decide!

set_option maxRecDepth 100000 in
/-- Witness of C4: the request
`{"receiver_planes":{"P":{"width":2,"height":1,"points":[{"origin":[0,5,0],"normal":[0,0,1]},`
`{"origin":[0,0,0],"normal":[0,0,1]}]}},"polygons":[{"polygon":[[0,4,1],[1,4,1],[1,5,1],[0,5,1]],`
`"temperature":7}],"num_rays":4,"seed":3}`
is read, and the run returns the four lines with the two temperatures `7 * 3/4` and `0` in the
order of the two points. -/
theorem one_temperature_per_point_witness :
    renderRequest twoPointRequest =
      ("\x7b\"receiver_planes\":\x7b\"P\":\x7b\"width\":2,\"height\":1,\"points\":[" ++
        "\x7b\"origin\":[0,5,0],\"normal\":[0,0,1]\x7d,\x7b\"origin\":[0,0,0],\"normal\":[0,0,1]\x7d]\x7d\x7d," ++
        "\"polygons\":[\x7b\"polygon\":[[0,4,1],[1,4,1],[1,5,1],[0,5,1]],\"temperature\":7\x7d]," ++
        "\"num_rays\":4,\"seed\":3\x7d").toList ∧
    parseInputJson decLib 300 (renderRequest twoPointRequest) (JsonInput.fresh 0 0) =
      some (.ok twoPointInput) ∧
    runFromJsonString decLib ratMath counterSource 300 [] 0 0 (renderRequest twoPointRequest) =
      some ⟨true, "Plane: P\nWidth: 2.000000\nHeight: 1.000000\n5.250000 0.000000\n"⟩ ∧
    pointTemperatures ratMath counterSource [] twoPointInput = [21 / 4, 0] ∧
    twoPointInput.receiverPoints.length = 2 := by
  have h := one_temperature_per_point decLib ratMath counterSource 300 [] 0 0
    (renderRequest twoPointRequest) twoPointInput twoPointRequest_parse
  refine ⟨rfl, twoPointRequest_parse, ?_, twoPointInput_temperatures, rfl⟩
  rw [h.1, twoPointInput_temperatures]
  exact congrArg (fun t => some (Report.mk true t)) (by decide!)

/-- Witness of C6: point `0` of the sample input, seed `3`. -/
theorem per_point_seed_witness :
    sampleInput.seed = some 3 ∧
    sampleInput.receiverPoints[0]? = some ⟨⟨0, 0, 0⟩, ⟨0, 0, 1⟩⟩ ∧
    pointRng counterSource sampleInput.seed (baseRng counterSource sampleInput.seed [1, 2]) 0 =
      counterSource.seed ((3 + 0 * 12345) % 2 ^ 64) ∧
    (pointTemperatures ratMath counterSource [1, 2] sampleInput)[0]? =
      (pointTemperatures ratMath counterSource []
        { sampleInput with
          receiverPoints := [⟨⟨0, 0, 0⟩, ⟨0, 0, 1⟩⟩],
          seed := some ((3 + 0 * 12345) % 2 ^ 64) })[0]? :=
  ⟨rfl, rfl, per_point_seed ratMath counterSource [1, 2] [] sampleInput 3 rfl 0
    ⟨⟨0, 0, 0⟩, ⟨0, 0, 1⟩⟩ rfl⟩

/-- Witness of C7: the occlusion scene's emitter with temperature `1` and with temperature
`2`. -/
theorem temperature_linearity_witness :
    ([⟨sceneEmitter, 1⟩] : List (PolygonWithTemp ℚ)).map (fun poly => poly.vertices) =
      ([⟨sceneEmitter, 2⟩] : List (PolygonWithTemp ℚ)).map (fun poly => poly.vertices) ∧
    calculateViewFactorsWithBlockage ratMath counterSource ⟨0, 0, 0⟩ ⟨0, 0, 1⟩
        [⟨sceneEmitter, 1⟩] [] 4 (0 : Nat) =
      calculateViewFactorsWithBlockage ratMath counterSource ⟨0, 0, 0⟩ ⟨0, 0, 1⟩
        [⟨sceneEmitter, 2⟩] [] 4 (0 : Nat) :=
  ⟨rfl, (temperature_linearity ratMath counterSource ⟨0, 0, 0⟩ ⟨0, 0, 1⟩ [] 4 (0 : Nat)).1
    [⟨sceneEmitter, 1⟩] [⟨sceneEmitter, 2⟩] rfl⟩

theorem noPlanesRequest_reads : ∀ f ∈ noPlanesRequest, f.Reads decLib := by
  intro f hf
  simp only [noPlanesRequest, List.mem_singleton] at hf
  subst hf
  intro e he
  simp only [List.mem_singleton] at he
  subst he
  exact ⟨sampleSquare_reads, digitTok_reads '7' (by decide)⟩

set_option maxRecDepth 100000 in
/-- Witness of C9: a request with a `polygons` member only. -/
theorem structural_errors_witness :
    (∀ f ∈ noPlanesRequest, f.isReceiverPlanes = false) ∧
    ∃ msg : String, msg ≠ "" ∧
      parseInputJson decLib 100 (renderRequest noPlanesRequest) (JsonInput.fresh 0 0) =
        some (.error msg) := by
  have hno : ∀ f ∈ noPlanesRequest, f.isReceiverPlanes = false := by
    intro f hf
    simp only [noPlanesRequest, List.mem_singleton] at hf
    subst hf
    rfl
  obtain ⟨msg, _, h1, h2, _⟩ := structural_errors decLib noPlanesRequest noPlanesRequest_reads
    (Or.inl hno) 0 0 100 (Nat.le_of_ble_eq_true rfl)
  exact ⟨hno, msg, h1, h2⟩

theorem emptyPolygonsRequest_reads : ∀ f ∈ emptyPolygonsRequest, f.Reads decLib := by
  intro f hf
  simp only [emptyPolygonsRequest, List.mem_cons, List.mem_singleton, List.not_mem_nil,
    or_false] at hf
  rcases hf with rfl | rfl
  · exact samplePlanes_reads
  · intro e he
    simp at he

theorem emptyPolygonsRequest_shape :
    (∀ f ∈ emptyPolygonsRequest, f.isPolygons = true →
      f = .polygons [] ∨ f = .polygonsLegacy []) ∧
    (∃ f ∈ emptyPolygonsRequest, f.isPolygons = true) ∧
    (∃ f ∈ emptyPolygonsRequest, f.isReceiverPlanes = true) ∧
    requestPoints emptyPolygonsRequest ≠ [] := by
  refine ⟨?_, ⟨.polygons [], by simp [emptyPolygonsRequest], rfl⟩,
    ⟨samplePlanes, by simp [emptyPolygonsRequest], rfl⟩, List.cons_ne_nil _ _⟩
  intro f hf hp
  simp only [emptyPolygonsRequest, List.mem_cons, List.mem_singleton, List.not_mem_nil,
    or_false] at hf
  rcases hf with rfl | rfl
  · exact absurd hp (by decide)
  · exact Or.inl rfl

set_option maxRecDepth 100000 in
/-- C10, evaluated on a request with an empty list of emitters. The request
`{"receiver_planes":{"P":{"width":2,"height":1,"points":[{"origin":[0,0,0],"normal":[0,0,1]}]}},"polygons":[]}`
is read successfully, with no emitter, and the run returns `ok = true` with a temperature
line, where the claim requires a structural error and no temperatures. The validation at the
end of `parseInputJson` rejects an empty list of receiver points (second part) but tests for
the emitters only that the member was present (third part). -/
theorem empty_polygons_not_rejected :
    (renderRequest emptyPolygonsRequest =
        "\x7b\"receiver_planes\":\x7b\"P\":\x7b\"width\":2,\"height\":1,\"points\":[\x7b\"origin\":[0,0,0],\"normal\":[0,0,1]\x7d]\x7d\x7d,\"polygons\":[]\x7d".toList ∧
      parseInputJson decLib 150 (renderRequest emptyPolygonsRequest) (JsonInput.fresh 0 0) =
        some (.ok ⟨[⟨⟨0, 0, 0⟩, ⟨0, 0, 1⟩⟩], [], [], 100000, none, ['P'], 2, 1⟩) ∧
      runFromJsonString decLib ratMath counterSource 150 [] 0 0
          (renderRequest emptyPolygonsRequest) =
        some ⟨true, "Plane: P\nWidth: 2.000000\nHeight: 1.000000\n0.000000\n"⟩) ∧
    validate (⟨⟨[], [], [], 100000, none, ['P'], 2, 1⟩, true, true⟩ : MainState ℚ) =
      .error "receiver_planes is empty" ∧
    validate (⟨⟨[⟨⟨0, 0, 0⟩, ⟨0, 0, 1⟩⟩], [], [], 100000, none, ['P'], 2, 1⟩, true, true⟩ :
        MainState ℚ) =
      .ok ⟨[⟨⟨0, 0, 0⟩, ⟨0, 0, 1⟩⟩], [], [], 100000, none, ['P'], 2, 1⟩ := by
  obtain ⟨h1, h2, h3, h4⟩ := emptyPolygonsRequest_shape
  obtain ⟨hp, _, _, hrun⟩ := run_without_emitters decLib emptyPolygonsRequest
    emptyPolygonsRequest_reads h1 h2 h3 h4 0 0 150 (Nat.le_of_ble_eq_true rfl)
  refine ⟨⟨rfl, ?_, ?_⟩, rfl, rfl⟩
  · rw [hp]; rfl
  · rw [(hrun ratMath counterSource []).2]; rfl

set_option maxRecDepth 100000 in
/-- The request `emptyPolygonsRequest` meets the conditions of `empty_polygons_accepted`. -/
theorem empty_polygons_accepted_sample :
    (∃ f ∈ emptyPolygonsRequest, f.isPolygons = true) ∧
    ∃ inp : JsonInput ℚ,
      parseInputJson decLib 150 (renderRequest emptyPolygonsRequest) (JsonInput.fresh 0 0) =
        some (.ok inp) ∧ inp.polygons = [] := by
  obtain ⟨h1, h2, h3, h4⟩ := emptyPolygonsRequest_shape
  obtain ⟨inp, hp, hpol, _⟩ := empty_polygons_accepted decLib emptyPolygonsRequest
    emptyPolygonsRequest_reads h1 h2 h3 h4 0 0 150 (Nat.le_of_ble_eq_true rfl)
  exact ⟨h2, inp, hp, hpol⟩

theorem unsizedRequest_reads : ∀ f ∈ unsizedRequest, f.Reads decLib := by
  intro f hf
  simp only [unsizedRequest, List.mem_cons, List.mem_singleton, List.not_mem_nil,
    or_false] at hf
  rcases hf with rfl | rfl | rfl | rfl
  · exact samplePlanesBare_reads
  · intro vs hvs
    simp only [List.mem_singleton] at hvs
    subst hvs
    exact sampleSquare_reads
  · exact digitTok_reads '4' (by decide)
  · exact digitSeed_reads '3' (by decide)

set_option maxRecDepth 100000 in
theorem unsizedRequest_parse (w0 h0 : ℚ) :
    parseInputJson decLib 200 (renderRequest unsizedRequest) (JsonInput.fresh w0 h0) =
      some (.ok ⟨[⟨⟨0, 0, 0⟩, ⟨0, 0, 1⟩⟩],
        [⟨[⟨0, 0, 5⟩, ⟨1, 0, 5⟩, ⟨1, 1, 5⟩, ⟨0, 1, 5⟩], 0⟩], [], 4, some 3, ['P'], w0, h0⟩) := by
  rw [parseInputJson_render decLib unsizedRequest unsizedRequest_reads _ 200
    (Nat.le_of_ble_eq_true rfl)]
  rfl

theorem unsizedRequest_run (w0 h0 : ℚ) :
    runFromJsonString decLib ratMath counterSource 200 [] w0 h0
        (renderRequest unsizedRequest) =
      some ⟨true, reportText decLib
        ⟨[⟨⟨0, 0, 0⟩, ⟨0, 0, 1⟩⟩], [⟨[⟨0, 0, 5⟩, ⟨1, 0, 5⟩, ⟨1, 1, 5⟩, ⟨0, 1, 5⟩], 0⟩], [], 4,
          some 3, ['P'], w0, h0⟩ [0]⟩ := by
  simp only [runFromJsonString, unsizedRequest_parse w0 h0]
  rw [pointTemperatures_zero ratMath counterSource [] _ (by
    intro p hp
    simp only [List.mem_singleton] at hp
    subst hp
    rfl)]
  rfl

set_option maxRecDepth 100000 in
/-- C5, evaluated on a request whose plane gives no size. The request
`{"receiver_planes":{"P":{"points":[{"origin":[0,0,0],"normal":[0,0,1]}]}},`
`"polygons":[[[0,0,5],[1,0,5],[1,1,5],[0,1,5]]],"num_rays":4,"seed":3}`
supplies a seed and is read successfully, and the text returned for it shows what the
uninitialised members `planeWidth` and `planeHeight` held: two runs on this same text that start
from different contents of these members return different texts. -/
theorem seeded_output_shows_uninitialised_plane_size :
    renderRequest unsizedRequest =
      ("\x7b\"receiver_planes\":\x7b\"P\":\x7b\"points\":[\x7b\"origin\":[0,0,0],\"normal\":[0,0,1]\x7d]\x7d\x7d," ++
        "\"polygons\":[[[0,0,5],[1,0,5],[1,1,5],[0,1,5]]],\"num_rays\":4,\"seed\":3\x7d").toList ∧
    parseInputJson decLib 200 (renderRequest unsizedRequest) (JsonInput.fresh 0 0) =
      some (.ok ⟨[⟨⟨0, 0, 0⟩, ⟨0, 0, 1⟩⟩],
        [⟨[⟨0, 0, 5⟩, ⟨1, 0, 5⟩, ⟨1, 1, 5⟩, ⟨0, 1, 5⟩], 0⟩], [], 4, some 3, ['P'], 0, 0⟩) ∧
    runFromJsonString decLib ratMath counterSource 200 [] 0 0 (renderRequest unsizedRequest) =
      some ⟨true, "Plane: P\nWidth: 0.000000\nHeight: 0.000000\n0.000000\n"⟩ ∧
    runFromJsonString decLib ratMath counterSource 200 [] 1 1 (renderRequest unsizedRequest) =
      some ⟨true, "Plane: P\nWidth: 1.000000\nHeight: 1.000000\n0.000000\n"⟩ := by
  refine ⟨rfl, unsizedRequest_parse 0 0, ?_, ?_⟩
  · rw [unsizedRequest_run]; rfl
  · rw [unsizedRequest_run]; rfl

theorem legacyRequest_reads : ∀ f ∈ legacyRequest, f.Reads decLib := by
  intro f hf
  simp only [legacyRequest, List.singleton_append, List.mem_cons, List.mem_singleton,
    List.not_mem_nil, or_false] at hf
  rcases hf with rfl | rfl | rfl | rfl
  · exact samplePlanes_reads
  · intro vs hvs
    simp only [List.mem_singleton] at hvs
    subst hvs
    exact sampleSquare_reads
  · exact digitTok_reads '4' (by decide)
  · exact digitSeed_reads '3' (by decide)

set_option maxRecDepth 100000 in
theorem legacyRequest_parse :
    parseInputJson decLib 300 (renderRequest legacyRequest) (JsonInput.fresh 0 0) =
      some (.ok legacyInput) := by
  rw [parseInputJson_render decLib legacyRequest legacyRequest_reads _ 300
    (Nat.le_of_ble_eq_true rfl)]
  rfl

set_option maxRecDepth 100000 in
/-- Witness of C8: the legacy request
`{"receiver_planes":{"P":{"width":2,"height":1,"points":[{"origin":[0,0,0],"normal":[0,0,1]}]}},`
`"polygons":[[[0,0,5],[1,0,5],[1,1,5],[0,1,5]]],"num_rays":4,"seed":3}`
and the request with `"polygons":[{"polygon":[[0,0,5],[1,0,5],[1,1,5],[0,1,5]],"temperature":0}]`
in its place are both read to the same input, with the square as an emitter of temperature `0`,
and both runs return the report with the temperature `0.000000`. -/
theorem legacy_format_equivalence_witness :
    (digitTok '0').value = 0 ∧
    renderRequest legacyRequest =
      ("\x7b\"receiver_planes\":\x7b\"P\":\x7b\"width\":2,\"height\":1,\"points\":[\x7b\"origin\":[0,0,0],\"normal\":[0,0,1]\x7d]\x7d\x7d," ++
        "\"polygons\":[[[0,0,5],[1,0,5],[1,1,5],[0,1,5]]],\"num_rays\":4,\"seed\":3\x7d").toList ∧
    renderRequest zeroTemperatureRequest =
      ("\x7b\"receiver_planes\":\x7b\"P\":\x7b\"width\":2,\"height\":1,\"points\":[\x7b\"origin\":[0,0,0],\"normal\":[0,0,1]\x7d]\x7d\x7d," ++
        "\"polygons\":[\x7b\"polygon\":[[0,0,5],[1,0,5],[1,1,5],[0,1,5]],\"temperature\":0\x7d]," ++
        "\"num_rays\":4,\"seed\":3\x7d").toList ∧
    parseInputJson decLib 300 (renderRequest legacyRequest) (JsonInput.fresh 0 0) =
      some (.ok legacyInput) ∧
    parseInputJson decLib 300 (renderRequest zeroTemperatureRequest) (JsonInput.fresh 0 0) =
      some (.ok legacyInput) ∧
    runFromJsonString decLib ratMath counterSource 300 [] 0 0 (renderRequest legacyRequest) =
      some ⟨true, "Plane: P\nWidth: 2.000000\nHeight: 1.000000\n0.000000\n"⟩ ∧
    runFromJsonString decLib ratMath counterSource 300 [] 0 0
        (renderRequest zeroTemperatureRequest) =
      some ⟨true, "Plane: P\nWidth: 2.000000\nHeight: 1.000000\n0.000000\n"⟩ := by
  have hz0 : (digitTok '0').value = 0 := by simp [digitTok]
  have h := legacy_format_equivalence decLib [samplePlanes]
    [.numRays (digitTok '4'), .seed (digitSeed '3')] [sampleSquare] (digitTok '0')
    (digitTok_reads '0' (by decide)) hz0
    (by
      intro f hf
      simp only [List.mem_singleton] at hf
      subst hf
      exact samplePlanes_reads)
    (by
      intro f hf
      simp only [List.mem_cons, List.mem_singleton, List.not_mem_nil, or_false] at hf
      rcases hf with rfl | rfl
      · exact digitTok_reads '4' (by decide)
      · exact digitSeed_reads '3' (by decide))
    (by
      intro vs hvs
      simp only [List.mem_singleton] at hvs
      subst hvs
      exact sampleSquare_reads)
    (by
      intro f hf
      simp only [List.mem_singleton] at hf
      subst hf
      rfl)
    0 0 300 300 (Nat.le_of_ble_eq_true rfl) (Nat.le_of_ble_eq_true rfl)
  obtain ⟨inp, hp1, hp2, hpts, hpol, hrun⟩ := h.2.2.1
    ⟨samplePlanes, by simp, rfl⟩ (List.cons_ne_nil _ _)
  have hinp : inp = legacyInput := by
    have := hp1.symm.trans legacyRequest_parse
    simpa using this
  subst hinp
  obtain ⟨rep, hr1, hr2⟩ := h.2.1 ratMath counterSource []
  have hrun' := (hrun (by
    intro f hf
    simp only [List.singleton_append, List.mem_cons, List.mem_singleton, List.not_mem_nil,
      or_false] at hf
    rcases hf with rfl | rfl | rfl <;> rfl) ratMath counterSource []).2
  have htext : runFromJsonString decLib ratMath counterSource 300 [] 0 0
      (renderRequest legacyRequest) =
      some ⟨true, "Plane: P\nWidth: 2.000000\nHeight: 1.000000\n0.000000\n"⟩ :=
    hrun'.trans rfl
  refine ⟨hz0, rfl, rfl, hp1, hp2, htext, ?_⟩
  exact hr2.trans (hr1.symm.trans htext)

end SampleRuns

theorem ratMath_sqrt_le_one (x : ℚ) (hx : x ≤ 1) : ratMath.sqrt x ≤ 1 := by
  show Rat.sqrt x ≤ 1
  unfold Rat.sqrt
  rw [Rat.mkRat_eq_div]
  have hden : 0 < x.den := x.den_pos
  have hsd : 0 < Nat.sqrt x.den := Nat.sqrt_pos.2 hden
  have hnum : x.num ≤ x.den := by
    have := Rat.num_div_den x
    rw [← this, div_le_one (by exact_mod_cast hden)] at hx
    exact_mod_cast hx
  have hle : Int.sqrt x.num ≤ (Nat.sqrt x.den : Int) := by
    unfold Int.sqrt
    exact_mod_cast Nat.sqrt_le_sqrt (by omega)
  rw [div_le_one (by exact_mod_cast hsd)]
  exact_mod_cast hle

theorem ratMath_sqrt_one : ratMath.sqrt 1 = 1 := by
  show Rat.sqrt 1 = 1
  simp

theorem ratMath_sqrt_sixteen : ratMath.sqrt 16 = 4 := by
  show Rat.sqrt 16 = 4
  have h := Rat.sqrt_eq 4
  rwa [show (4 : ℚ) * 4 = 16 by norm_num, abs_of_pos (by norm_num)] at h

theorem counterSource_draw_nonneg (g : Nat) : 0 ≤ (counterSource.uniform g).1 := by
  show (0 : ℚ) ≤ ((g % 16 : Nat) : ℚ) / 16
  positivity

/-- Witness of C2: the occlusion scene, sampled with four rays of the counter generator. -/
theorem full_occlusion_witness :
    (0 < ([⟨sceneEmitter, 100⟩] : List (PolygonWithTemp ℚ)).length ∧
      ([⟨sceneEmitter, 100⟩] : List (PolygonWithTemp ℚ)).length ≤ 2 ^ 31 ∧
      (calculateViewFactorsWithBlockage ratMath counterSource ⟨0, 0, 0⟩ ⟨0, 0, 1⟩
        [⟨sceneEmitter, 100⟩] [sceneInert] 4 (0 : Nat)).1.viewFactors[0]? = some 0) ∧
    (ratMath.sqrt 1 = 1 ∧ ratMath.sqrt 16 = 4 ∧
      (calculateViewFactorsWithBlockage ratMath counterSource ⟨0, 0, 0⟩ ⟨0, 0, 1⟩
        [⟨sceneEmitter, 100⟩] [sceneInert] 4 (0 : Nat)).1.viewFactors = [0]) :=
  ⟨⟨by simp, by norm_num,
    (full_occlusion ratMath counterSource).1 ⟨0, 0, 0⟩ ⟨0, 0, 1⟩ [⟨sceneEmitter, 100⟩]
      [sceneInert] 4 (0 : Nat) 0 (by simp) (by norm_num)
      (scene_occluded ratMath counterSource ratMath_sqrt_one ratMath_sqrt_sixteen
        ratMath_sqrt_le_one counterSource_draw_nonneg 100 4 (0 : Nat))⟩,
    ratMath_sqrt_one, ratMath_sqrt_sixteen,
    (full_occlusion ratMath counterSource).2 ratMath_sqrt_one ratMath_sqrt_sixteen
      ratMath_sqrt_le_one counterSource_draw_nonneg 100 4 (0 : Nat)⟩

theorem ratMath_sqrt_zero : ratMath.sqrt 0 = 0 := by
  show Rat.sqrt 0 = 0
  simp

/-- Witness of C3: the collinear triple `(0,0,0), (1,1,1), (2,2,2)` added to the occlusion
scene, as a blocker and as an emitter. -/
theorem degenerate_polygon_tolerance_witness :
    cross ((⟨1, 1, 1⟩ : Vec3 ℚ).sub ⟨0, 0, 0⟩) ((⟨2, 2, 2⟩ : Vec3 ℚ).sub ⟨0, 0, 0⟩) = ⟨0, 0, 0⟩ ∧
    (([⟨sceneEmitter, 100⟩] : List (PolygonWithTemp ℚ)) ++
      (⟨[⟨0, 0, 0⟩, ⟨1, 1, 1⟩, ⟨2, 2, 2⟩], 7⟩ : PolygonWithTemp ℚ) :: []).length ≤ 2 ^ 31 ∧
    calculateViewFactorsWithBlockage ratMath counterSource ⟨0, 0, 0⟩ ⟨0, 0, 1⟩
        [⟨sceneEmitter, 100⟩] ([sceneInert] ++ [⟨0, 0, 0⟩, ⟨1, 1, 1⟩, ⟨2, 2, 2⟩] :: []) 4 (0 : Nat) =
      calculateViewFactorsWithBlockage ratMath counterSource ⟨0, 0, 0⟩ ⟨0, 0, 1⟩
        [⟨sceneEmitter, 100⟩] ([sceneInert] ++ []) 4 (0 : Nat) ∧
    (calculateViewFactorsWithBlockage ratMath counterSource ⟨0, 0, 0⟩ ⟨0, 0, 1⟩
        ([⟨sceneEmitter, 100⟩] ++ ⟨[⟨0, 0, 0⟩, ⟨1, 1, 1⟩, ⟨2, 2, 2⟩], 7⟩ :: []) [] 4
        (0 : Nat)).1.viewFactors =
      (calculateViewFactorsWithBlockage ratMath counterSource ⟨0, 0, 0⟩ ⟨0, 0, 1⟩
        ([⟨sceneEmitter, 100⟩] ++ []) [] 4 (0 : Nat)).1.viewFactors.take 1 ++
      0 :: (calculateViewFactorsWithBlockage ratMath counterSource ⟨0, 0, 0⟩ ⟨0, 0, 1⟩
        ([⟨sceneEmitter, 100⟩] ++ []) [] 4 (0 : Nat)).1.viewFactors.drop 1 := by
  have hc : cross ((⟨1, 1, 1⟩ : Vec3 ℚ).sub ⟨0, 0, 0⟩) ((⟨2, 2, 2⟩ : Vec3 ℚ).sub ⟨0, 0, 0⟩)
      = ⟨0, 0, 0⟩ := by
    simp only [cross, Vec3.sub]; norm_num
  have h := degenerate_polygon_tolerance ratMath counterSource
    [⟨0, 0, 0⟩, ⟨1, 1, 1⟩, ⟨2, 2, 2⟩]
    (Or.inr ⟨ratMath_sqrt_zero, ⟨0, 0, 0⟩, ⟨1, 1, 1⟩, ⟨2, 2, 2⟩, [], rfl, hc⟩)
    ⟨0, 0, 0⟩ ⟨0, 0, 1⟩ 4 (0 : Nat)
  exact ⟨hc, by norm_num, h.1 [⟨sceneEmitter, 100⟩] [sceneInert] [],
    h.2 [⟨sceneEmitter, 100⟩] [] [] 7 (by norm_num)⟩

/-! ## Ray and plane -/

section PlaneHits

variable {α : Type} [LinearOrderedField α]

/-- C16, as amended. With `denom = dot(planeNormal, rayDir)` and
`t = -dot(planeNormal, rayOrigin - pointOnPlane) / denom`, `rayPlaneIntersect` returns a hit
exactly when `|denom| >= 1e-9` and `t >= 1e-7`; the hit is the point `rayOrigin + rayDir * t`
together with `t`, and in every other case the result is no point and `+infinity`. -/
theorem rayPlaneIntersect_hit_iff (rayOrigin rayDir planeNormal pointOnPlane : Vec3 α) :
    ((rayPlaneIntersect rayOrigin rayDir planeNormal pointOnPlane).1.isSome = true ↔
      (1 / 10 ^ 9 ≤ |dot planeNormal rayDir| ∧
        1 / 10 ^ 7 ≤ -(dot planeNormal (rayOrigin.sub pointOnPlane)) / dot planeNormal rayDir)) ∧
    ((1 / 10 ^ 9 ≤ |dot planeNormal rayDir| ∧
        1 / 10 ^ 7 ≤ -(dot planeNormal (rayOrigin.sub pointOnPlane)) / dot planeNormal rayDir) →
      rayPlaneIntersect rayOrigin rayDir planeNormal pointOnPlane =
        (some (rayOrigin.add (rayDir.scale
          (-(dot planeNormal (rayOrigin.sub pointOnPlane)) / dot planeNormal rayDir))),
         ((-(dot planeNormal (rayOrigin.sub pointOnPlane)) / dot planeNormal rayDir : α) :
           WithTop α))) ∧
    (¬ (1 / 10 ^ 9 ≤ |dot planeNormal rayDir| ∧
        1 / 10 ^ 7 ≤ -(dot planeNormal (rayOrigin.sub pointOnPlane)) / dot planeNormal rayDir) →
      rayPlaneIntersect rayOrigin rayDir planeNormal pointOnPlane = (none, ⊤)) := by
  unfold rayPlaneIntersect
  dsimp only
  by_cases h1 : |dot planeNormal rayDir| < 1 / 10 ^ 9
  · rw [if_pos h1]
    refine ⟨⟨fun h => absurd h (by simp), fun h => absurd h1 (not_lt.2 h.1)⟩,
      fun h => absurd h1 (not_lt.2 h.1), fun _ => rfl⟩
  · rw [if_neg h1]
    by_cases h2 : -(dot planeNormal (rayOrigin.sub pointOnPlane)) / dot planeNormal rayDir
        < 1 / 10 ^ 7
    · rw [if_pos h2]
      refine ⟨⟨fun h => absurd h (by simp), fun h => absurd h2 (not_lt.2 h.2)⟩,
        fun h => absurd h2 (not_lt.2 h.2), fun _ => rfl⟩
    · rw [if_neg h2]
      refine ⟨⟨fun _ => ⟨not_lt.1 h1, not_lt.1 h2⟩, fun _ => rfl⟩, fun _ => rfl,
        fun h => absurd ⟨not_lt.1 h1, not_lt.1 h2⟩ h⟩

/-- Counterexample to C16 as stated: the ray from the origin along `(0,0,1)` meets the plane
through `(0,0,1e-7)` with normal `(0,0,1)` at `t = 1e-7`, which is not greater than `1e-7`, and
`rayPlaneIntersect` returns the hit. -/
theorem rayPlaneIntersect_hit_at_threshold :
    rayPlaneIntersect (⟨0, 0, 0⟩ : Vec3 ℚ) ⟨0, 0, 1⟩ ⟨0, 0, 1⟩ ⟨0, 0, 1 / 10 ^ 7⟩ =
      (some ⟨0, 0, 1 / 10 ^ 7⟩, ((1 / 10 ^ 7 : ℚ) : WithTop ℚ)) ∧
    ¬ (-(dot (⟨0, 0, 1⟩ : Vec3 ℚ) ((⟨0, 0, 0⟩ : Vec3 ℚ).sub ⟨0, 0, 1 / 10 ^ 7⟩)) /
        dot (⟨0, 0, 1⟩ : Vec3 ℚ) ⟨0, 0, 1⟩ > 1 / 10 ^ 7) := by
  constructor
  · simp only [rayPlaneIntersect, dot, Vec3.sub, Vec3.add, Vec3.scale]
    norm_num
  · simp only [dot, Vec3.sub]
    norm_num

/-- Witness of C16 as amended: the ray at the threshold. -/
theorem rayPlaneIntersect_hit_iff_witness :
    (1 / 10 ^ 9 ≤ |dot (⟨0, 0, 1⟩ : Vec3 ℚ) ⟨0, 0, 1⟩| ∧
      1 / 10 ^ 7 ≤ -(dot (⟨0, 0, 1⟩ : Vec3 ℚ) ((⟨0, 0, 0⟩ : Vec3 ℚ).sub ⟨0, 0, 1 / 10 ^ 7⟩)) /
        dot (⟨0, 0, 1⟩ : Vec3 ℚ) ⟨0, 0, 1⟩) ∧
    (rayPlaneIntersect (⟨0, 0, 0⟩ : Vec3 ℚ) ⟨0, 0, 1⟩ ⟨0, 0, 1⟩ ⟨0, 0, 1 / 10 ^ 7⟩).1.isSome
      = true := by
  have h : 1 / 10 ^ 9 ≤ |dot (⟨0, 0, 1⟩ : Vec3 ℚ) ⟨0, 0, 1⟩| ∧
      1 / 10 ^ 7 ≤ -(dot (⟨0, 0, 1⟩ : Vec3 ℚ) ((⟨0, 0, 0⟩ : Vec3 ℚ).sub ⟨0, 0, 1 / 10 ^ 7⟩)) /
        dot (⟨0, 0, 1⟩ : Vec3 ℚ) ⟨0, 0, 1⟩ := by
    simp only [dot, Vec3.sub]
    norm_num
  exact ⟨h, (rayPlaneIntersect_hit_iff (⟨0, 0, 0⟩ : Vec3 ℚ) ⟨0, 0, 1⟩ ⟨0, 0, 1⟩
    ⟨0, 0, 1 / 10 ^ 7⟩).1.2 h⟩

end PlaneHits

/-! ## Normalisation and polygon planes -/

section Geometry

variable {α : Type} [LinearOrderedField α]

theorem dot_divide_self (v : Vec3 α) (s : α) (hs : s ≠ 0) (hsq : s * s = dot v v) :
    dot (v.divide s) (v.divide s) = 1 := by
  have h : dot (v.divide s) (v.divide s) = dot v v / (s * s) := by
    simp only [dot, Vec3.divide]
    field_simp
  rw [h, hsq]
  have : dot v v ≠ 0 := by rw [← hsq]; exact mul_ne_zero hs hs
  exact div_self this

theorem dot_cross_left (a b : Vec3 α) : dot (cross a b) a = 0 := by
  simp only [dot, cross]; ring

theorem dot_cross_right (a b : Vec3 α) : dot (cross a b) b = 0 := by
  simp only [dot, cross]; ring

theorem dot_divide_left (v w : Vec3 α) (s : α) : dot (v.divide s) w = dot v w / s := by
  simp only [dot, Vec3.divide]
  ring

theorem normalize_of_gt (M : MathLib α) (v : Vec3 α) (h : ¬ length M v ≤ 1 / 10 ^ 12) :
    normalize M v = v.divide (length M v) := by
  simp only [normalize, h, if_false]

theorem normalize_of_le (M : MathLib α) (v : Vec3 α) (h : length M v ≤ 1 / 10 ^ 12) :
    normalize M v = ⟨0, 0, 0⟩ := by
  simp only [normalize, h, if_true]

theorem length_pos_of_gt (M : MathLib α) (v : Vec3 α) (h : ¬ length M v ≤ 1 / 10 ^ 12) :
    0 < length M v :=
  lt_trans (by norm_num) (not_le.1 h)

/-- The vector `v / length(v)` has length `1` when the square root is exact at `dot(v, v)` and
at `1`. -/
theorem length_divide_length (M : MathLib α) (v : Vec3 α) (hne : length M v ≠ 0)
    (hsq : M.sqrt (dot v v) * M.sqrt (dot v v) = dot v v) (h1 : M.sqrt 1 = 1) :
    length M (v.divide (length M v)) = 1 := by
  have := dot_divide_self v (length M v) hne hsq
  simp only [length] at this ⊢
  rw [this, h1]

theorem normalize_zero (M : MathLib α) : normalize M (⟨0, 0, 0⟩ : Vec3 α) = ⟨0, 0, 0⟩ := by
  simp only [normalize, Vec3.divide, zero_div, ite_self]

/-- C18. For every vector `v`, `normalize(v)` is the zero vector when `length(v) <= 1e-12` and
is `v / length(v)` otherwise, in which case the divisor is not zero and the result has length
exactly `1`; normalising twice is normalising once. Exact arithmetic enters through the library
square root: it is exact at `dot(v, v)` and at `1`. -/
theorem normalize_spec (M : MathLib α) (v : Vec3 α)
    (hsq : M.sqrt (dot v v) * M.sqrt (dot v v) = dot v v) (h1 : M.sqrt 1 = 1) :
    (length M v ≤ 1 / 10 ^ 12 → normalize M v = ⟨0, 0, 0⟩) ∧
    (¬ length M v ≤ 1 / 10 ^ 12 →
      normalize M v = v.divide (length M v) ∧ length M v ≠ 0 ∧
      length M (normalize M v) = 1) ∧
    normalize M (normalize M v) = normalize M v := by
  refine ⟨normalize_of_le M v, fun h => ?_, ?_⟩
  · have hne : length M v ≠ 0 := (length_pos_of_gt M v h).ne'
    refine ⟨normalize_of_gt M v h, hne, ?_⟩
    rw [normalize_of_gt M v h]
    exact length_divide_length M v hne hsq h1
  · by_cases h : length M v ≤ 1 / 10 ^ 12
    · rw [normalize_of_le M v h, normalize_zero]
    · have hne : length M v ≠ 0 := (length_pos_of_gt M v h).ne'
      have hl := length_divide_length M v hne hsq h1
      rw [normalize_of_gt M v h]
      have h' : ¬ length M (v.divide (length M v)) ≤ 1 / 10 ^ 12 := by
        rw [hl]; norm_num
      rw [normalize_of_gt M _ h', hl]
      simp only [Vec3.divide, div_one]

/-- C17. `getPolygonPlane` returns no plane exactly when the list has fewer than three vertices
or the cross product of the first two edges has a length below `1e-9`; otherwise it returns the
plane through `vertex[0]` whose normal is `normalize` of that cross product, a vector orthogonal
to both edges and, the library square root being exact at the squared length of the cross
product and at `1`, of length `1`. -/
theorem getPolygonPlane_spec (M : MathLib α) (verts : List (Vec3 α)) :
    (getPolygonPlane M verts = none ↔
      verts.length < 3 ∨ ∃ v0 v1 v2 rest, verts = v0 :: v1 :: v2 :: rest ∧
        length M (cross (v1.sub v0) (v2.sub v0)) < 1 / 10 ^ 9) ∧
    ∀ v0 v1 v2 rest, verts = v0 :: v1 :: v2 :: rest →
      ¬ length M (cross (v1.sub v0) (v2.sub v0)) < 1 / 10 ^ 9 →
      ∃ pl, getPolygonPlane M verts = some pl ∧ pl.point = v0 ∧
        pl.normal = normalize M (cross (v1.sub v0) (v2.sub v0)) ∧
        dot pl.normal (v1.sub v0) = 0 ∧ dot pl.normal (v2.sub v0) = 0 ∧
        (M.sqrt (dot (cross (v1.sub v0) (v2.sub v0)) (cross (v1.sub v0) (v2.sub v0))) *
            M.sqrt (dot (cross (v1.sub v0) (v2.sub v0)) (cross (v1.sub v0) (v2.sub v0))) =
            dot (cross (v1.sub v0) (v2.sub v0)) (cross (v1.sub v0) (v2.sub v0)) →
          M.sqrt 1 = 1 → length M pl.normal = 1) := by
  constructor
  · match verts with
    | [] => simp [getPolygonPlane]
    | [_] => simp [getPolygonPlane]
    | [_, _] => simp [getPolygonPlane]
    | v0 :: v1 :: v2 :: rest =>
      simp only [getPolygonPlane]
      constructor
      · intro h
        right
        refine ⟨v0, v1, v2, rest, rfl, ?_⟩
        by_contra hc
        rw [if_neg hc] at h
        exact absurd h (by simp)
      · rintro (h | ⟨a, b, c, r, he, hlt⟩)
        · simp only [List.length_cons] at h
          omega
        · simp only [List.cons.injEq] at he
          obtain ⟨rfl, rfl, rfl, rfl⟩ := he
          rw [if_pos hlt]
  · intro v0 v1 v2 rest hv hlt
    subst hv
    have hgt : ¬ length M (cross (v1.sub v0) (v2.sub v0)) ≤ 1 / 10 ^ 12 := by
      intro hle
      exact hlt (lt_of_le_of_lt hle (by norm_num))
    have hne : length M (cross (v1.sub v0) (v2.sub v0)) ≠ 0 :=
      (length_pos_of_gt M _ hgt).ne'
    refine ⟨⟨(cross (v1.sub v0) (v2.sub v0)).divide (length M (cross (v1.sub v0) (v2.sub v0))),
      v0⟩, ?_, rfl, ?_, ?_, ?_, ?_⟩
    · simp only [getPolygonPlane, hlt, if_false]
    · exact (normalize_of_gt M _ hgt).symm
    · rw [dot_divide_left, dot_cross_left, zero_div]
    · rw [dot_divide_left, dot_cross_right, zero_div]
    · intro hsq h1
      exact length_divide_length M _ hne hsq h1

end Geometry

theorem ratMath_length_four : length ratMath (⟨0, 0, 4⟩ : Vec3 ℚ) = 4 := by
  have hd : dot (⟨0, 0, 4⟩ : Vec3 ℚ) ⟨0, 0, 4⟩ = 16 := by
    simp only [dot]; norm_num
  simp only [length, hd, ratMath_sqrt_sixteen]

/-- Witness of C18: the vector `(0,0,4)`, of length `4`. -/
theorem normalize_spec_witness :
    ratMath.sqrt (dot (⟨0, 0, 4⟩ : Vec3 ℚ) ⟨0, 0, 4⟩) *
        ratMath.sqrt (dot (⟨0, 0, 4⟩ : Vec3 ℚ) ⟨0, 0, 4⟩) = dot (⟨0, 0, 4⟩ : Vec3 ℚ) ⟨0, 0, 4⟩ ∧
    ¬ length ratMath (⟨0, 0, 4⟩ : Vec3 ℚ) ≤ 1 / 10 ^ 12 ∧
    length ratMath (normalize ratMath (⟨0, 0, 4⟩ : Vec3 ℚ)) = 1 := by
  have hd : dot (⟨0, 0, 4⟩ : Vec3 ℚ) ⟨0, 0, 4⟩ = 16 := by
    simp only [dot]; norm_num
  have hsq : ratMath.sqrt (dot (⟨0, 0, 4⟩ : Vec3 ℚ) ⟨0, 0, 4⟩) *
      ratMath.sqrt (dot (⟨0, 0, 4⟩ : Vec3 ℚ) ⟨0, 0, 4⟩) = dot (⟨0, 0, 4⟩ : Vec3 ℚ) ⟨0, 0, 4⟩ := by
    rw [hd, ratMath_sqrt_sixteen]; norm_num
  have hgt : ¬ length ratMath (⟨0, 0, 4⟩ : Vec3 ℚ) ≤ 1 / 10 ^ 12 := by
    rw [ratMath_length_four]; norm_num
  exact ⟨hsq, hgt,
    ((normalize_spec ratMath (⟨0, 0, 4⟩ : Vec3 ℚ) hsq ratMath_sqrt_one).2.1 hgt).2.2⟩

/-- Witness of C17: the inert square of the occlusion scene, whose first two edges have the
cross product `(0,0,4)`. -/
theorem getPolygonPlane_spec_witness :
    ¬ length ratMath (cross ((⟨1, -1, 3⟩ : Vec3 ℚ).sub ⟨-1, -1, 3⟩)
        ((⟨1, 1, 3⟩ : Vec3 ℚ).sub ⟨-1, -1, 3⟩)) < 1 / 10 ^ 9 ∧
    ∃ pl, getPolygonPlane ratMath (sceneInert : List (Vec3 ℚ)) = some pl ∧
      pl.point = ⟨-1, -1, 3⟩ ∧ length ratMath pl.normal = 1 := by
  have hc : cross ((⟨1, -1, 3⟩ : Vec3 ℚ).sub ⟨-1, -1, 3⟩)
      ((⟨1, 1, 3⟩ : Vec3 ℚ).sub ⟨-1, -1, 3⟩) = ⟨0, 0, 4⟩ := by
    simp only [cross, Vec3.sub]; norm_num
  have hd : dot (⟨0, 0, 4⟩ : Vec3 ℚ) ⟨0, 0, 4⟩ = 16 := by
    simp only [dot]; norm_num
  have hlt : ¬ length ratMath (cross ((⟨1, -1, 3⟩ : Vec3 ℚ).sub ⟨-1, -1, 3⟩)
      ((⟨1, 1, 3⟩ : Vec3 ℚ).sub ⟨-1, -1, 3⟩)) < 1 / 10 ^ 9 := by
    rw [hc, ratMath_length_four]; norm_num
  obtain ⟨pl, h1, h2, _, _, _, h6⟩ :=
    (getPolygonPlane_spec ratMath (sceneInert : List (Vec3 ℚ))).2 ⟨-1, -1, 3⟩ ⟨1, -1, 3⟩
      ⟨1, 1, 3⟩ [⟨-1, 1, 3⟩] rfl hlt
  refine ⟨hlt, pl, h1, h2, h6 ?_ ratMath_sqrt_one⟩
  rw [hc, hd, ratMath_sqrt_sixteen]; norm_num

/-! ## The sampled directions -/

section Hemisphere

variable {α : Type} [LinearOrderedField α]

theorem dot_self_nonneg (v : Vec3 α) : 0 ≤ dot v v := by
  simp only [dot]
  nlinarith [mul_self_nonneg v.x, mul_self_nonneg v.y, mul_self_nonneg v.z]

theorem dot_comm (a b : Vec3 α) : dot a b = dot b a := by
  simp only [dot]; ring

theorem dot_cross_cross (a b : Vec3 α) :
    dot (cross a b) (cross a b) = dot a a * dot b b - dot a b * dot a b := by
  simp only [dot, cross]; ring

theorem sqrt_one_of_exact (M : MathLib α)
    (hsqrt : ∀ x, 0 ≤ x → 0 ≤ M.sqrt x ∧ M.sqrt x * M.sqrt x = x) : M.sqrt 1 = 1 := by
  obtain ⟨h0, h1⟩ := hsqrt 1 zero_le_one
  have h : (M.sqrt 1 - 1) * (M.sqrt 1 + 1) = 0 := by ring_nf; rw [sq, h1]; ring
  rcases mul_eq_zero.1 h with h | h
  · exact sub_eq_zero.1 h
  · exact absurd h (by linarith)

/-- A vector whose squared length exceeds `1e-24` is longer than `1e-12`. -/
theorem length_gt_of_dot_gt (M : MathLib α)
    (hsqrt : ∀ x, 0 ≤ x → 0 ≤ M.sqrt x ∧ M.sqrt x * M.sqrt x = x) (v : Vec3 α)
    (h : 1 / 10 ^ 24 < dot v v) : ¬ length M v ≤ 1 / 10 ^ 12 := by
  obtain ⟨h0, h1⟩ := hsqrt (dot v v) (dot_self_nonneg v)
  intro hle
  simp only [length] at hle
  have : M.sqrt (dot v v) * M.sqrt (dot v v) ≤ 1 / 10 ^ 12 * (1 / 10 ^ 12) :=
    mul_le_mul hle hle h0 (by norm_num)
  rw [h1] at this
  have e : (1 : α) / 10 ^ 12 * (1 / 10 ^ 12) = 1 / 10 ^ 24 := by norm_num
  rw [e] at this
  exact absurd h (not_lt.2 this)

theorem normalize_unit (M : MathLib α)
    (hsqrt : ∀ x, 0 ≤ x → 0 ≤ M.sqrt x ∧ M.sqrt x * M.sqrt x = x) (v : Vec3 α)
    (h : ¬ length M v ≤ 1 / 10 ^ 12) :
    normalize M v = v.divide (length M v) ∧ dot (normalize M v) (normalize M v) = 1 := by
  have hpos : (0 : α) < length M v := lt_trans (by norm_num) (not_le.1 h)
  have he : normalize M v = v.divide (length M v) := by simp only [normalize, h, if_false]
  refine ⟨he, ?_⟩
  rw [he]
  exact dot_divide_self v _ hpos.ne' (hsqrt _ (dot_self_nonneg v)).2

theorem length_of_dot_one (M : MathLib α)
    (hsqrt : ∀ x, 0 ≤ x → 0 ≤ M.sqrt x ∧ M.sqrt x * M.sqrt x = x) (v : Vec3 α)
    (h : dot v v = 1) : length M v = 1 := by
  simp only [length, h, sqrt_one_of_exact M hsqrt]

/-- The frame around a normal longer than `1e-12` is orthonormal. -/
theorem hemisphereFrame_orthonormal (M : MathLib α)
    (hsqrt : ∀ x, 0 ≤ x → 0 ≤ M.sqrt x ∧ M.sqrt x * M.sqrt x = x) (n : Vec3 α)
    (hn : ¬ length M n ≤ 1 / 10 ^ 12) :
    (hemisphereFrame M n).2.2 = normalize M n ∧
    (if |(normalize M n).x| > 9999 / 10000 then cross ⟨0, 1, 0⟩ (normalize M n)
      else cross ⟨1, 0, 0⟩ (normalize M n)) ≠ ⟨0, 0, 0⟩ ∧
    dot (hemisphereFrame M n).1 (hemisphereFrame M n).1 = 1 ∧
    dot (hemisphereFrame M n).2.1 (hemisphereFrame M n).2.1 = 1 ∧
    dot (hemisphereFrame M n).2.2 (hemisphereFrame M n).2.2 = 1 ∧
    dot (hemisphereFrame M n).1 (hemisphereFrame M n).2.1 = 0 ∧
    dot (hemisphereFrame M n).1 (hemisphereFrame M n).2.2 = 0 ∧
    dot (hemisphereFrame M n).2.1 (hemisphereFrame M n).2.2 = 0 := by
  obtain ⟨-, hww⟩ := normalize_unit M hsqrt n hn
  generalize hw : normalize M n = w at hww
  have hwx : dot w w = w.x * w.x + w.y * w.y + w.z * w.z := rfl
  -- the chosen reference axis gives a cross product of squared length above `1e-24`
  have key : ∀ c : Vec3 α, dot c w = 0 → 1 / 10 ^ 24 < dot c c →
      c ≠ ⟨0, 0, 0⟩ ∧ dot (normalize M c) (normalize M c) = 1 ∧
      dot (cross w (normalize M c)) (cross w (normalize M c)) = 1 ∧
      dot (normalize M c) (cross w (normalize M c)) = 0 ∧
      dot (normalize M c) w = 0 ∧ dot (cross w (normalize M c)) w = 0 := by
    intro c hcw hc
    have hlen := length_gt_of_dot_gt M hsqrt c hc
    obtain ⟨he, huu⟩ := normalize_unit M hsqrt c hlen
    have huw : dot (normalize M c) w = 0 := by
      rw [he, dot_divide_left, hcw, zero_div]
    refine ⟨?_, huu, ?_, ?_, huw, dot_cross_left _ _⟩
    · rintro rfl
      have : dot (⟨0, 0, 0⟩ : Vec3 α) ⟨0, 0, 0⟩ = 0 := by simp [dot]
      rw [this] at hc
      exact absurd hc (by norm_num)
    · rw [dot_cross_cross, hww, huu, dot_comm w, huw]; ring
    · rw [dot_comm]; exact dot_cross_right _ _
  simp only [hemisphereFrame, hw]
  by_cases hx : |w.x| > 9999 / 10000
  · simp only [hx, if_true]
    have hc : cross (⟨0, 1, 0⟩ : Vec3 α) w = ⟨w.z, 0, -w.x⟩ := by
      simp only [cross]; congr 1 <;> ring
    have h1 : dot (cross (⟨0, 1, 0⟩ : Vec3 α) w) w = 0 := dot_cross_right _ _
    have h2 : 1 / 10 ^ 24 < dot (cross (⟨0, 1, 0⟩ : Vec3 α) w) (cross ⟨0, 1, 0⟩ w) := by
      rw [hc]
      simp only [dot]
      have hsq : (9999 / 10000 : α) * (9999 / 10000) < w.x * w.x := by
        rw [← abs_mul_abs_self w.x]
        exact mul_lt_mul'' hx hx (by norm_num) (by norm_num)
      nlinarith [mul_self_nonneg w.z]
    obtain ⟨k1, k2, k3, k4, k5, k6⟩ := key _ h1 h2
    exact ⟨trivial, k1, k2, k3, hww, k4, k5, k6⟩
  · simp only [hx, if_false]
    have hc : cross (⟨1, 0, 0⟩ : Vec3 α) w = ⟨0, -w.z, w.y⟩ := by
      simp only [cross]; congr 1 <;> ring
    have h1 : dot (cross (⟨1, 0, 0⟩ : Vec3 α) w) w = 0 := dot_cross_right _ _
    have h2 : 1 / 10 ^ 24 < dot (cross (⟨1, 0, 0⟩ : Vec3 α) w) (cross ⟨1, 0, 0⟩ w) := by
      rw [hc]
      simp only [dot]
      have hle : |w.x| ≤ 9999 / 10000 := not_lt.1 hx
      have hsq : w.x * w.x ≤ (9999 / 10000 : α) * (9999 / 10000) := by
        rw [← abs_mul_abs_self w.x]
        exact mul_le_mul hle hle (abs_nonneg _) (by norm_num)
      rw [hwx] at hww
      nlinarith
    obtain ⟨k1, k2, k3, k4, k5, k6⟩ := key _ h1 h2
    exact ⟨trivial, k1, k2, k3, hww, k4, k5, k6⟩

/-- In an orthonormal frame every sampled direction has length `1` and its component along
`w` is `sqrt(1 - u2)` for a draw `u2`. -/
theorem sampleLoop_unit (M : MathLib α) (R : RandomSource α)
    (hsqrt : ∀ x, 0 ≤ x → 0 ≤ M.sqrt x ∧ M.sqrt x * M.sqrt x = x)
    (htrig : ∀ x, M.cos x * M.cos x + M.sin x * M.sin x = 1)
    (hdraw : ∀ g, 0 ≤ (R.uniform g).1 ∧ (R.uniform g).1 < 1)
    (u v w : Vec3 α) (huu : dot u u = 1) (hvv : dot v v = 1) (hww : dot w w = 1)
    (huv : dot u v = 0) (huw : dot u w = 0) (hvw : dot v w = 0) (n : Nat) (g : R.State) :
    ∀ d ∈ (sampleLoop M R u v w n g).1, length M d = 1 ∧ 0 ≤ dot d w ∧
      ∃ g', dot d w = M.sqrt (1 - (R.uniform g').1) := by
  induction n generalizing g with
  | zero => intro d hd; simp [sampleLoop] at hd
  | succ n ih =>
    intro d hd
    simp only [sampleLoop, List.mem_cons] at hd
    rcases hd with rfl | hd
    · obtain ⟨hu0, hu1⟩ := hdraw (R.uniform g).2
      obtain ⟨hs0, hs1⟩ := hsqrt _ hu0
      obtain ⟨hc0, hc1⟩ := hsqrt (1 - (R.uniform (R.uniform g).2).1) (by linarith)
      have ht := htrig (2 * M_PI * (R.uniform g).1)
      generalize M.sqrt (R.uniform (R.uniform g).2).1 = s at hs0 hs1
      generalize hcdef : M.sqrt (1 - (R.uniform (R.uniform g).2).1) = c at hc0 hc1
      generalize M.cos (2 * M_PI * (R.uniform g).1) = cp at ht
      generalize M.sin (2 * M_PI * (R.uniform g).1) = sp at ht
      simp only [dot] at huu hvv hww huv huw hvw
      have hdw : dot (⟨u.x * (s * cp) + v.x * (s * sp) + w.x * c,
          u.y * (s * cp) + v.y * (s * sp) + w.y * c,
          u.z * (s * cp) + v.z * (s * sp) + w.z * c⟩ : Vec3 α) w = c := by
        simp only [dot]
        linear_combination (s * cp) * huw + (s * sp) * hvw + c * hww
      have hdd : dot (⟨u.x * (s * cp) + v.x * (s * sp) + w.x * c,
          u.y * (s * cp) + v.y * (s * sp) + w.y * c,
          u.z * (s * cp) + v.z * (s * sp) + w.z * c⟩ : Vec3 α)
          ⟨u.x * (s * cp) + v.x * (s * sp) + w.x * c,
          u.y * (s * cp) + v.y * (s * sp) + w.y * c,
          u.z * (s * cp) + v.z * (s * sp) + w.z * c⟩ = 1 := by
        simp only [dot]
        linear_combination (s * cp) ^ 2 * huu + (s * sp) ^ 2 * hvv + c ^ 2 * hww +
          2 * (s * cp) * (s * sp) * huv + 2 * (s * cp) * c * huw + 2 * (s * sp) * c * hvw +
          (cp * cp + sp * sp) * hs1 + hc1 + (R.uniform (R.uniform g).2).1 * ht
      refine ⟨length_of_dot_one M hsqrt _ hdd, ?_, (R.uniform g).2, ?_⟩
      · rw [hdw]; exact hc0
      · rw [hdw, hcdef]
    · exact ih _ d hd

/-- One more ray: the direction of the two draws that follow, then the rest of the loop. -/
theorem sampleLoop_succ (M : MathLib α) (R : RandomSource α) (u v w : Vec3 α) (n : Nat)
    (g : R.State) :
    sampleLoop M R u v w (n + 1) g =
      (sampleDirection M u v w (R.uniform g).1 (R.uniform (R.uniform g).2).1 ::
        (sampleLoop M R u v w n (R.uniform (R.uniform g).2).2).1,
       (sampleLoop M R u v w n (R.uniform (R.uniform g).2).2).2) := rfl

/-- The generator after `n + 1` rays is the generator after `n` rays and two more draws. -/
theorem sampleLoop_state_succ (M : MathLib α) (R : RandomSource α) (u v w : Vec3 α) (n : Nat)
    (g : R.State) :
    (sampleLoop M R u v w (n + 1) g).2 =
      (R.uniform (R.uniform (sampleLoop M R u v w n g).2).2).2 := by
  induction n generalizing g with
  | zero => rfl
  | succ n ih =>
    rw [sampleLoop_succ M R u v w (n + 1) g]
    exact ih _

/-- Ray `i` is made of the two draws that follow the draws of the `i` rays before it. -/
theorem sampleLoop_getElem? (M : MathLib α) (R : RandomSource α) (u v w : Vec3 α) (n : Nat)
    (g : R.State) (i : Nat) (hi : i < n) :
    (sampleLoop M R u v w n g).1[i]? =
      some (sampleDirection M u v w (R.uniform (sampleLoop M R u v w i g).2).1
        (R.uniform (R.uniform (sampleLoop M R u v w i g).2).2).1) := by
  induction n generalizing g i with
  | zero => exact absurd hi (Nat.not_lt_zero _)
  | succ n ih =>
    rw [sampleLoop_succ]
    cases i with
    | zero => rw [List.getElem?_cons_zero]; rfl
    | succ k =>
      rw [List.getElem?_cons_succ, ih _ k (Nat.lt_of_succ_lt_succ hi),
        sampleLoop_succ M R u v w k g]

/-- In an orthonormal frame the direction of the draws `u1`, `u2` has length `1`, the component
`sqrt(1 - u2)` along `w` and the components `sqrt(u2) cos(phi)`, `sqrt(u2) sin(phi)` along `u`
and `v`. -/
theorem sampleDirection_unit (M : MathLib α)
    (hsqrt : ∀ x, 0 ≤ x → 0 ≤ M.sqrt x ∧ M.sqrt x * M.sqrt x = x)
    (htrig : ∀ x, M.cos x * M.cos x + M.sin x * M.sin x = 1)
    (u v w : Vec3 α) (huu : dot u u = 1) (hvv : dot v v = 1) (hww : dot w w = 1)
    (huv : dot u v = 0) (huw : dot u w = 0) (hvw : dot v w = 0)
    (u1 u2 : α) (h0 : 0 ≤ u2) (h1 : u2 < 1) :
    length M (sampleDirection M u v w u1 u2) = 1 ∧
    dot (sampleDirection M u v w u1 u2) w = M.sqrt (1 - u2) ∧
    0 ≤ M.sqrt (1 - u2) ∧
    dot (sampleDirection M u v w u1 u2) u = M.sqrt u2 * M.cos (2 * M_PI * u1) ∧
    dot (sampleDirection M u v w u1 u2) v = M.sqrt u2 * M.sin (2 * M_PI * u1) := by
  obtain ⟨hs0, hs1⟩ := hsqrt u2 h0
  obtain ⟨hc0, hc1⟩ := hsqrt (1 - u2) (by linarith)
  have ht := htrig (2 * M_PI * u1)
  simp only [sampleDirection, samplePhi, sampleCosTheta, sampleSinTheta]
  generalize M.sqrt u2 = s at hs0 hs1
  generalize M.sqrt (1 - u2) = c at hc0 hc1
  generalize M.cos (2 * M_PI * u1) = cp at ht
  generalize M.sin (2 * M_PI * u1) = sp at ht
  simp only [dot] at huu hvv hww huv huw hvw
  have hdd : dot (⟨u.x * (s * cp) + v.x * (s * sp) + w.x * c,
      u.y * (s * cp) + v.y * (s * sp) + w.y * c,
      u.z * (s * cp) + v.z * (s * sp) + w.z * c⟩ : Vec3 α)
      ⟨u.x * (s * cp) + v.x * (s * sp) + w.x * c,
      u.y * (s * cp) + v.y * (s * sp) + w.y * c,
      u.z * (s * cp) + v.z * (s * sp) + w.z * c⟩ = 1 := by
    simp only [dot]
    linear_combination (s * cp) ^ 2 * huu + (s * sp) ^ 2 * hvv + c ^ 2 * hww +
      2 * (s * cp) * (s * sp) * huv + 2 * (s * cp) * c * huw + 2 * (s * sp) * c * hvw +
      (cp * cp + sp * sp) * hs1 + hc1 + u2 * ht
  refine ⟨length_of_dot_one M hsqrt _ hdd, ?_, hc0, ?_, ?_⟩
  · simp only [dot]
    linear_combination (s * cp) * huw + (s * sp) * hvw + c * hww
  · simp only [dot]
    linear_combination (s * cp) * huu + (s * sp) * huv + c * huw
  · simp only [dot]
    linear_combination (s * cp) * huv + (s * sp) * hvv + c * hvw

/-- C19. For a surface normal longer than `1e-12`, with a library whose square root is exact
and whose cosine and sine lie on the unit circle: the frame `(u, v, w)` of
`generateCosineHemisphereRays` is orthonormal with `w = normalize(normal)`, and the cross
product with the chosen reference axis is not the zero vector. For every pair `(u1, u2)` with
`u2` in `[0, 1)` the world direction the loop body makes of it has length `1`, the component
`sqrt(1 - u2) >= 0` along the normalised normal and the components `sqrt(u2) cos(2 M_PI u1)`
and `sqrt(u2) sin(2 M_PI u1)` along `u` and `v`. The function returns exactly `numRays`
directions, and direction `i` is the one of its own two draws: `u1` is the first and `u2` the
second draw from the generator as `i` rays leave it. With draws in `[0, 1)` every returned
direction has length `1` and lies in the closed hemisphere around the normal. -/
theorem hemisphere_sampling (M : MathLib α) (R : RandomSource α) (surfaceNormal : Vec3 α)
    (hsqrt : ∀ x, 0 ≤ x → 0 ≤ M.sqrt x ∧ M.sqrt x * M.sqrt x = x)
    (htrig : ∀ x, M.cos x * M.cos x + M.sin x * M.sin x = 1)
    (hdraw : ∀ g, 0 ≤ (R.uniform g).1 ∧ (R.uniform g).1 < 1)
    (hn : ¬ length M surfaceNormal ≤ 1 / 10 ^ 12) :
    (∀ (numRays : Nat) (rng : R.State),
      generateCosineHemisphereRays M R numRays surfaceNormal rng =
        if numRays = 0 then ([], rng)
        else sampleLoop M R (hemisphereFrame M surfaceNormal).1
          (hemisphereFrame M surfaceNormal).2.1 (hemisphereFrame M surfaceNormal).2.2
          numRays rng) ∧
    ((hemisphereFrame M surfaceNormal).2.2 = normalize M surfaceNormal ∧
      (if |(normalize M surfaceNormal).x| > 9999 / 10000
        then cross ⟨0, 1, 0⟩ (normalize M surfaceNormal)
        else cross ⟨1, 0, 0⟩ (normalize M surfaceNormal)) ≠ ⟨0, 0, 0⟩ ∧
      length M (hemisphereFrame M surfaceNormal).1 = 1 ∧
      length M (hemisphereFrame M surfaceNormal).2.1 = 1 ∧
      length M (hemisphereFrame M surfaceNormal).2.2 = 1 ∧
      dot (hemisphereFrame M surfaceNormal).1 (hemisphereFrame M surfaceNormal).2.1 = 0 ∧
      dot (hemisphereFrame M surfaceNormal).1 (hemisphereFrame M surfaceNormal).2.2 = 0 ∧
      dot (hemisphereFrame M surfaceNormal).2.1 (hemisphereFrame M surfaceNormal).2.2 = 0) ∧
    (∀ u1 u2 : α, 0 ≤ u2 → u2 < 1 →
      length M (sampleDirection M (hemisphereFrame M surfaceNormal).1
        (hemisphereFrame M surfaceNormal).2.1 (hemisphereFrame M surfaceNormal).2.2 u1 u2) = 1 ∧
      dot (sampleDirection M (hemisphereFrame M surfaceNormal).1
        (hemisphereFrame M surfaceNormal).2.1 (hemisphereFrame M surfaceNormal).2.2 u1 u2)
        (normalize M surfaceNormal) = M.sqrt (1 - u2) ∧
      0 ≤ M.sqrt (1 - u2) ∧
      dot (sampleDirection M (hemisphereFrame M surfaceNormal).1
        (hemisphereFrame M surfaceNormal).2.1 (hemisphereFrame M surfaceNormal).2.2 u1 u2)
        (hemisphereFrame M surfaceNormal).1 = M.sqrt u2 * M.cos (2 * M_PI * u1) ∧
      dot (sampleDirection M (hemisphereFrame M surfaceNormal).1
        (hemisphereFrame M surfaceNormal).2.1 (hemisphereFrame M surfaceNormal).2.2 u1 u2)
        (hemisphereFrame M surfaceNormal).2.1 = M.sqrt u2 * M.sin (2 * M_PI * u1)) ∧
    (∀ (numRays : Nat) (rng : R.State),
      (generateCosineHemisphereRays M R numRays surfaceNormal rng).1.length = numRays ∧
      (∀ i : Nat, i < numRays →
        (generateCosineHemisphereRays M R numRays surfaceNormal rng).1[i]? =
          some (sampleDirection M (hemisphereFrame M surfaceNormal).1
            (hemisphereFrame M surfaceNormal).2.1 (hemisphereFrame M surfaceNormal).2.2
            (R.uniform (generateCosineHemisphereRays M R i surfaceNormal rng).2).1
            (R.uniform
              (R.uniform (generateCosineHemisphereRays M R i surfaceNormal rng).2).2).1)) ∧
      ∀ d ∈ (generateCosineHemisphereRays M R numRays surfaceNormal rng).1,
        length M d = 1 ∧ 0 ≤ dot d (normalize M surfaceNormal) ∧
        ∃ g, dot d (normalize M surfaceNormal) = M.sqrt (1 - (R.uniform g).1)) := by
  obtain ⟨f1, f2, huu, hvv, hww, huv, huw, hvw⟩ :=
    hemisphereFrame_orthonormal M hsqrt surfaceNormal hn
  have hgen : ∀ (numRays : Nat) (rng : R.State),
      generateCosineHemisphereRays M R numRays surfaceNormal rng =
        if numRays = 0 then ([], rng)
        else sampleLoop M R (hemisphereFrame M surfaceNormal).1
          (hemisphereFrame M surfaceNormal).2.1 (hemisphereFrame M surfaceNormal).2.2
          numRays rng := fun _ _ => rfl
  have hstate : ∀ (i : Nat) (rng : R.State),
      (generateCosineHemisphereRays M R i surfaceNormal rng).2 =
        (sampleLoop M R (hemisphereFrame M surfaceNormal).1
          (hemisphereFrame M surfaceNormal).2.1 (hemisphereFrame M surfaceNormal).2.2
          i rng).2 := by
    intro i rng
    rw [hgen]
    split
    · rename_i h; subst h; rfl
    · rfl
  refine ⟨hgen, ⟨f1, f2, length_of_dot_one M hsqrt _ huu, length_of_dot_one M hsqrt _ hvv,
    length_of_dot_one M hsqrt _ hww, huv, huw, hvw⟩, ?_, ?_⟩
  · intro u1 u2 h0 h1
    rw [← f1]
    exact sampleDirection_unit M hsqrt htrig _ _ _ huu hvv hww huv huw hvw u1 u2 h0 h1
  intro numRays rng
  refine ⟨generateCosineHemisphereRays_length M R numRays surfaceNormal rng, ?_, ?_⟩
  · intro i hi
    rw [hstate, hgen, if_neg (by omega)]
    exact sampleLoop_getElem? M R _ _ _ numRays rng i hi
  · rw [hgen]
    split
    · intro d hd; simp at hd
    · rw [← f1]
      exact sampleLoop_unit M R hsqrt htrig hdraw _ _ _ huu hvv hww huv huw hvw numRays rng

end Hemisphere

/-- Witness of C19: the real square root, cosine and sine, a source whose draws are `1/4` and
`3/4` in turn, and the normal `(0,0,1)`: the first of four directions is the one of the draws
`u1 = 1/4`, `u2 = 3/4`, of length `1` and with the component `sqrt(1 - 3/4) = 1/2` along the
normal. -/
theorem hemisphere_sampling_witness :
    ¬ length (⟨Real.sqrt, Real.cos, Real.sin⟩ : MathLib ℝ) ⟨0, 0, 1⟩ ≤ 1 / 10 ^ 12 ∧
    ∃ d : Vec3 ℝ,
      (generateCosineHemisphereRays (⟨Real.sqrt, Real.cos, Real.sin⟩ : MathLib ℝ)
        (⟨Nat, 0, fun s => s, fun l => l.sum,
          fun g => (if g % 2 = 0 then 1 / 4 else 3 / 4, g + 1)⟩ : RandomSource ℝ) 4
        ⟨0, 0, 1⟩ (0 : Nat)).1[0]? = some d ∧
      d = sampleDirection (⟨Real.sqrt, Real.cos, Real.sin⟩ : MathLib ℝ)
        (hemisphereFrame (⟨Real.sqrt, Real.cos, Real.sin⟩ : MathLib ℝ) ⟨0, 0, 1⟩).1
        (hemisphereFrame (⟨Real.sqrt, Real.cos, Real.sin⟩ : MathLib ℝ) ⟨0, 0, 1⟩).2.1
        (hemisphereFrame (⟨Real.sqrt, Real.cos, Real.sin⟩ : MathLib ℝ) ⟨0, 0, 1⟩).2.2
        (1 / 4) (3 / 4) ∧
      length (⟨Real.sqrt, Real.cos, Real.sin⟩ : MathLib ℝ) d = 1 ∧
      dot d (normalize (⟨Real.sqrt, Real.cos, Real.sin⟩ : MathLib ℝ) ⟨0, 0, 1⟩) = 1 / 2 := by
  have hn : ¬ length (⟨Real.sqrt, Real.cos, Real.sin⟩ : MathLib ℝ) ⟨0, 0, 1⟩ ≤ 1 / 10 ^ 12 := by
    simp only [length, dot]
    norm_num
  have h := hemisphere_sampling (⟨Real.sqrt, Real.cos, Real.sin⟩ : MathLib ℝ)
    (⟨Nat, 0, fun s => s, fun l => l.sum,
      fun g => (if g % 2 = 0 then 1 / 4 else 3 / 4, g + 1)⟩ : RandomSource ℝ) ⟨0, 0, 1⟩
    (fun x hx => ⟨Real.sqrt_nonneg x, Real.mul_self_sqrt hx⟩)
    (fun x => by
      show Real.cos x * Real.cos x + Real.sin x * Real.sin x = 1
      have := Real.cos_sq_add_sin_sq x
      nlinarith [this])
    (fun g => by
      show (0 : ℝ) ≤ (if g % 2 = 0 then 1 / 4 else 3 / 4) ∧
        (if g % 2 = 0 then (1 / 4 : ℝ) else 3 / 4) < 1
      split <;> norm_num) hn
  have hray := (h.2.2.2 4 (0 : Nat)).2.1 0 (by norm_num)
  have hdir := h.2.2.1 (1 / 4) (3 / 4) (by norm_num) (by norm_num)
  have hs : Real.sqrt (1 - 3 / 4) = 1 / 2 := by
    rw [show (1 : ℝ) - 3 / 4 = (1 / 2) ^ 2 by norm_num]
    exact Real.sqrt_sq (by norm_num)
  refine ⟨hn, _, hray, ?_, ?_, ?_⟩
  · simp [generateCosineHemisphereRays]
  · simpa [generateCosineHemisphereRays] using hdir.1
  · have := hdir.2.1
    rw [show (⟨Real.sqrt, Real.cos, Real.sin⟩ : MathLib ℝ).sqrt (1 - 3 / 4) =
      Real.sqrt (1 - 3 / 4) from rfl, hs] at this
    simpa [generateCosineHemisphereRays] using this

/-! ## The law of the sampled direction -/

section CosineLaw

open MeasureTheory

end CosineLaw

/-! ## No rays, no normal -/

section ZeroCases

open mini_json

variable {α : Type} [LinearOrderedField α]

theorem totalTemperature_replicate_zero (n : Nat) (polys : List (PolygonWithTemp α)) :
    totalTemperature (List.replicate n (0 : α)) polys = 0 := by
  rw [totalTemperature_eq_sum_range]
  apply List.sum_eq_zero
  intro x hx
  obtain ⟨p, _, rfl⟩ := List.mem_map.1 hx
  have : (List.replicate n (0 : α)).getD p 0 = 0 := by
    simp only [List.getD_eq_getElem?_getD, List.getElem?_replicate]
    split <;> rfl
  rw [this, zero_mul]

theorem calculateViewFactors_zero_rays (M : MathLib α) (R : RandomSource α)
    (origin originNormal : Vec3 α) (emitterPolygons : List (PolygonWithTemp α))
    (inertPolygons : List (List (Vec3 α))) (rng : R.State) :
    calculateViewFactorsWithBlockage M R origin originNormal emitterPolygons inertPolygons 0
        rng = (⟨List.replicate emitterPolygons.length 0, [], [], []⟩, rng) := by
  simp only [calculateViewFactorsWithBlockage, if_true]

theorem pointLoop_zero_rays (M : MathLib α) (R : RandomSource α) (inp : JsonInput α)
    (h0 : inp.numRays = 0) (rng : R.State) (k : Nat) (pts : List (ReceiverPoint α)) :
    pointLoop M R inp rng k pts = List.replicate pts.length 0 := by
  induction pts generalizing k with
  | nil => rfl
  | cons p rest ih =>
    simp only [pointLoop, h0, calculateViewFactors_zero_rays, totalTemperature_replicate_zero,
      ih, List.length_cons, List.replicate_succ]

/-- C13. With ray count `0`, `calculateViewFactorsWithBlockage` returns one view factor `0` per
emitter and no ray, whatever the library functions are, and leaves the generator as it was (no
draw); hence every incident temperature of an input with ray count `0` is `0`, and so is every
temperature in the report of a request that is read to such an input. -/
theorem zero_rays (M : MathLib α) (R : RandomSource α) :
    (∀ (origin originNormal : Vec3 α) (emitterPolygons : List (PolygonWithTemp α))
      (inertPolygons : List (List (Vec3 α))) (rng : R.State),
      calculateViewFactorsWithBlockage M R origin originNormal emitterPolygons inertPolygons 0
        rng = (⟨List.replicate emitterPolygons.length 0, [], [], []⟩, rng)) ∧
    (∀ (entropy : List Nat) (inp : JsonInput α), inp.numRays = 0 →
      pointTemperatures M R entropy inp = List.replicate inp.receiverPoints.length 0) ∧
    (∀ [FloorRing α] (L : CLib α) (fuel : Nat) (entropy : List Nat) (w0 h0 : α)
      (json : List Char) (inp : JsonInput α),
      parseInputJson L fuel json (JsonInput.fresh w0 h0) = some (.ok inp) → inp.numRays = 0 →
      runFromJsonString L M R fuel entropy w0 h0 json =
        some ⟨true, reportText L inp (List.replicate inp.receiverPoints.length 0)⟩) := by
  refine ⟨calculateViewFactors_zero_rays M R, ?_, ?_⟩
  · intro entropy inp h0
    exact pointLoop_zero_rays M R inp h0 _ 0 _
  · intro _ L fuel entropy w0 h0 json inp hparse hz
    simp only [runFromJsonString, hparse]
    rw [show pointTemperatures M R entropy inp = List.replicate inp.receiverPoints.length 0
      from pointLoop_zero_rays M R inp hz _ 0 _]

/-! ## The zero vector as a sentinel -/

theorem rayPlaneIntersect_zero_dir (o n q : Vec3 α) :
    rayPlaneIntersect o ⟨0, 0, 0⟩ n q = (none, ⊤) := by
  have h : |dot n (⟨0, 0, 0⟩ : Vec3 α)| < 1 / 10 ^ 9 := by
    simp only [dot, mul_zero, add_zero, abs_zero]
    norm_num
  simp only [rayPlaneIntersect, h, if_true]

theorem rayPlaneIntersect_zero_normal (o d q : Vec3 α) :
    rayPlaneIntersect o d ⟨0, 0, 0⟩ q = (none, ⊤) := by
  have h : |dot (⟨0, 0, 0⟩ : Vec3 α) d| < 1 / 10 ^ 9 := by
    simp only [dot, zero_mul, add_zero, abs_zero]
    norm_num
  simp only [rayPlaneIntersect, h, if_true]

theorem scanEmit_zero_dir (o : Vec3 α) (p : Nat) (l : List (PolyData α)) (st : EmitHit α) :
    scanEmit o ⟨0, 0, 0⟩ p l st = st := by
  induction l generalizing p with
  | nil => rfl
  | cons pd rest ih =>
    unfold scanEmit
    simp only [rayPlaneIntersect_zero_dir, ih, ite_self]

theorem castRay_zero_dir (origin : Vec3 α) (inertScene emitScene : List (PolyData α))
    (acc : RayAcc α) : castRay origin inertScene emitScene acc ⟨0, 0, 0⟩ = acc := by
  simp [castRay, scanEmit_zero_dir]

theorem foldl_castRay_zero_dirs (origin : Vec3 α) (inertScene emitScene : List (PolyData α))
    (rays : List (Vec3 α)) (h : ∀ d ∈ rays, d = ⟨0, 0, 0⟩) (acc : RayAcc α) :
    rays.foldl (castRay origin inertScene emitScene) acc = acc := by
  induction rays generalizing acc with
  | nil => rfl
  | cons r rs ih =>
    rw [List.foldl_cons, h r (List.mem_cons_self _ _), castRay_zero_dir]
    exact ih (fun d hd => h d (List.mem_cons_of_mem _ hd)) acc

theorem sampleLoop_zero_frame (M : MathLib α) (R : RandomSource α) (n : Nat) (g : R.State) :
    ∀ d ∈ (sampleLoop M R ⟨0, 0, 0⟩ ⟨0, 0, 0⟩ ⟨0, 0, 0⟩ n g).1, d = ⟨0, 0, 0⟩ := by
  induction n generalizing g with
  | zero => intro d hd; simp [sampleLoop] at hd
  | succ n ih =>
    intro d hd
    simp only [sampleLoop, List.mem_cons] at hd
    rcases hd with rfl | hd
    · simp
    · exact ih _ d hd

/-- For a normal of length at most `1e-12` every sampled direction is the zero vector. -/
theorem rays_zero_of_short_normal (M : MathLib α) (R : RandomSource α) (numRays : Nat)
    (surfaceNormal : Vec3 α) (rng : R.State) (hn : length M surfaceNormal ≤ 1 / 10 ^ 12) :
    ∀ d ∈ (generateCosineHemisphereRays M R numRays surfaceNormal rng).1, d = ⟨0, 0, 0⟩ := by
  unfold generateCosineHemisphereRays
  split
  · intro d hd; simp at hd
  · have hw : normalize M surfaceNormal = ⟨0, 0, 0⟩ := by
      simp only [normalize, hn, if_true]
    have hz : normalize M (⟨0, 0, 0⟩ : Vec3 α) = ⟨0, 0, 0⟩ := by
      simp only [normalize, Vec3.divide, zero_div, ite_self]
    have hc1 : cross (⟨0, 1, 0⟩ : Vec3 α) ⟨0, 0, 0⟩ = ⟨0, 0, 0⟩ := by simp [cross]
    have hc2 : cross (⟨1, 0, 0⟩ : Vec3 α) ⟨0, 0, 0⟩ = ⟨0, 0, 0⟩ := by simp [cross]
    have hc3 : cross (⟨0, 0, 0⟩ : Vec3 α) ⟨0, 0, 0⟩ = ⟨0, 0, 0⟩ := by simp [cross]
    simp only [hw, hc1, hc2, hz, ite_self, hc3]
    exact sampleLoop_zero_frame M R numRays rng

theorem viewFactors_zero_of_short_normal (M : MathLib α) (R : RandomSource α)
    (origin originNormal : Vec3 α) (emitterPolygons : List (PolygonWithTemp α))
    (inertPolygons : List (List (Vec3 α))) (numRays : Nat) (rng : R.State)
    (hn : length M originNormal ≤ 1 / 10 ^ 12) :
    (calculateViewFactorsWithBlockage M R origin originNormal emitterPolygons inertPolygons
      numRays rng).1.viewFactors = List.replicate emitterPolygons.length 0 := by
  unfold calculateViewFactorsWithBlockage
  split
  · rfl
  · simp only [foldl_castRay_zero_dirs origin _ _ _
      (rays_zero_of_short_normal M R numRays originNormal rng hn), List.map_replicate,
      Nat.cast_zero, zero_div]

/-- C20. Zero-vector sentinel propagation. `rayPlaneIntersect` returns no hit when the plane
normal or the ray direction is the zero vector. For a receiver normal of length at most `1e-12`
every sampled direction is the zero vector, every view factor is `0` (one per emitter) and the
incident temperature is `0`, for every scene, ray count and generator state; in a run, the
temperature of every receiver point with such a normal is `0`. -/
theorem zero_vector_sentinel (M : MathLib α) (R : RandomSource α) (originNormal : Vec3 α)
    (hn : length M originNormal ≤ 1 / 10 ^ 12) :
    (∀ o d q : Vec3 α, rayPlaneIntersect o d ⟨0, 0, 0⟩ q = (none, ⊤) ∧
      rayPlaneIntersect o ⟨0, 0, 0⟩ d q = (none, ⊤)) ∧
    (∀ (numRays : Nat) (rng : R.State),
      ∀ d ∈ (generateCosineHemisphereRays M R numRays originNormal rng).1, d = ⟨0, 0, 0⟩) ∧
    (∀ (origin : Vec3 α) (emitterPolygons : List (PolygonWithTemp α))
      (inertPolygons : List (List (Vec3 α))) (numRays : Nat) (rng : R.State),
      (calculateViewFactorsWithBlockage M R origin originNormal emitterPolygons inertPolygons
        numRays rng).1.viewFactors = List.replicate emitterPolygons.length 0 ∧
      totalTemperature (calculateViewFactorsWithBlockage M R origin originNormal emitterPolygons
        inertPolygons numRays rng).1.viewFactors emitterPolygons = 0) ∧
    (∀ (entropy : List Nat) (inp : JsonInput α) (i : Nat) (origin : Vec3 α),
      inp.receiverPoints[i]? = some ⟨origin, originNormal⟩ →
      (pointTemperatures M R entropy inp)[i]? = some 0) := by
  refine ⟨fun o d q => ⟨rayPlaneIntersect_zero_normal o d q, rayPlaneIntersect_zero_dir o d q⟩,
    fun numRays rng => rays_zero_of_short_normal M R numRays originNormal rng hn, ?_, ?_⟩
  · intro origin emitterPolygons inertPolygons numRays rng
    have h := viewFactors_zero_of_short_normal M R origin originNormal emitterPolygons
      inertPolygons numRays rng hn
    exact ⟨h, by rw [h, totalTemperature_replicate_zero]⟩
  · intro entropy inp i origin hi
    have h := pointLoop_getElem? M R inp (baseRng R inp.seed entropy) 0 inp.receiverPoints i
      ⟨origin, originNormal⟩ hi
    rw [pointTemperatures, h, viewFactors_zero_of_short_normal M R _ _ _ _ _ _ hn,
      totalTemperature_replicate_zero]

end ZeroCases

theorem zeroRaysRequest_reads : ∀ f ∈ zeroRaysRequest, f.Reads decLib := by
  intro f hf
  simp only [zeroRaysRequest, List.mem_cons, List.mem_singleton, List.not_mem_nil,
    or_false] at hf
  rcases hf with rfl | rfl | rfl
  · exact samplePlanes_reads
  · intro e he
    simp only [List.mem_singleton] at he
    subst he
    exact ⟨sampleSquare_reads, digitTok_reads '7' (by decide)⟩
  · exact digitTok_reads '0' (by decide)

set_option maxRecDepth 100000 in
theorem zeroRaysRequest_parse :
    parseInputJson decLib 300 (renderRequest zeroRaysRequest) (JsonInput.fresh 0 0) =
      some (.ok ⟨[⟨⟨0, 0, 0⟩, ⟨0, 0, 1⟩⟩],
        [⟨[⟨0, 0, 5⟩, ⟨1, 0, 5⟩, ⟨1, 1, 5⟩, ⟨0, 1, 5⟩], 7⟩], [], 0, none, ['P'], 2, 1⟩) := by
  rw [parseInputJson_render decLib zeroRaysRequest zeroRaysRequest_reads _ 300
    (Nat.le_of_ble_eq_true rfl)]
  rfl

set_option maxRecDepth 100000 in
/-- Witness of C13: the request
`{"receiver_planes":{"P":{"width":2,"height":1,"points":[{"origin":[0,0,0],"normal":[0,0,1]}]}},`
`"polygons":[{"polygon":[[0,0,5],[1,0,5],[1,1,5],[0,1,5]],"temperature":7}],"num_rays":0}`. -/
theorem zero_rays_witness :
    renderRequest zeroRaysRequest =
      ("\x7b\"receiver_planes\":\x7b\"P\":\x7b\"width\":2,\"height\":1,\"points\":[\x7b\"origin\":[0,0,0],\"normal\":[0,0,1]\x7d]\x7d\x7d," ++
        "\"polygons\":[\x7b\"polygon\":[[0,0,5],[1,0,5],[1,1,5],[0,1,5]],\"temperature\":7\x7d],\"num_rays\":0\x7d").toList ∧
    runFromJsonString decLib ratMath counterSource 300 [] 0 0 (renderRequest zeroRaysRequest) =
      some ⟨true, "Plane: P\nWidth: 2.000000\nHeight: 1.000000\n0.000000\n"⟩ := by
  refine ⟨rfl, ?_⟩
  rw [(zero_rays ratMath counterSource).2.2 decLib 300 [] 0 0 (renderRequest zeroRaysRequest) _
    zeroRaysRequest_parse rfl]
  rfl

/-- Witness of C20: the zero vector as receiver normal in the occlusion scene without its
blocker. -/
theorem zero_vector_sentinel_witness :
    length ratMath (⟨0, 0, 0⟩ : Vec3 ℚ) ≤ 1 / 10 ^ 12 ∧
    (calculateViewFactorsWithBlockage ratMath counterSource ⟨0, 0, 0⟩ ⟨0, 0, 0⟩
      [⟨sceneEmitter, 100⟩] [] 4 (0 : Nat)).1.viewFactors = [0] := by
  have hl : length ratMath (⟨0, 0, 0⟩ : Vec3 ℚ) ≤ 1 / 10 ^ 12 := by
    have hd : dot (⟨0, 0, 0⟩ : Vec3 ℚ) ⟨0, 0, 0⟩ = 0 := by simp [dot]
    simp only [length, hd, ratMath_sqrt_zero]
    norm_num
  exact ⟨hl, ((zero_vector_sentinel ratMath counterSource ⟨0, 0, 0⟩ hl).2.2.1 ⟨0, 0, 0⟩
    [⟨sceneEmitter, 100⟩] [] 4 (0 : Nat)).1⟩

/-! ## Attribution of a ray -/

section Attribution

variable {α : Type} [LinearOrderedField α]

theorem scanInert_attained (o d : Vec3 α) (l : List (PolyData α)) (c : WithTop α) :
    scanInert o d l c = c ∨ ∃ pd ∈ l, pd.valid = true ∧ ∃ hit,
      (rayPlaneIntersect o d pd.normal pd.point).1 = some hit ∧
      isPointInPolygon3D hit pd.verts pd.normal = true ∧
      (rayPlaneIntersect o d pd.normal pd.point).2 = scanInert o d l c := by
  induction l generalizing c with
  | nil => exact Or.inl rfl
  | cons pd rest ih =>
    have lift : ∀ c', (scanInert o d rest c' = c' ∨ ∃ q ∈ rest, q.valid = true ∧ ∃ hit,
        (rayPlaneIntersect o d q.normal q.point).1 = some hit ∧
        isPointInPolygon3D hit q.verts q.normal = true ∧
        (rayPlaneIntersect o d q.normal q.point).2 = scanInert o d rest c') →
        c' = c → (scanInert o d rest c' = c ∨ ∃ q ∈ pd :: rest, q.valid = true ∧ ∃ hit,
        (rayPlaneIntersect o d q.normal q.point).1 = some hit ∧
        isPointInPolygon3D hit q.verts q.normal = true ∧
        (rayPlaneIntersect o d q.normal q.point).2 = scanInert o d rest c') := by
      intro c' h hc
      subst hc
      rcases h with h | ⟨q, hq, h⟩
      · exact Or.inl h
      · exact Or.inr ⟨q, List.mem_cons_of_mem _ hq, h⟩
    unfold scanInert
    dsimp only
    split
    · exact lift c (ih c) rfl
    · rename_i hvalid
      split
      · rename_i hit hhit
        split
        · split
          · rename_i hin
            right
            rcases ih (rayPlaneIntersect o d pd.normal pd.point).2 with h | ⟨q, hq, h⟩
            · exact ⟨pd, List.mem_cons_self _ _, by simpa using hvalid, hit, hhit, hin, h.symm⟩
            · exact ⟨q, List.mem_cons_of_mem _ hq, h⟩
          · exact lift c (ih c) rfl
        · exact lift c (ih c) rfl
      · exact lift c (ih c) rfl

theorem scanEmit_closest_le_init (o d : Vec3 α) (p : Nat) (l : List (PolyData α))
    (st : EmitHit α) : (scanEmit o d p l st).closestEmit ≤ st.closestEmit := by
  induction l generalizing p st with
  | nil => exact le_refl _
  | cons pd rest ih =>
    unfold scanEmit
    dsimp only
    split
    · exact ih _ st
    · split
      · split
        · rename_i hlt
          split
          · exact le_trans (ih _ _) hlt.le
          · exact ih _ st
        · exact ih _ st
      · exact ih _ st

theorem scanEmit_closest_le_hit (o d : Vec3 α) (p : Nat) (l : List (PolyData α))
    (st : EmitHit α) (pd : PolyData α) (hit : Vec3 α) (hmem : pd ∈ l)
    (hvalid : pd.valid = true)
    (hhit : (rayPlaneIntersect o d pd.normal pd.point).1 = some hit)
    (hin : isPointInPolygon3D hit pd.verts pd.normal = true) :
    (scanEmit o d p l st).closestEmit ≤ (rayPlaneIntersect o d pd.normal pd.point).2 := by
  induction l generalizing p st with
  | nil => simp at hmem
  | cons q rest ih =>
    rcases List.mem_cons.1 hmem with rfl | hm
    · unfold scanEmit
      simp only [hvalid, Bool.not_true, hhit, Bool.false_eq_true, if_false]
      by_cases hlt : (rayPlaneIntersect o d pd.normal pd.point).2 < st.closestEmit
      · simp only [hlt, hin, if_true]
        exact scanEmit_closest_le_init _ _ _ _ _
      · simp only [hlt, if_false]
        exact le_trans (scanEmit_closest_le_init _ _ _ _ _) (not_lt.1 hlt)
    · unfold scanEmit
      dsimp only
      split
      · exact ih _ st hm
      · split
        · split
          · split
            · exact ih _ _ hm
            · exact ih _ st hm
          · exact ih _ st hm
        · exact ih _ st hm

theorem scanEmit_closest_attained (o d : Vec3 α) (p : Nat) (l : List (PolyData α))
    (st : EmitHit α) :
    (scanEmit o d p l st).closestEmit = st.closestEmit ∨ ∃ pd ∈ l, pd.valid = true ∧ ∃ hit,
      (rayPlaneIntersect o d pd.normal pd.point).1 = some hit ∧
      isPointInPolygon3D hit pd.verts pd.normal = true ∧
      (rayPlaneIntersect o d pd.normal pd.point).2 = (scanEmit o d p l st).closestEmit := by
  induction l generalizing p st with
  | nil => exact Or.inl rfl
  | cons pd rest ih =>
    have lift : ∀ st', ((scanEmit o d (p + 1) rest st').closestEmit = st'.closestEmit ∨
        ∃ q ∈ rest, q.valid = true ∧ ∃ hit,
        (rayPlaneIntersect o d q.normal q.point).1 = some hit ∧
        isPointInPolygon3D hit q.verts q.normal = true ∧
        (rayPlaneIntersect o d q.normal q.point).2 =
          (scanEmit o d (p + 1) rest st').closestEmit) →
        st' = st → ((scanEmit o d (p + 1) rest st').closestEmit = st.closestEmit ∨
        ∃ q ∈ pd :: rest, q.valid = true ∧ ∃ hit,
        (rayPlaneIntersect o d q.normal q.point).1 = some hit ∧
        isPointInPolygon3D hit q.verts q.normal = true ∧
        (rayPlaneIntersect o d q.normal q.point).2 =
          (scanEmit o d (p + 1) rest st').closestEmit) := by
      intro st' h hc
      subst hc
      rcases h with h | ⟨q, hq, h⟩
      · exact Or.inl h
      · exact Or.inr ⟨q, List.mem_cons_of_mem _ hq, h⟩
    unfold scanEmit
    dsimp only
    split
    · exact lift st (ih _ st) rfl
    · rename_i hvalid
      split
      · rename_i hit hhit
        split
        · split
          · rename_i hin
            right
            rcases ih (p + 1) ⟨(rayPlaneIntersect o d pd.normal pd.point).2, indexToInt p, hit⟩
              with h | ⟨q, hq, h⟩
            · exact ⟨pd, List.mem_cons_self _ _, by simpa using hvalid, hit, hhit, hin, h.symm⟩
            · exact ⟨q, List.mem_cons_of_mem _ hq, h⟩
          · exact lift st (ih _ st) rfl
        · exact lift st (ih _ st) rfl
      · exact lift st (ih _ st) rfl

/-- Without an emitter hit no index is recorded. -/
theorem scanEmit_no_hit (o d : Vec3 α) (p : Nat) (l : List (PolyData α)) (st : EmitHit α)
    (h : st.closestEmit = ⊤ → st.finalIdx = -1) :
    (scanEmit o d p l st).closestEmit = ⊤ → (scanEmit o d p l st).finalIdx = -1 := by
  induction l generalizing p st with
  | nil => exact h
  | cons pd rest ih =>
    unfold scanEmit
    dsimp only
    split
    · exact ih _ st h
    · split
      · rename_i hit hhit
        split
        · split
          · apply ih
            intro htop
            have := rayPlaneIntersect_some_lt_top o d pd.normal pd.point hit hhit
            dsimp only at htop
            rw [htop] at this
            exact absurd this (lt_irrefl _)
          · exact ih _ st h
        · exact ih _ st h
      · exact ih _ st h

theorem incrAt_getElem?_self (l : List Nat) (k : Nat) (hk : k < l.length) :
    (incrAt l k)[k]? = some (l.getD k 0 + 1) := by
  induction l generalizing k with
  | nil => simp at hk
  | cons c cs ih =>
    cases k with
    | zero => simp [incrAt]
    | succ k =>
      have := ih k (by simpa using hk)
      simpa [incrAt] using this

/-- The counter of emitter `k` after one ray. -/
theorem castRay_count (origin rdir : Vec3 α) (inertScene emitScene : List (PolyData α))
    (acc : RayAcc α) (hlen : acc.hitCounts.length ≤ 2 ^ 31) (k : Nat)
    (hk : k < acc.hitCounts.length) :
    (castRay origin inertScene emitScene acc rdir).hitCounts[k]? =
      some (acc.hitCounts.getD k 0 +
        if (scanEmit origin rdir 0 emitScene ⟨⊤, -1, Vec3.zero⟩).finalIdx = (k : Int) ∧
          (scanInert origin rdir inertScene ⊤ = ⊤ ∨
            (scanEmit origin rdir 0 emitScene ⟨⊤, -1, Vec3.zero⟩).closestEmit <
              scanInert origin rdir inertScene ⊤) then 1 else 0) := by
  have hrng := scanEmit_finalIdx_range origin rdir 0 emitScene ⟨⊤, -1, Vec3.zero⟩
    ⟨by norm_num, by norm_num⟩
  have hk31 : k < 2 ^ 31 := lt_of_lt_of_le hk hlen
  unfold castRay
  dsimp only
  generalize scanInert origin rdir inertScene ⊤ = cI
  generalize scanEmit origin rdir 0 emitScene ⟨⊤, -1, Vec3.zero⟩ = e at hrng
  have hblock : (decide (cI < ⊤) && decide (cI ≤ e.closestEmit)) = false ↔
      (cI = ⊤ ∨ e.closestEmit < cI) := by
    simp only [Bool.and_eq_false_imp, decide_eq_true_eq, decide_eq_false_iff_not, not_le]
    constructor
    · intro h
      by_cases hc : cI < ⊤
      · exact Or.inr (h hc)
      · exact Or.inl (not_lt_top_iff.1 hc)
    · rintro (h | h) hc
      · exact absurd hc (by rw [h]; exact lt_irrefl _)
      · exact h
  have hidx : intToIndex e.finalIdx = k ↔ e.finalIdx = (k : Int) := by
    constructor
    · intro heq
      by_cases hneg : e.finalIdx < 0
      · have h1 := intToIndex_of_neg _ hneg hrng.1
        norm_num at h1 hk31
        omega
      · have h1 := intToIndex_of_nonneg _ (not_lt.1 hneg) hrng.2
        omega
    · intro heq
      rw [heq, intToIndex_of_nonneg _ (Int.natCast_nonneg k) (by exact_mod_cast hk31)]
      simp
  have hget : acc.hitCounts[k]? = some (acc.hitCounts.getD k 0) := by
    rw [List.getD_eq_getElem _ _ hk, List.getElem?_eq_getElem hk]
  split
  · rename_i hc
    simp only [Bool.and_eq_true, Bool.not_eq_true', decide_eq_true_eq] at hc
    obtain ⟨hb, hne⟩ := hc
    have hb' := hblock.1 hb
    by_cases hfk : e.finalIdx = (k : Int)
    · rw [if_pos ⟨hfk, hb'⟩]
      have : intToIndex e.finalIdx = k := hidx.2 hfk
      rw [this]
      exact incrAt_getElem?_self _ _ hk
    · rw [if_neg (fun h => hfk h.1), add_zero, ← hget]
      exact incrAt_getElem?_ne _ _ _ (fun h => hfk (hidx.1 h))
  · rename_i hc
    simp only [Bool.and_eq_true, Bool.not_eq_true', decide_eq_true_eq, not_and] at hc
    have hno : ¬ (e.finalIdx = (k : Int) ∧ (cI = ⊤ ∨ e.closestEmit < cI)) := by
      rintro ⟨hfk, hb⟩
      have := hc (hblock.2 hb)
      rw [hfk] at this
      exact this (by omega)
    rw [if_neg hno, add_zero, hget]

/-- A tie between the nearest blocker and the nearest emitter leaves the counters as they
are. -/
theorem castRay_tie (origin rdir : Vec3 α) (inertScene emitScene : List (PolyData α))
    (acc : RayAcc α)
    (htie : scanInert origin rdir inertScene ⊤ =
      (scanEmit origin rdir 0 emitScene ⟨⊤, -1, Vec3.zero⟩).closestEmit) :
    castRay origin inertScene emitScene acc rdir = acc := by
  have hno := scanEmit_no_hit origin rdir 0 emitScene ⟨⊤, -1, Vec3.zero⟩ (fun _ => rfl)
  unfold castRay
  dsimp only
  rw [htie]
  generalize scanEmit origin rdir 0 emitScene ⟨⊤, -1, Vec3.zero⟩ = e at hno
  by_cases htop : e.closestEmit = ⊤
  · have := hno htop
    simp [this]
  · have hlt : e.closestEmit < ⊤ := lt_top_iff_ne_top.2 htop
    simp [hlt]

/-- The counter of emitter `k` after the ray loop: the rays attributed to `k` are counted. -/
theorem foldl_castRay_count (origin : Vec3 α) (inertScene emitScene : List (PolyData α))
    (rays : List (Vec3 α)) (acc : RayAcc α) (hlen : acc.hitCounts.length ≤ 2 ^ 31) (k : Nat)
    (hk : k < acc.hitCounts.length) :
    (rays.foldl (castRay origin inertScene emitScene) acc).hitCounts[k]? =
      some (acc.hitCounts.getD k 0 + rays.countP (fun rdir =>
        decide ((scanEmit origin rdir 0 emitScene ⟨⊤, -1, Vec3.zero⟩).finalIdx = (k : Int) ∧
          (scanInert origin rdir inertScene ⊤ = ⊤ ∨
            (scanEmit origin rdir 0 emitScene ⟨⊤, -1, Vec3.zero⟩).closestEmit <
              scanInert origin rdir inertScene ⊤)))) := by
  induction rays generalizing acc with
  | nil => simp [List.getD_eq_getElem _ _ hk, List.getElem?_eq_getElem hk]
  | cons r rs ih =>
    have h1 := castRay_count origin r inertScene emitScene acc hlen k hk
    have hl := castRay_length origin inertScene emitScene acc r
    rw [List.foldl_cons, ih _ (by rw [hl]; exact hlen) (by rw [hl]; exact hk)]
    have hget : (castRay origin inertScene emitScene acc r).hitCounts.getD k 0 =
        acc.hitCounts.getD k 0 +
        if (scanEmit origin r 0 emitScene ⟨⊤, -1, Vec3.zero⟩).finalIdx = (k : Int) ∧
          (scanInert origin r inertScene ⊤ = ⊤ ∨
            (scanEmit origin r 0 emitScene ⟨⊤, -1, Vec3.zero⟩).closestEmit <
              scanInert origin r inertScene ⊤) then 1 else 0 := by
      rw [List.getD_eq_getElem?_getD, h1]
      rfl
    rw [hget, List.countP_cons]
    congr 1
    by_cases hc : (scanEmit origin r 0 emitScene ⟨⊤, -1, Vec3.zero⟩).finalIdx = (k : Int) ∧
          (scanInert origin r inertScene ⊤ = ⊤ ∨
            (scanEmit origin r 0 emitScene ⟨⊤, -1, Vec3.zero⟩).closestEmit <
              scanInert origin r inertScene ⊤)
    · simp only [hc, and_self, if_true, decide_True]
      omega
    · simp only [hc, if_false, decide_False, Bool.false_eq_true]
      omega

/-- C15. For one ray: `closestInert` and `closestEmit` are the least forward hit distances over
the valid inert and the valid emitter polygons whose hit passes the interior test (`+infinity`
without such a hit); the ray is counted for emitter `k` exactly when `k` is the recorded
nearest emitter and `closestInert` is `+infinity` or greater than `closestEmit`; when
`closestInert = closestEmit` the ray is counted for no emitter. So the view factor of emitter
`k` is the number of sampled rays with this property, divided by the ray count. The scene has
at most `2^31` emitters, whose indices fit the `int` that records them. -/
theorem ray_attribution (M : MathLib α) (R : RandomSource α) (origin originNormal : Vec3 α)
    (emitterPolygons : List (PolygonWithTemp α)) (inertPolygons : List (List (Vec3 α)))
    (hlen : emitterPolygons.length ≤ 2 ^ 31) :
    (∀ (rdir : Vec3 α) (inertScene : List (PolyData α)),
      (∀ pd ∈ inertScene, pd.valid = true → ∀ hit,
        (rayPlaneIntersect origin rdir pd.normal pd.point).1 = some hit →
        isPointInPolygon3D hit pd.verts pd.normal = true →
        scanInert origin rdir inertScene ⊤ ≤
          (rayPlaneIntersect origin rdir pd.normal pd.point).2) ∧
      (scanInert origin rdir inertScene ⊤ = ⊤ ∨ ∃ pd ∈ inertScene, pd.valid = true ∧ ∃ hit,
        (rayPlaneIntersect origin rdir pd.normal pd.point).1 = some hit ∧
        isPointInPolygon3D hit pd.verts pd.normal = true ∧
        (rayPlaneIntersect origin rdir pd.normal pd.point).2 =
          scanInert origin rdir inertScene ⊤)) ∧
    (∀ (rdir : Vec3 α) (emitScene : List (PolyData α)),
      (∀ pd ∈ emitScene, pd.valid = true → ∀ hit,
        (rayPlaneIntersect origin rdir pd.normal pd.point).1 = some hit →
        isPointInPolygon3D hit pd.verts pd.normal = true →
        (scanEmit origin rdir 0 emitScene ⟨⊤, -1, Vec3.zero⟩).closestEmit ≤
          (rayPlaneIntersect origin rdir pd.normal pd.point).2) ∧
      ((scanEmit origin rdir 0 emitScene ⟨⊤, -1, Vec3.zero⟩).closestEmit = ⊤ ∨
        ∃ pd ∈ emitScene, pd.valid = true ∧ ∃ hit,
        (rayPlaneIntersect origin rdir pd.normal pd.point).1 = some hit ∧
        isPointInPolygon3D hit pd.verts pd.normal = true ∧
        (rayPlaneIntersect origin rdir pd.normal pd.point).2 =
          (scanEmit origin rdir 0 emitScene ⟨⊤, -1, Vec3.zero⟩).closestEmit)) ∧
    (∀ (rdir : Vec3 α) (acc : RayAcc α), acc.hitCounts.length = emitterPolygons.length →
      (∀ k, k < emitterPolygons.length →
        (castRay origin (inertPolygons.map (classify M))
            (emitterPolygons.map (fun poly => classify M poly.vertices)) acc rdir).hitCounts[k]? =
          some (acc.hitCounts.getD k 0 +
            if (scanEmit origin rdir 0 (emitterPolygons.map (fun poly => classify M poly.vertices))
                ⟨⊤, -1, Vec3.zero⟩).finalIdx = (k : Int) ∧
              (scanInert origin rdir (inertPolygons.map (classify M)) ⊤ = ⊤ ∨
                (scanEmit origin rdir 0
                  (emitterPolygons.map (fun poly => classify M poly.vertices))
                  ⟨⊤, -1, Vec3.zero⟩).closestEmit <
                  scanInert origin rdir (inertPolygons.map (classify M)) ⊤) then 1 else 0)) ∧
      (scanInert origin rdir (inertPolygons.map (classify M)) ⊤ =
          (scanEmit origin rdir 0 (emitterPolygons.map (fun poly => classify M poly.vertices))
            ⟨⊤, -1, Vec3.zero⟩).closestEmit →
        castRay origin (inertPolygons.map (classify M))
          (emitterPolygons.map (fun poly => classify M poly.vertices)) acc rdir = acc)) ∧
    (∀ (numRays : Nat) (rng : R.State) (k : Nat), numRays ≠ 0 → k < emitterPolygons.length →
      (calculateViewFactorsWithBlockage M R origin originNormal emitterPolygons inertPolygons
          numRays rng).1.viewFactors[k]? =
        some ((((generateCosineHemisphereRays M R numRays originNormal rng).1.countP
          (fun rdir => decide
            ((scanEmit origin rdir 0 (emitterPolygons.map (fun poly => classify M poly.vertices))
                ⟨⊤, -1, Vec3.zero⟩).finalIdx = (k : Int) ∧
              (scanInert origin rdir (inertPolygons.map (classify M)) ⊤ = ⊤ ∨
                (scanEmit origin rdir 0
                  (emitterPolygons.map (fun poly => classify M poly.vertices))
                  ⟨⊤, -1, Vec3.zero⟩).closestEmit <
                  scanInert origin rdir (inertPolygons.map (classify M)) ⊤))) : Nat) : α) /
          (numRays : α))) := by
  refine ⟨fun rdir inertScene => ⟨fun pd hpd hv hit hh hin =>
      scanInert_le_hit origin rdir inertScene ⊤ pd hit hpd hv hh hin,
      scanInert_attained origin rdir inertScene ⊤⟩,
    fun rdir emitScene => ⟨fun pd hpd hv hit hh hin =>
      scanEmit_closest_le_hit origin rdir 0 emitScene _ pd hit hpd hv hh hin,
      scanEmit_closest_attained origin rdir 0 emitScene ⟨⊤, -1, Vec3.zero⟩⟩, ?_, ?_⟩
  · intro rdir acc hacc
    refine ⟨fun k hk => ?_, castRay_tie origin rdir _ _ acc⟩
    exact castRay_count origin rdir _ _ acc (by rw [hacc]; exact hlen) k (by rw [hacc]; exact hk)
  · intro numRays rng k h0 hk
    unfold calculateViewFactorsWithBlockage
    rw [if_neg h0]
    have h := foldl_castRay_count origin (inertPolygons.map (classify M))
      (emitterPolygons.map (fun poly => classify M poly.vertices))
      (generateCosineHemisphereRays M R numRays originNormal rng).1
      ⟨List.replicate emitterPolygons.length 0, [], []⟩ (by simpa using hlen) k
      (by simpa using hk)
    simp only [List.getElem?_map, h, Option.map_some']
    have hz : (List.replicate emitterPolygons.length (0 : Nat)).getD k 0 = 0 := by
      simp only [List.getD_eq_getElem?_getD, List.getElem?_replicate]
      split <;> rfl
    rw [hz, zero_add]

end Attribution

/-- Witness of C15: the emitter of the occlusion scene alone, four rays of the counter
generator. -/
theorem ray_attribution_witness :
    ([⟨sceneEmitter, 100⟩] : List (PolygonWithTemp ℚ)).length ≤ 2 ^ 31 ∧
    (calculateViewFactorsWithBlockage ratMath counterSource ⟨0, 0, 0⟩ ⟨0, 0, 1⟩
        [⟨sceneEmitter, 100⟩] [] 4 (0 : Nat)).1.viewFactors[0]? =
      some ((((generateCosineHemisphereRays ratMath counterSource 4 ⟨0, 0, 1⟩ (0 : Nat)).1.countP
        (fun rdir => decide
          ((scanEmit (⟨0, 0, 0⟩ : Vec3 ℚ) rdir 0
              (([⟨sceneEmitter, 100⟩] : List (PolygonWithTemp ℚ)).map
                (fun poly => classify ratMath poly.vertices))
              ⟨⊤, -1, Vec3.zero⟩).finalIdx = ((0 : Nat) : Int) ∧
            (scanInert (⟨0, 0, 0⟩ : Vec3 ℚ) rdir
                (([] : List (List (Vec3 ℚ))).map (classify ratMath)) ⊤ = ⊤ ∨
              (scanEmit (⟨0, 0, 0⟩ : Vec3 ℚ) rdir 0
                (([⟨sceneEmitter, 100⟩] : List (PolygonWithTemp ℚ)).map
                  (fun poly => classify ratMath poly.vertices))
                ⟨⊤, -1, Vec3.zero⟩).closestEmit <
                scanInert (⟨0, 0, 0⟩ : Vec3 ℚ) rdir
                  (([] : List (List (Vec3 ℚ))).map (classify ratMath)) ⊤))) : Nat) : ℚ) /
        ((4 : Nat) : ℚ)) :=
  ⟨by norm_num, (ray_attribution ratMath counterSource ⟨0, 0, 0⟩ ⟨0, 0, 1⟩
    [⟨sceneEmitter, 100⟩] [] (by norm_num)).2.2.2 4 (0 : Nat) 0 (by norm_num) (by simp)⟩

/-! ## Ray count, seed and unknown keys -/

section Options

open mini_json

variable {α : Type} [LinearOrderedField α] [FloorRing α]

theorem foldl_applyField_numRays_unchanged (fields : List (Field α)) (st : MainState α)
    (h : ∀ f ∈ fields, f.isNumRays = false) :
    (fields.foldl applyField st).out.numRays = st.out.numRays := by
  induction fields generalizing st with
  | nil => rfl
  | cons f tl ih =>
    rw [List.foldl_cons, ih _ (fun g hg => h g (List.mem_cons_of_mem _ hg))]
    have hf := h f (List.mem_cons_self _ _)
    cases f <;> first | rfl | exact absurd hf (by simp [Field.isNumRays])

theorem foldl_applyField_seed_unchanged (fields : List (Field α)) (st : MainState α)
    (h : ∀ f ∈ fields, f.isSeed = false) :
    (fields.foldl applyField st).out.seed = st.out.seed := by
  induction fields generalizing st with
  | nil => rfl
  | cons f tl ih =>
    rw [List.foldl_cons, ih _ (fun g hg => h g (List.mem_cons_of_mem _ hg))]
    have hf := h f (List.mem_cons_self _ _)
    cases f <;> first | rfl | exact absurd hf (by simp [Field.isSeed])

theorem validate_ok {β : Type} (st : MainState β) (inp : JsonInput β)
    (h : validate st = .ok inp) :
    inp = st.out := by
  unfold validate at h
  split at h
  · exact absurd h (by simp)
  · split at h
    · exact absurd h (by simp)
    · split at h
      · exact absurd h (by simp)
      · simpa using h.symm

/-- C12. For a well-formed request (in compact form) that `parseInputJson` accepts: without a
`num_rays` member `numRays` keeps its default `100000`; when the last `num_rays` member has a
negative value `numRays` is `0`, and when its value is a non-negative integer `n < 2^53`
`numRays` is `n`; without a `seed` member the seed is absent. -/
theorem numRays_and_seed (L : CLib α) (fields : List (Field α))
    (hfs : ∀ f ∈ fields, f.Reads L) (w0 h0 : α) (fuel : Nat)
    (hfuel : (renderRequest fields).length ≤ fuel) (inp : JsonInput α)
    (hparse : parseInputJson L fuel (renderRequest fields) (JsonInput.fresh w0 h0) =
      some (.ok inp)) :
    ((∀ f ∈ fields, f.isNumRays = false) → inp.numRays = 100000) ∧
    (∀ (pre post : List (Field α)) (t : NumTok α), fields = pre ++ .numRays t :: post →
      (∀ f ∈ post, f.isNumRays = false) →
      (t.value < 0 → inp.numRays = 0) ∧
      (∀ n : Nat, n < 2 ^ 53 → t.value = (n : α) → inp.numRays = n)) ∧
    ((∀ f ∈ fields, f.isSeed = false) → inp.seed = none) := by
  rw [parseInputJson_render L fields hfs _ fuel hfuel] at hparse
  have hinp := validate_ok _ inp (by simpa using hparse)
  subst hinp
  refine ⟨fun h => ?_, fun pre post t hsplit hpost => ?_, fun h => ?_⟩
  · rw [foldl_applyField_numRays_unchanged _ _ h]; rfl
  · subst hsplit
    rw [List.foldl_append, List.foldl_cons, foldl_applyField_numRays_unchanged _ _ hpost]
    simp only [applyField]
    refine ⟨fun hneg => ?_, fun n _ hn => ?_⟩
    · rw [if_pos hneg, Nat.floor_zero]
    · have : ¬ (t.value < 0) := by rw [hn]; exact not_lt.2 (Nat.cast_nonneg n)
      rw [if_neg this, hn, Nat.floor_natCast]
  · rw [foldl_applyField_seed_unchanged _ _ h]; rfl

/-! ## A text on which the reader does not return -/

theorem mainLoop_unknownKey (L : CLib α) (fuel : Nat) (st : MainState α) :
    mainLoop L fuel ['"', 'x', '"', ':', '1', '\x7d'] st = none := by
  induction fuel with
  | zero => rfl
  | succ fuel ih =>
    have hk : ∀ key : List Char, key ≠ ['x'] →
        parseKey ['"', 'x', '"', ':', '1', '\x7d'] key = (false, ['1', '\x7d']) := by
      intro key hkey
      have : (['x'] : List Char) ≠ key := fun h => hkey h.symm
      simp [parseKey, expectChar, skipSpaces, dquote, List.takeWhile, List.dropWhile, this]
    have hsk : skipSpaces ['"', 'x', '"', ':', '1', '\x7d'] = ['"', 'x', '"', ':', '1', '\x7d'] := by
      simp [skipSpaces]
    unfold mainLoop
    simp only [hsk, stepReceiverPlanes, stepPolygons, stepInertPolygons, stepNumRays, stepSeed,
      hk keyReceiverPlanes (by decide), hk keyPolygons (by decide),
      hk keyInertPolygons (by decide), hk keyNumRays (by decide), hk keySeed (by decide),
      andThen, Bool.false_eq_true, if_false, reduceCtorEq, List.cons.injEq, Char.reduceEq,
      false_and, imp_false, not_false_eq_true, implies_true, ih]

/-- C11 on the text `{"x":1}`. Whatever the fuel, `parseInputJson` does not return on it: every
iteration of its loop tries the five known keys, puts the cursor back, finds no comma and
starts again at the same place; so `runFromJsonString` returns no report. -/
theorem unknown_key_never_returns (L : CLib α) (M : MathLib α) (R : RandomSource α)
    (fuel : Nat) (entropy : List Nat) (w0 h0 : α) (out : JsonInput α) :
    unknownKeyText = "\x7b\"x\":1\x7d".toList ∧
    parseInputJson L fuel unknownKeyText out = none ∧
    runFromJsonString L M R fuel entropy w0 h0 unknownKeyText = none := by
  have hp : ∀ o : JsonInput α, parseInputJson L fuel unknownKeyText o = none := by
    intro o
    have he : expectChar (skipSpaces unknownKeyText) '\x7b' =
        (true, ['"', 'x', '"', ':', '1', '\x7d']) := by
      simp [unknownKeyText, expectChar, skipSpaces]
    simp only [parseInputJson, he, Bool.not_true, Bool.false_eq_true, if_false,
      mainLoop_unknownKey]
  refine ⟨rfl, hp out, ?_⟩
  simp only [runFromJsonString, hp]

end Options

set_option maxRecDepth 100000 in
/-- Witness of C12: the sample request, whose `num_rays` member `4` is followed by the seed. -/
theorem numRays_and_seed_witness :
    parseInputJson decLib 300 (renderRequest sampleRequest) (JsonInput.fresh 0 0) =
      some (.ok sampleInput) ∧
    (digitTok '4').value = ((4 : Nat) : ℚ) ∧ sampleInput.numRays = 4 := by
  have hv : (digitTok '4').value = ((4 : Nat) : ℚ) := by
    simp [digitTok]
  exact ⟨sampleRequest_parse, hv,
    ((numRays_and_seed decLib sampleRequest sampleRequest_reads 0 0 300
      (Nat.le_of_ble_eq_true rfl) sampleInput sampleRequest_parse).2.1
      [samplePlanes, .polygons [⟨sampleSquare, digitTok '7'⟩]] [.seed (digitSeed '3')]
      (digitTok '4') rfl (by
        intro f hf
        simp only [List.mem_singleton] at hf
        subst hf
        rfl)).2 4 (by norm_num) hv⟩


/-! ## The interior test -/

section InteriorTest

variable {α : Type} [LinearOrderedField α]

/-- C21. `isPointInPolygon3D` is the 2D even-odd test after one coordinate is dropped: `x` when
`|nx|` is the weak maximum of the three absolute components, else `y` when `|ny|` is the weak
maximum, otherwise `z`, which is then the strict maximum; the two retained coordinates keep
their order `(y,z)`, `(x,z)` or `(x,y)`. -/
theorem dominant_axis_projection (p : Vec3 α) (polygon : List (Vec3 α)) (n : Vec3 α) :
    ((|n.x| ≥ |n.y| ∧ |n.x| ≥ |n.z|) →
      isPointInPolygon3D p polygon n =
        isPointInPolygon2D (polygon.map (fun v => (v.y, v.z))) p.y p.z) ∧
    (¬ (|n.x| ≥ |n.y| ∧ |n.x| ≥ |n.z|) → (|n.y| ≥ |n.x| ∧ |n.y| ≥ |n.z|) →
      isPointInPolygon3D p polygon n =
        isPointInPolygon2D (polygon.map (fun v => (v.x, v.z))) p.x p.z) ∧
    (¬ (|n.x| ≥ |n.y| ∧ |n.x| ≥ |n.z|) → ¬ (|n.y| ≥ |n.x| ∧ |n.y| ≥ |n.z|) →
      (|n.z| > |n.x| ∧ |n.z| > |n.y|) ∧
      isPointInPolygon3D p polygon n =
        isPointInPolygon2D (polygon.map (fun v => (v.x, v.y))) p.x p.y) := by
  refine ⟨fun h => ?_, fun h1 h2 => ?_, fun h1 h2 => ⟨?_, ?_⟩⟩
  · simp only [isPointInPolygon3D, keptAxes, h, and_self, if_true, Vec3.coord]
    simp
  · simp only [isPointInPolygon3D, keptAxes, h1, h2, and_self, if_true, if_false, Vec3.coord]
    simp
  · simp only [ge_iff_le, not_and_or, not_le] at h1 h2
    constructor
    · rcases h1 with h1 | h1
      · rcases h2 with h2 | h2
        · exact absurd h1 (not_lt.2 h2.le)
        · exact lt_trans h1 h2
      · exact h1
    · rcases h2 with h2 | h2
      · rcases h1 with h1 | h1
        · exact absurd h1 (not_lt.2 h2.le)
        · exact lt_trans h2 h1
      · exact h2
  · simp only [isPointInPolygon3D, keptAxes, h1, h2, if_false, Vec3.coord]
    simp

end InteriorTest

/-- Witness of C21: the normal `(0,0,1)` keeps `(x,y)`, the normal `(1,1,0)` drops `x`. -/
theorem dominant_axis_projection_witness :
    (|(1 : ℚ)| ≥ |(1 : ℚ)| ∧ |(1 : ℚ)| ≥ |(0 : ℚ)|) ∧
    isPointInPolygon3D (⟨0, 0, 5⟩ : Vec3 ℚ) sceneEmitter ⟨1, 1, 0⟩ =
      isPointInPolygon2D ((sceneEmitter : List (Vec3 ℚ)).map (fun v => (v.y, v.z))) 0 5 ∧
    ¬ (|(0 : ℚ)| ≥ |(0 : ℚ)| ∧ |(0 : ℚ)| ≥ |(1 : ℚ)|) ∧
    isPointInPolygon3D (⟨0, 0, 5⟩ : Vec3 ℚ) sceneEmitter ⟨0, 0, 1⟩ =
      isPointInPolygon2D ((sceneEmitter : List (Vec3 ℚ)).map (fun v => (v.x, v.y))) 0 0 := by
  have h1 : (|(1 : ℚ)| ≥ |(1 : ℚ)| ∧ |(1 : ℚ)| ≥ |(0 : ℚ)|) := by norm_num
  have h2 : ¬ (|(0 : ℚ)| ≥ |(0 : ℚ)| ∧ |(0 : ℚ)| ≥ |(1 : ℚ)|) := by norm_num
  exact ⟨h1, (dominant_axis_projection (⟨0, 0, 5⟩ : Vec3 ℚ) sceneEmitter ⟨1, 1, 0⟩).1 h1, h2,
    ((dominant_axis_projection (⟨0, 0, 5⟩ : Vec3 ℚ) sceneEmitter ⟨0, 0, 1⟩).2.2 h2 h2).2⟩

/-! ## The nearest hit, with and without the short-circuit -/

section Nearest

variable {α : Type} [LinearOrderedField α]

theorem minPassingDistance_cons (o d : Vec3 α) (pd : PolyData α) (rest : List (PolyData α)) :
    minPassingDistance o d (pd :: rest) =
      min (passingDistance o d pd) (minPassingDistance o d rest) := rfl

/-- One iteration of the inert loop, short-circuit included, keeps the smaller of the distance
so far and the passing distance of the polygon. -/
theorem scanInert_step (o d : Vec3 α) (pd : PolyData α) (rest : List (PolyData α))
    (c : WithTop α) :
    scanInert o d (pd :: rest) c = scanInert o d rest (min c (passingDistance o d pd)) := by
  simp only [scanInert, passingDistance]
  by_cases hv : pd.valid = true
  · simp only [hv, Bool.not_true, Bool.false_eq_true, if_false, if_true]
    rcases hr : rayPlaneIntersect o d pd.normal pd.point with ⟨_ | hit, t⟩
    · simp only [min_eq_left le_top]
    · simp only
      by_cases hlt : t < c
      · by_cases hin : isPointInPolygon3D hit pd.verts pd.normal = true
        · simp only [hlt, hin, if_true, min_eq_right hlt.le]
        · simp only [hlt, hin, if_true, Bool.false_eq_true, if_false, min_eq_left le_top]
      · have hle : c ≤ t := not_lt.1 hlt
        by_cases hin : isPointInPolygon3D hit pd.verts pd.normal = true
        · simp only [hlt, hin, if_true, if_false, min_eq_left hle]
        · simp only [hlt, hin, Bool.false_eq_true, if_false, min_eq_left le_top]
  · have hv' : pd.valid = false := by simpa using hv
    simp only [hv', Bool.not_false, if_true, Bool.false_eq_true, if_false, min_eq_left le_top]

theorem scanInert_eq_min (o d : Vec3 α) (l : List (PolyData α)) (c : WithTop α) :
    scanInert o d l c = min c (minPassingDistance o d l) := by
  induction l generalizing c with
  | nil => simp [scanInert, minPassingDistance]
  | cons pd rest ih =>
    rw [scanInert_step, ih, minPassingDistance_cons, min_assoc]

/-- One iteration of the emitter loop, short-circuit included: the state is replaced exactly
when the passing distance of the polygon is below the distance so far. -/
theorem scanEmit_step (o d : Vec3 α) (p : Nat) (pd : PolyData α) (rest : List (PolyData α))
    (st : EmitHit α) :
    ∃ hit : Vec3 α, scanEmit o d p (pd :: rest) st =
      scanEmit o d (p + 1) rest
        (if passingDistance o d pd < st.closestEmit
          then ⟨passingDistance o d pd, indexToInt p, hit⟩ else st) := by
  simp only [scanEmit, passingDistance]
  by_cases hv : pd.valid = true
  · simp only [hv, Bool.not_true, Bool.false_eq_true, if_false, if_true]
    rcases hr : rayPlaneIntersect o d pd.normal pd.point with ⟨_ | hit, t⟩
    · exact ⟨Vec3.zero, by simp only [not_top_lt, if_false]⟩
    · refine ⟨hit, ?_⟩
      simp only
      by_cases hlt : t < st.closestEmit
      · by_cases hin : isPointInPolygon3D hit pd.verts pd.normal = true
        · simp only [hlt, hin, if_true]
        · simp only [hlt, hin, if_true, Bool.false_eq_true, if_false, not_top_lt]
      · by_cases hin : isPointInPolygon3D hit pd.verts pd.normal = true
        · simp only [hlt, hin, if_true, if_false]
        · simp only [hlt, hin, Bool.false_eq_true, if_false, not_top_lt]
  · have hv' : pd.valid = false := by simpa using hv
    exact ⟨Vec3.zero, by
      simp only [hv', Bool.not_false, if_true, Bool.false_eq_true, if_false, not_top_lt]⟩

theorem scanEmit_eq_spec (o d : Vec3 α) (p : Nat) (l : List (PolyData α)) (st : EmitHit α) :
    (scanEmit o d p l st).closestEmit = min st.closestEmit (minPassingDistance o d l) ∧
    (scanEmit o d p l st).finalIdx =
      if minPassingDistance o d l < st.closestEmit
        then indexToInt (p + lowestIndexAttaining o d (minPassingDistance o d l) l)
        else st.finalIdx := by
  induction l generalizing p st with
  | nil => simp [scanEmit, minPassingDistance]
  | cons pd rest ih =>
    obtain ⟨hit, hstep⟩ := scanEmit_step o d p pd rest st
    rw [hstep, minPassingDistance_cons]
    simp only [lowestIndexAttaining]
    generalize passingDistance o d pd = q at *
    generalize hmr : minPassingDistance o d rest = mr at *
    by_cases hq : q < st.closestEmit
    · rw [if_pos hq]
      obtain ⟨h1, h2⟩ := ih (p + 1) ⟨q, indexToInt p, hit⟩
      rw [h1, h2]
      have hm : min q mr < st.closestEmit := lt_of_le_of_lt (min_le_left _ _) hq
      refine ⟨?_, ?_⟩
      · rw [min_eq_right hm.le]
      · rw [if_pos hm]
        by_cases hlt : mr < q
        · have hne : ¬ q = min q mr := by
            rw [min_eq_right hlt.le]; exact fun h => (ne_of_lt hlt) h.symm
          rw [if_pos hlt, if_neg hne, min_eq_right hlt.le]
          congr 1
          omega
        · have he : q = min q mr := (min_eq_left (not_lt.1 hlt)).symm
          rw [if_neg hlt, if_pos he]
          rfl
    · rw [if_neg hq]
      have hcq : st.closestEmit ≤ q := not_lt.1 hq
      obtain ⟨h1, h2⟩ := ih (p + 1) st
      rw [h1, h2]
      refine ⟨?_, ?_⟩
      · rw [← min_assoc, min_eq_left hcq]
      · by_cases hlt : mr < st.closestEmit
        · have hmq : mr < q := lt_of_lt_of_le hlt hcq
          have hne : ¬ q = min q mr := by
            rw [min_eq_right hmq.le]; exact fun h => (ne_of_lt hmq) h.symm
          rw [if_pos hlt, min_eq_right hmq.le, if_pos hlt]
          rw [if_neg (by rw [min_eq_right hmq.le] at hne; exact hne)]
          congr 1
          omega
        · have : ¬ min q mr < st.closestEmit := by
            intro h
            rcases min_choice q mr with h' | h'
            · rw [h'] at h; exact hq h
            · rw [h'] at h; exact hlt h
          rw [if_neg hlt, if_neg this]

theorem passingDistance_lt_top (o d : Vec3 α) (pd : PolyData α) :
    passingDistance o d pd < ⊤ ↔ pd.valid = true ∧ ∃ hit,
      (rayPlaneIntersect o d pd.normal pd.point).1 = some hit ∧
      isPointInPolygon3D hit pd.verts pd.normal = true := by
  unfold passingDistance
  by_cases hv : pd.valid = true
  · simp only [hv, if_true, true_and]
    rcases hr : rayPlaneIntersect o d pd.normal pd.point with ⟨_ | hit, t⟩
    · simp
    · have ht : (rayPlaneIntersect o d pd.normal pd.point).2 < ⊤ :=
        rayPlaneIntersect_some_lt_top o d pd.normal pd.point hit (by rw [hr])
      rw [hr] at ht
      by_cases hin : isPointInPolygon3D hit pd.verts pd.normal = true
      · simp only [hin, if_true, Option.some.injEq, exists_eq_left', iff_true]
        exact ht
      · simp [hin]
  · simp [hv]

theorem lowestIndexAttaining_spec (o d : Vec3 α) (m : WithTop α) (l : List (PolyData α))
    (h : ∃ pd ∈ l, passingDistance o d pd = m) :
    ∃ pd, l[lowestIndexAttaining o d m l]? = some pd ∧ passingDistance o d pd = m ∧
      ∀ j pd', j < lowestIndexAttaining o d m l → l[j]? = some pd' →
        passingDistance o d pd' ≠ m := by
  induction l with
  | nil => obtain ⟨pd, hpd, _⟩ := h; simp at hpd
  | cons a rest ih =>
    simp only [lowestIndexAttaining]
    by_cases ha : passingDistance o d a = m
    · rw [if_pos ha]
      exact ⟨a, List.getElem?_cons_zero, ha, fun j pd' hj => absurd hj (Nat.not_lt_zero j)⟩
    · rw [if_neg ha]
      obtain ⟨pd, hpd, hm⟩ := h
      have hrest : ∃ pd ∈ rest, passingDistance o d pd = m := by
        rcases List.mem_cons.1 hpd with rfl | hp
        · exact absurd hm ha
        · exact ⟨pd, hp, hm⟩
      obtain ⟨q, hq1, hq2, hq3⟩ := ih hrest
      refine ⟨q, by simpa using hq1, hq2, ?_⟩
      intro j pd' hj hget
      cases j with
      | zero =>
        simp only [List.getElem?_cons_zero, Option.some.injEq] at hget
        subst hget
        exact ha
      | succ j =>
        simp only [List.getElem?_cons_succ] at hget
        exact hq3 j pd' (by omega) hget

theorem minPassingDistance_attained (o d : Vec3 α) (l : List (PolyData α))
    (h : minPassingDistance o d l ≠ ⊤) :
    ∃ pd ∈ l, passingDistance o d pd = minPassingDistance o d l := by
  induction l with
  | nil => exact absurd rfl h
  | cons a rest ih =>
    rw [minPassingDistance_cons] at h ⊢
    rcases min_choice (passingDistance o d a) (minPassingDistance o d rest) with h' | h'
    · exact ⟨a, List.mem_cons_self _ _, h'.symm⟩
    · rw [h'] at h ⊢
      obtain ⟨pd, hpd, he⟩ := ih h
      exact ⟨pd, List.mem_cons_of_mem _ hpd, he⟩

theorem minPassingDistance_le (o d : Vec3 α) (l : List (PolyData α)) (pd : PolyData α)
    (hpd : pd ∈ l) : minPassingDistance o d l ≤ passingDistance o d pd := by
  induction l with
  | nil => simp at hpd
  | cons a rest ih =>
    rw [minPassingDistance_cons]
    rcases List.mem_cons.1 hpd with rfl | hp
    · exact min_le_left _ _
    · exact le_trans (min_le_right _ _) (ih hp)

/-- C22. The loops of one ray compute what the search without short-circuit computes:
`closestInert` and `closestEmit` are the minimum of the passing hit distances over the valid
inert and emitter polygons, and the recorded emitter is the lowest index among the emitters at
that minimum distance (none, recorded as `-1`, when no emitter passes); the index is recorded
through the conversion to `int`, which is exact for scenes of at most `2^31` emitters. -/
theorem nearest_emitter_refinement (origin rdir : Vec3 α)
    (inertScene emitScene : List (PolyData α)) :
    scanInert origin rdir inertScene ⊤ = minPassingDistance origin rdir inertScene ∧
    (scanEmit origin rdir 0 emitScene ⟨⊤, -1, Vec3.zero⟩).closestEmit =
      minPassingDistance origin rdir emitScene ∧
    (scanEmit origin rdir 0 emitScene ⟨⊤, -1, Vec3.zero⟩).finalIdx =
      (match nearestEmitterSpec origin rdir emitScene with
        | none => -1
        | some i => indexToInt i) ∧
    (emitScene.length ≤ 2 ^ 31 →
      (scanEmit origin rdir 0 emitScene ⟨⊤, -1, Vec3.zero⟩).finalIdx =
        (match nearestEmitterSpec origin rdir emitScene with
          | none => -1
          | some i => (i : Int))) ∧
    (∀ i, nearestEmitterSpec origin rdir emitScene = some i →
      ∃ pd, emitScene[i]? = some pd ∧
        passingDistance origin rdir pd = minPassingDistance origin rdir emitScene ∧
        (pd.valid = true ∧ ∃ hit,
          (rayPlaneIntersect origin rdir pd.normal pd.point).1 = some hit ∧
          isPointInPolygon3D hit pd.verts pd.normal = true) ∧
        (∀ pd' ∈ emitScene, minPassingDistance origin rdir emitScene ≤
          passingDistance origin rdir pd') ∧
        ∀ j pd', j < i → emitScene[j]? = some pd' →
          passingDistance origin rdir pd' ≠ minPassingDistance origin rdir emitScene) := by
  have hfi : (scanEmit origin rdir 0 emitScene ⟨⊤, -1, Vec3.zero⟩).finalIdx =
      (match nearestEmitterSpec origin rdir emitScene with
        | none => -1
        | some i => indexToInt i) := by
    rw [(scanEmit_eq_spec origin rdir 0 emitScene ⟨⊤, -1, Vec3.zero⟩).2]
    simp only [nearestEmitterSpec]
    by_cases h : minPassingDistance origin rdir emitScene = ⊤
    · simp only [h, lt_self_iff_false, if_false, if_true]
    · simp only [lt_top_iff_ne_top.2 h, h, if_true, if_false, Nat.zero_add]
  have hspec : ∀ i, nearestEmitterSpec origin rdir emitScene = some i →
      minPassingDistance origin rdir emitScene ≠ ⊤ ∧
      i = lowestIndexAttaining origin rdir (minPassingDistance origin rdir emitScene)
        emitScene := by
    intro i hi
    simp only [nearestEmitterSpec] at hi
    by_cases h : minPassingDistance origin rdir emitScene = ⊤
    · rw [if_pos h] at hi; exact absurd hi (by simp)
    · rw [if_neg h] at hi
      exact ⟨h, (Option.some.inj hi).symm⟩
  refine ⟨?_, ?_, hfi, ?_, ?_⟩
  · rw [scanInert_eq_min, min_eq_right le_top]
  · rw [(scanEmit_eq_spec origin rdir 0 emitScene ⟨⊤, -1, Vec3.zero⟩).1]
    exact min_eq_right le_top
  · intro hlen
    rw [hfi]
    cases hn : nearestEmitterSpec origin rdir emitScene with
    | none => rfl
    | some i =>
      obtain ⟨hne, hi⟩ := hspec i hn
      obtain ⟨pd, hget, _, _⟩ := lowestIndexAttaining_spec origin rdir _ emitScene
        (minPassingDistance_attained origin rdir emitScene hne)
      rw [← hi] at hget
      have hlt : i < emitScene.length := by
        by_contra hge
        rw [List.getElem?_eq_none (not_lt.1 hge)] at hget
        exact absurd hget (by simp)
      exact indexToInt_of_lt i (lt_of_lt_of_le hlt hlen)
  · intro i hn
    obtain ⟨hne, hi⟩ := hspec i hn
    obtain ⟨pd, hget, hm, hlow⟩ := lowestIndexAttaining_spec origin rdir _ emitScene
      (minPassingDistance_attained origin rdir emitScene hne)
    rw [← hi] at hget hlow
    refine ⟨pd, hget, hm, ?_, fun pd' hpd' => minPassingDistance_le origin rdir emitScene pd'
      hpd', hlow⟩
    exact (passingDistance_lt_top origin rdir pd).1 (by rw [hm]; exact lt_top_iff_ne_top.2 hne)

end Nearest

/-- Witness of C22: one ray straight up at the emitter of the occlusion scene. -/
theorem nearest_emitter_refinement_witness :
    ([⟨sceneEmitter, ⟨0, 0, 1⟩, ⟨-1, -1, 5⟩, true⟩] : List (PolyData ℚ)).length ≤ 2 ^ 31 ∧
    (scanEmit (⟨0, 0, 0⟩ : Vec3 ℚ) ⟨0, 0, 1⟩ 0 [⟨sceneEmitter, ⟨0, 0, 1⟩, ⟨-1, -1, 5⟩, true⟩]
        ⟨⊤, -1, Vec3.zero⟩).finalIdx =
      (match nearestEmitterSpec (⟨0, 0, 0⟩ : Vec3 ℚ) ⟨0, 0, 1⟩
          [⟨sceneEmitter, ⟨0, 0, 1⟩, ⟨-1, -1, 5⟩, true⟩] with
        | none => -1
        | some i => (i : Int)) :=
  ⟨by norm_num, (nearest_emitter_refinement (⟨0, 0, 0⟩ : Vec3 ℚ) ⟨0, 0, 1⟩ []
    [⟨sceneEmitter, ⟨0, 0, 1⟩, ⟨-1, -1, 5⟩, true⟩]).2.2.2.1 (by norm_num)⟩

/-! ## Bounds on the incident temperature; runs without a seed -/

section Bounds

open mini_json

variable {α : Type} [LinearOrderedField α]

/-- Every view factor is at least `0` and they sum to at most `1`. -/
theorem viewFactors_nonneg_sum_le (M : MathLib α) (R : RandomSource α)
    (origin originNormal : Vec3 α) (emitterPolygons : List (PolygonWithTemp α))
    (inertPolygons : List (List (Vec3 α))) (numRays : Nat) (rng : R.State) :
    (∀ f ∈ (calculateViewFactorsWithBlockage M R origin originNormal emitterPolygons
        inertPolygons numRays rng).1.viewFactors, 0 ≤ f) ∧
    (calculateViewFactorsWithBlockage M R origin originNormal emitterPolygons inertPolygons
        numRays rng).1.viewFactors.sum ≤ 1 := by
  unfold calculateViewFactorsWithBlockage
  by_cases h0 : numRays = 0
  · simp only [h0, if_true]
    refine ⟨?_, ?_⟩
    · intro f hf
      rw [List.eq_of_mem_replicate hf]
    · have : (List.replicate emitterPolygons.length (0 : α)).sum = 0 := by
        simp [List.sum_replicate]
      rw [this]; exact zero_le_one
  · simp only [h0, if_false]
    have hN : (0 : α) < (numRays : α) := by exact_mod_cast Nat.pos_of_ne_zero h0
    have hsum := foldl_castRay_sum_le origin (inertPolygons.map (classify M))
      (emitterPolygons.map (fun poly => classify M poly.vertices))
      (generateCosineHemisphereRays M R numRays originNormal rng).1
      ⟨List.replicate emitterPolygons.length 0, [], []⟩
    rw [generateCosineHemisphereRays_length] at hsum
    simp only [sum_replicate_zero, zero_add] at hsum
    refine ⟨?_, ?_⟩
    · intro f hf
      obtain ⟨c, _, rfl⟩ := List.mem_map.1 hf
      exact div_nonneg (Nat.cast_nonneg c) hN.le
    · rw [sum_map_div, div_le_one hN]
      exact_mod_cast hsum

theorem zipWith_mul_sum_le (vf temps : List α) (hi : α) (hhi : 0 ≤ hi)
    (h0 : ∀ f ∈ vf, 0 ≤ f) (ht : ∀ t ∈ temps, t ≤ hi) :
    (List.zipWith (fun f t => f * t) vf temps).sum ≤ hi * vf.sum := by
  induction vf generalizing temps with
  | nil => simp
  | cons f fs ih =>
    have hf : 0 ≤ f := h0 f (List.mem_cons_self _ _)
    have hfs : ∀ g ∈ fs, 0 ≤ g := fun g hg => h0 g (List.mem_cons_of_mem _ hg)
    cases temps with
    | nil =>
      simp only [List.zipWith_nil_right, List.sum_nil, List.sum_cons]
      exact mul_nonneg hhi (add_nonneg hf (List.sum_nonneg hfs))
    | cons t ts =>
      have h1 : f * t ≤ f * hi :=
        mul_le_mul_of_nonneg_left (ht t (List.mem_cons_self _ _)) hf
      have h2 := ih ts hfs (fun u hu => ht u (List.mem_cons_of_mem _ hu))
      simp only [List.zipWith_cons_cons, List.sum_cons]
      linarith

theorem le_zipWith_mul_sum (vf temps : List α) (lo : α) (hlo : lo ≤ 0)
    (h0 : ∀ f ∈ vf, 0 ≤ f) (ht : ∀ t ∈ temps, lo ≤ t) :
    lo * vf.sum ≤ (List.zipWith (fun f t => f * t) vf temps).sum := by
  induction vf generalizing temps with
  | nil => simp
  | cons f fs ih =>
    have hf : 0 ≤ f := h0 f (List.mem_cons_self _ _)
    have hfs : ∀ g ∈ fs, 0 ≤ g := fun g hg => h0 g (List.mem_cons_of_mem _ hg)
    cases temps with
    | nil =>
      simp only [List.zipWith_nil_right, List.sum_nil, List.sum_cons]
      exact mul_nonpos_of_nonpos_of_nonneg hlo (add_nonneg hf (List.sum_nonneg hfs))
    | cons t ts =>
      have h1 : f * lo ≤ f * t :=
        mul_le_mul_of_nonneg_left (ht t (List.mem_cons_self _ _)) hf
      have h2 := ih ts hfs (fun u hu => ht u (List.mem_cons_of_mem _ hu))
      simp only [List.zipWith_cons_cons, List.sum_cons]
      linarith

/-- The weighted sum of one receiver point lies between any `lo <= 0` below all temperatures
and any `hi >= 0` above them. -/
theorem totalTemperature_bounds (M : MathLib α) (R : RandomSource α)
    (origin originNormal : Vec3 α) (emitterPolygons : List (PolygonWithTemp α))
    (inertPolygons : List (List (Vec3 α))) (numRays : Nat) (rng : R.State) (lo hi : α)
    (hlo : lo ≤ 0) (hhi : 0 ≤ hi)
    (h : ∀ p ∈ emitterPolygons, lo ≤ p.temperature ∧ p.temperature ≤ hi) :
    lo ≤ totalTemperature (calculateViewFactorsWithBlockage M R origin originNormal
        emitterPolygons inertPolygons numRays rng).1.viewFactors emitterPolygons ∧
    totalTemperature (calculateViewFactorsWithBlockage M R origin originNormal
        emitterPolygons inertPolygons numRays rng).1.viewFactors emitterPolygons ≤ hi := by
  obtain ⟨hnn, hsum⟩ := viewFactors_nonneg_sum_le M R origin originNormal emitterPolygons
    inertPolygons numRays rng
  have hlen := viewFactors_length M R origin originNormal emitterPolygons inertPolygons
    numRays rng
  rw [totalTemperature_eq_sum _ _ hlen]
  generalize (calculateViewFactorsWithBlockage M R origin originNormal emitterPolygons
    inertPolygons numRays rng).1.viewFactors = vf at hnn hsum
  have hs0 : 0 ≤ vf.sum := List.sum_nonneg hnn
  have hup := zipWith_mul_sum_le vf (emitterPolygons.map (fun poly => poly.temperature)) hi hhi
    hnn (by
      intro t ht
      obtain ⟨p, hp, rfl⟩ := List.mem_map.1 ht
      exact (h p hp).2)
  have hdn := le_zipWith_mul_sum vf (emitterPolygons.map (fun poly => poly.temperature)) lo hlo
    hnn (by
      intro t ht
      obtain ⟨p, hp, rfl⟩ := List.mem_map.1 ht
      exact (h p hp).1)
  constructor
  · have : lo ≤ lo * vf.sum := by nlinarith
    linarith
  · have : hi * vf.sum ≤ hi := by nlinarith
    linarith

theorem pointLoop_mem (M : MathLib α) (R : RandomSource α) (inp : JsonInput α)
    (rng : R.State) (k : Nat) (pts : List (ReceiverPoint α)) (t : α)
    (ht : t ∈ pointLoop M R inp rng k pts) :
    ∃ rp ∈ pts, ∃ g : R.State, t = totalTemperature (calculateViewFactorsWithBlockage M R
      rp.origin rp.normal inp.polygons inp.inertPolygons inp.numRays g).1.viewFactors
      inp.polygons := by
  induction pts generalizing k with
  | nil => simp [pointLoop] at ht
  | cons p rest ih =>
    simp only [pointLoop, List.mem_cons] at ht
    rcases ht with rfl | ht
    · exact ⟨p, List.mem_cons_self _ _, _, rfl⟩
    · obtain ⟨rp, hrp, g, hg⟩ := ih (k + 1) ht
      exact ⟨rp, List.mem_cons_of_mem _ hrp, g, hg⟩

theorem foldr_min_le (l : List α) :
    l.foldr min 0 ≤ 0 ∧ ∀ t ∈ l, l.foldr min 0 ≤ t := by
  induction l with
  | nil => simp
  | cons a l ih =>
    simp only [List.foldr_cons, List.mem_cons]
    refine ⟨le_trans (min_le_right _ _) ih.1, ?_⟩
    rintro t (rfl | ht)
    · exact min_le_left _ _
    · exact le_trans (min_le_right _ _) (ih.2 t ht)

theorem le_foldr_max (l : List α) :
    0 ≤ l.foldr max 0 ∧ ∀ t ∈ l, t ≤ l.foldr max 0 := by
  induction l with
  | nil => simp
  | cons a l ih =>
    simp only [List.foldr_cons, List.mem_cons]
    refine ⟨le_trans ih.1 (le_max_right _ _), ?_⟩
    rintro t (rfl | ht)
    · exact le_max_left _ _
    · exact le_trans (ih.2 t ht) (le_max_right _ _)

/-- C23. Every incident temperature of an input lies between `min(0, least emitter
temperature)` and `max(0, greatest emitter temperature)`; in particular it is in `[0, T]` when
all emitter temperatures are. These are the temperatures in the report of every request that
is read successfully. -/
theorem temperature_bounds (M : MathLib α) (R : RandomSource α) (entropy : List Nat)
    (inp : JsonInput α) :
    (∀ t ∈ pointTemperatures M R entropy inp,
      (inp.polygons.map (fun poly => poly.temperature)).foldr min 0 ≤ t ∧
      t ≤ (inp.polygons.map (fun poly => poly.temperature)).foldr max 0) ∧
    (∀ lo hi : α, lo ≤ 0 → 0 ≤ hi →
      (∀ p ∈ inp.polygons, lo ≤ p.temperature ∧ p.temperature ≤ hi) →
      ∀ t ∈ pointTemperatures M R entropy inp, lo ≤ t ∧ t ≤ hi) ∧
    (∀ T : α, 0 ≤ T → (∀ p ∈ inp.polygons, 0 ≤ p.temperature ∧ p.temperature ≤ T) →
      ∀ t ∈ pointTemperatures M R entropy inp, 0 ≤ t ∧ t ≤ T) ∧
    (∀ [FloorRing α] (L : CLib α) (fuel : Nat) (w0 h0 : α) (json : List Char),
      parseInputJson L fuel json (JsonInput.fresh w0 h0) = some (.ok inp) →
      runFromJsonString L M R fuel entropy w0 h0 json =
        some ⟨true, reportText L inp (pointTemperatures M R entropy inp)⟩) := by
  have gen : ∀ lo hi : α, lo ≤ 0 → 0 ≤ hi →
      (∀ p ∈ inp.polygons, lo ≤ p.temperature ∧ p.temperature ≤ hi) →
      ∀ t ∈ pointTemperatures M R entropy inp, lo ≤ t ∧ t ≤ hi := by
    intro lo hi hlo hhi h t ht
    obtain ⟨rp, _, g, rfl⟩ := pointLoop_mem M R inp _ 0 _ t ht
    exact totalTemperature_bounds M R rp.origin rp.normal inp.polygons inp.inertPolygons
      inp.numRays g lo hi hlo hhi h
  refine ⟨?_, gen, ?_, ?_⟩
  · obtain ⟨hm0, hm⟩ := foldr_min_le (inp.polygons.map (fun poly => poly.temperature))
    obtain ⟨hM0, hM⟩ := le_foldr_max (inp.polygons.map (fun poly => poly.temperature))
    exact gen _ _ hm0 hM0 (fun p hp =>
      ⟨hm _ (List.mem_map.2 ⟨p, hp, rfl⟩), hM _ (List.mem_map.2 ⟨p, hp, rfl⟩)⟩)
  · intro T hT h t ht
    exact gen 0 T (le_refl _) hT h t ht
  · intro _ L fuel w0 h0 json hparse
    simp only [runFromJsonString, hparse]

/-- C24. Without a seed the generator is built once from the entropy values and every
receiver point starts from that same state: the temperature of point `i` is computed from the
entropy-seeded generator whatever `i` is, it equals the temperature of that point as the only
point of the request, and two points with equal origin and equal normal get equal
temperatures. -/
theorem unseeded_points_share_generator (M : MathLib α) (R : RandomSource α)
    (entropy : List Nat) (inp : JsonInput α) (hseed : inp.seed = none) :
    baseRng R inp.seed entropy = R.seedSeq entropy ∧
    (∀ i : Nat, pointRng R inp.seed (baseRng R inp.seed entropy) i = R.seedSeq entropy) ∧
    (∀ (i : Nat) (rp : ReceiverPoint α), inp.receiverPoints[i]? = some rp →
      (pointTemperatures M R entropy inp)[i]? =
        some (totalTemperature (calculateViewFactorsWithBlockage M R rp.origin rp.normal
          inp.polygons inp.inertPolygons inp.numRays (R.seedSeq entropy)).1.viewFactors
          inp.polygons) ∧
      (pointTemperatures M R entropy inp)[i]? =
        (pointTemperatures M R entropy { inp with receiverPoints := [rp] })[0]?) ∧
    (∀ (i j : Nat) (rp rp' : ReceiverPoint α), inp.receiverPoints[i]? = some rp →
      inp.receiverPoints[j]? = some rp' → rp.origin = rp'.origin → rp.normal = rp'.normal →
      (pointTemperatures M R entropy inp)[i]? = (pointTemperatures M R entropy inp)[j]?) := by
  have hb : baseRng R inp.seed entropy = R.seedSeq entropy := by rw [hseed]; rfl
  have hp : ∀ i : Nat, pointRng R inp.seed (baseRng R inp.seed entropy) i =
      R.seedSeq entropy := by
    intro i; rw [hseed]; rfl
  have hval : ∀ (i : Nat) (rp : ReceiverPoint α), inp.receiverPoints[i]? = some rp →
      (pointTemperatures M R entropy inp)[i]? =
        some (totalTemperature (calculateViewFactorsWithBlockage M R rp.origin rp.normal
          inp.polygons inp.inertPolygons inp.numRays (R.seedSeq entropy)).1.viewFactors
          inp.polygons) := by
    intro i rp hi
    have h := pointLoop_getElem? M R inp (baseRng R inp.seed entropy) 0 inp.receiverPoints i
      rp hi
    rw [pointTemperatures, h, hp]
  refine ⟨hb, hp, fun i rp hi => ⟨hval i rp hi, ?_⟩, ?_⟩
  · rw [hval i rp hi]
    have h := pointLoop_getElem? M R { inp with receiverPoints := [rp] }
      (baseRng R inp.seed entropy) 0 [rp] 0 rp rfl
    simp only [pointTemperatures]
    rw [h]
    simp only [hseed, pointRng, baseRng]
  · intro i j rp rp' hi hj ho hn
    rw [hval i rp hi, hval j rp' hj, ho, hn]

end Bounds

/-- Witness of C23: the sample input, whose only emitter has temperature `7`. -/
theorem temperature_bounds_witness :
    (0 : ℚ) ≤ 7 ∧ (∀ p ∈ sampleInput.polygons, 0 ≤ p.temperature ∧ p.temperature ≤ 7) ∧
    ∀ t ∈ pointTemperatures ratMath counterSource [] sampleInput, 0 ≤ t ∧ t ≤ 7 := by
  have h : ∀ p ∈ sampleInput.polygons, 0 ≤ p.temperature ∧ p.temperature ≤ 7 := by
    intro p hp
    simp only [sampleInput, List.mem_singleton] at hp
    subst hp
    exact ⟨by norm_num, le_refl _⟩
  exact ⟨by norm_num, h,
    (temperature_bounds ratMath counterSource [] sampleInput).2.2.1 7 (by norm_num) h⟩

/-- Witness of C24: the sample input without its seed, entropy values `1, 2`. -/
theorem unseeded_points_share_generator_witness :
    ({ sampleInput with seed := none } : JsonInput ℚ).seed = none ∧
    pointRng counterSource ({ sampleInput with seed := none } : JsonInput ℚ).seed
        (baseRng counterSource ({ sampleInput with seed := none } : JsonInput ℚ).seed [1, 2]) 5 =
      counterSource.seedSeq [1, 2] :=
  ⟨rfl, (unseeded_points_share_generator ratMath counterSource [1, 2]
    { sampleInput with seed := none } rfl).2.1 5⟩


end Radiation
